import Mathlib

/-!
# libbrowserid assertion verifier: a shallow embedding

Definitions follow `bid_verify.c`, `bid_util.c`, `bid_rcache.c`, `bid_reauth.c`,
`bid_ppal.c`, `bid_openssl.c` and `bid_attrcert.c` of `src/libbrowserid`, and
`util_cred.c` and `util_context.c` of `src/mech_browserid`.

Conventions of the embedding

* A C string (`const char *`) is the list of its characters before the terminator.
* A `json_t *` is an `Option Json`; `none` is the `NULL` pointer.
* `time_t` values are mathematical integers (signed overflow is undefined in C and is
  not given a meaning here); `context->Skew` is an unsigned quantity.
* A callee whose body is not part of the sources is a field of `Env`; it returns the
  status code together with the value it leaves in its output parameter.
* A primitive of the OpenSSL library is a field of `OpenSSL`.
* A cache is passed and returned explicitly; a context holds the contents of its caches.
* `BID_BAIL_ON_ERROR(err)` is `if err ≠ BID_S_OK then return err`.
* `BID_ASSERT` is not given a meaning, and `BIDMalloc` is taken to succeed.
-/

set_option autoImplicit false

namespace BrowserID

/-- Status codes `BIDError`: first the enumerators of `browserid.h` in declaration order,
then the codes that the `.c` sources use in addition. -/
inductive BIDError
  | BID_S_OK
  | BID_S_NO_CONTEXT
  | BID_S_NO_MEMORY
  | BID_S_NOT_IMPLEMENTED
  | BID_S_INVALID_PARAMETER
  | BID_S_INVALID_USAGE
  | BID_S_UNAVAILABLE
  | BID_S_UNKNOWN_JSON_KEY
  | BID_S_INVALID_JSON
  | BID_S_INVALID_BASE64
  | BID_S_INVALID_ASSERTION
  | BID_S_CANNOT_ENCODE_JSON
  | BID_S_CANNOT_ENCODE_BASE64
  | BID_S_TOO_MANY_CERTS
  | BID_S_UNTRUSTED_ISSUER
  | BID_S_INVALID_ISSUER
  | BID_S_MISSING_ISSUER
  | BID_S_MISSING_AUDIENCE
  | BID_S_BAD_AUDIENCE
  | BID_S_EXPIRED_ASSERTION
  | BID_S_EXPIRED_CERT
  | BID_S_INVALID_SIGNATURE
  | BID_S_MISSING_ALGORITHM
  | BID_S_UNKNOWN_ALGORITHM
  | BID_S_INVALID_KEY
  | BID_S_INVALID_KEYSET
  | BID_S_NO_KEY
  | BID_S_CRYPTO_ERROR
  | BID_S_HTTP_ERROR
  | BID_S_BUFFER_TOO_SMALL
  | BID_S_BUFFER_TOO_LONG
  | BID_S_REMOTE_VERIFY_FAILURE
  | BID_S_MISSING_PRINCIPAL
  | BID_S_UNKNOWN_PRINCIPAL_TYPE
  | BID_S_MISSING_CERT
  | BID_S_UNKNOWN_ATTRIBUTE
  | BID_S_MISSING_CHANNEL_BINDINGS
  | BID_S_CHANNEL_BINDINGS_MISMATCH
  | BID_S_NO_SESSION_KEY
  | BID_S_DOCUMENT_NOT_MODIFIED
  | BID_S_INTERACT_UNAVAILABLE
  | BID_S_INTERACT_FAILURE
  | BID_S_INVALID_AUDIENCE_URN
  | BID_S_INVALID_JSON_WEB_TOKEN
  | BID_S_UNKNOWN_ERROR_CODE
  | BID_S_ASSERTION_NOT_YET_VALID
  | BID_S_CERT_NOT_YET_VALID
  | BID_S_REPLAYED_ASSERTION
  | BID_S_BAD_TICKET_CACHE
  | BID_S_NO_TICKET_CACHE
  | BID_S_CACHE_NOT_FOUND
  | BID_S_CACHE_KEY_NOT_FOUND
  | BID_S_CACHE_OPEN_ERROR
  | BID_S_NO_MORE_ITEMS
  | BID_S_INVALID_SECRET
  | BID_S_MISSING_CERT_BINDING
  | BID_S_CERT_BINDING_MISMATCH
  | BID_S_BAD_SUBJECT
  deriving DecidableEq, Repr

open BIDError

/-- A C string: the characters before the terminating NUL. -/
abbrev CStr := List Char

/-- A byte of a binary buffer. -/
abbrev Octet := Fin 256

/-- JSON values as jansson represents them (`json_t`). -/
inductive Json
  | null
  | bool (b : Bool)
  | integer (n : Int)
  | real (mantissa : Int) (exponent : Int)
  | string (s : CStr)
  | array (xs : List Json)
  | object (members : List (CStr × Json))

/-- First value stored under `key` in a member list. -/
def lookupMember (key : CStr) : List (CStr × Json) → Option Json
  | [] => none
  | (k, v) :: rest => if k = key then some v else lookupMember key rest

/-- jansson `json_object_get`: `NULL` unless the value is an object holding the key. -/
def json_object_get (json : Option Json) (key : CStr) : Option Json :=
  match json with
  | some (Json.object members) => lookupMember key members
  | _ => none

/-- jansson `json_string_value`: `NULL` unless the value is a string. -/
def json_string_value (json : Option Json) : Option CStr :=
  match json with
  | some (Json.string s) => some s
  | _ => none

/-- jansson `json_integer_value`: `0` unless the value is an integer. -/
def json_integer_value (json : Option Json) : Int :=
  match json with
  | some (Json.integer n) => n
  | _ => 0

/-- Modelled from the spec: `_BIDGetJsonTimestampValue`, whose body is not part of the
sources. It reads the integer timestamp stored under `key`; when the member is absent it
fails with `BID_S_UNKNOWN_JSON_KEY` (the code that `_BIDValidateExpiry` tests for) and the
output is zero. The pair is the status code and the value of the output parameter. -/
def _BIDGetJsonTimestampValue (json : Option Json) (key : CStr) : BIDError × Int :=
  match json_object_get json key with
  | none => (BID_S_UNKNOWN_JSON_KEY, 0)
  | some j => (BID_S_OK, json_integer_value (some j))

/-- A cache maps key strings to JSON objects; `none` is `BID_C_NO_REPLAY_CACHE`. -/
abbrev BIDReplayCache := Option (List (CStr × Json))

/-- The ticket cache is a cache of the same kind; `none` is `BID_C_NO_TICKET_CACHE`. -/
abbrev BIDTicketCache := Option (List (CStr × Json))

/-- The fields of `struct BIDContextDesc` that the verifier reads. The two cache fields
hold the current contents of the caches the context owns. -/
structure BIDContext where
  ContextOptions : Nat
  Skew : Nat
  TicketLifetime : Nat
  ReplayCache : BIDReplayCache
  TicketCache : BIDTicketCache

/-- Expiry policy `_BIDValidateExpiry` of `bid_verify.c`. -/
def _BIDValidateExpiry (context : BIDContext) (verificationTime : Int)
    (jwt : Option Json) : BIDError :=
  let iat := _BIDGetJsonTimestampValue jwt "iat".toList
  let issueTime : Int := iat.2
  if iat.1 = BID_S_OK ∧ issueTime - verificationTime > (context.Skew : Int) then
    BID_S_INVALID_ASSERTION
  else
    let nbf := _BIDGetJsonTimestampValue jwt "nbf".toList
    let notBefore : Int := nbf.2
    if nbf.1 = BID_S_OK ∧ notBefore - verificationTime > (context.Skew : Int) then
      BID_S_ASSERTION_NOT_YET_VALID
    else
      let exp := _BIDGetJsonTimestampValue jwt "exp".toList
      let useDefault : Bool := decide (exp.1 = BID_S_UNKNOWN_JSON_KEY ∧ issueTime ≠ 0)
      let expiryTime : Int := if useDefault then issueTime + (context.Skew : Int) else exp.2
      let err : BIDError := if useDefault then BID_S_OK else exp.1
      if err ≠ BID_S_OK then err
      else if verificationTime - expiryTime > (context.Skew : Int) then
        BID_S_EXPIRED_ASSERTION
      else err

/-- Parsed JSON web token (`struct BIDJWTDesc`; its declaration is not part of the sources,
the fields are those of the specification: signing input, header, payload, signature). -/
structure BIDJWT where
  EncData : CStr
  Header : Option Json
  Payload : Option Json
  Signature : List Octet

/-- A key or key set is a JSON object (`BIDJWK`, `BIDJWKSet`). -/
abbrev BIDJWK := Option Json

/-- An authority document is a JSON object (`BIDAuthority`). -/
abbrev BIDAuthority := Option Json

/-- Backed assertion `struct BIDBackedAssertionDesc`: the final assertion and the
certificate array; `cCertificates` is the number of filled slots. -/
structure BIDBackedAssertion where
  Assertion : BIDJWT
  rCertificates : List BIDJWT

/-- Count of certificates, the field `cCertificates`. -/
def BIDBackedAssertion.cCertificates (a : BIDBackedAssertion) : Nat :=
  a.rCertificates.length

/-- Verified identity `struct BIDIdentityDesc`; `SessionKey` is `none` for a null
pointer, its length is `SessionKeyLength`. -/
structure BIDIdentity where
  Attributes : Option Json
  PrivateAttributes : Option Json
  SessionKey : Option (List Octet)

/-- What `_BIDVerifyReauthAssertion` (bid_reauth.c) leaves behind: its status, the backed
assertion after the call (it deletes `exp` from the authenticator payload), the identity
and the verifier credential. -/
structure ReauthOutput where
  err : BIDError
  assertion : BIDBackedAssertion
  VerifiedIdentity : Option BIDIdentity
  VerifierCred : BIDJWK

/-- Constants of `bid_private.h` and callees defined outside the files embedded here. Each
callee returns its status code and the value left in its output parameter. -/
structure Env where
  BID_MAX_CERTS : Nat
  BID_CONTEXT_REAUTH : Nat
  BID_VERIFY_FLAG_NO_REAUTH : Nat
  BID_VERIFY_FLAG_REAUTH : Nat
  _BIDParseJWT : CStr → BIDError × BIDJWT
  _BIDBase64UrlDecode : CStr → BIDError × List Octet
  _BIDVerifySignature : BIDJWT → BIDJWK → BIDError
  _BIDIssuerIsAuthoritative : CStr → CStr → BIDError
  _BIDAcquireAuthority : CStr → BIDError × BIDAuthority
  _BIDGetAuthorityPublicKey : BIDAuthority → BIDError × BIDJWK
  _BIDVerifyReauthAssertion : BIDContext → BIDReplayCache → BIDBackedAssertion → Int → ReauthOutput
  populateIdentityErr : BIDError
  _BIDDigestAssertion : CStr → BIDError × List Octet
  _BIDBase64UrlEncode : List Octet → BIDError × CStr
  _BIDGetCacheObject : BIDReplayCache → Option CStr → BIDError × Option Json
  _BIDSetCacheObject : BIDReplayCache → CStr → Option Json → BIDError × BIDReplayCache
  _BIDCacheObjects : BIDTicketCache → List (CStr × Json) × BIDError
  BIDGetIdentitySessionKey : BIDIdentity → BIDError
  _BIDPackBackedAssertion : BIDBackedAssertion → BIDJWK → BIDError × Option CStr × BIDJWT
  BID_VERIFY_FLAG_FLATTEN_ATTR_CERTS : Nat
  _BIDFilterReservedClaims : Option Json → BIDError × Option Json
  BID_GSS_AUDIENCE_PREFIX : CStr
  BID_ENCODING_BASE64_URL : Nat
  _BIDIsLegacyJWK : BIDJWK → Bool

/-- The pieces of a C string between occurrences of `c`; never empty. The `k`-th piece is
what the `k`-th pass of a `strchr` loop sees between its `p` and the next `c`. -/
def cstrSplit (c : Char) : CStr → List CStr
  | [] => [[]]
  | x :: xs =>
    if x = c then [] :: cstrSplit c xs
    else
      match cstrSplit c xs with
      | [] => [[x]]
      | s :: ss => (x :: s) :: ss

/-- C `strchr`: the suffix starting at the first occurrence of `c`, or `NULL`. -/
def strchr : CStr → Char → Option CStr
  | [], _ => none
  | x :: xs, c => if x = c then some (x :: xs) else strchr xs c

/-- Working record of `_BIDUnpackBackedAssertion`: the calloc-ed assertion, whose
`Assertion` pointer starts out `NULL`. -/
structure UnpackState where
  Assertion : Option BIDJWT
  rCertificates : List BIDJWT

/-- The loop `for (p = tmp; p != NULL; )` of `_BIDUnpackBackedAssertion`, run over the
pieces of the string: a piece that is followed by a tilde (`q != NULL`) is parsed into the
next certificate slot after the `BID_MAX_CERTS` check, the last piece (`q == NULL`) is
parsed into `Assertion`. -/
def unpackLoop (env : Env) : List CStr → UnpackState → Except BIDError UnpackState
  | [], st => Except.ok st
  | [p], st =>
    let r := env._BIDParseJWT p
    if r.1 ≠ BID_S_OK then Except.error r.1
    else Except.ok { st with Assertion := some r.2 }
  | p :: q :: rest, st =>
    if st.rCertificates.length ≥ env.BID_MAX_CERTS then Except.error BID_S_TOO_MANY_CERTS
    else
      let r := env._BIDParseJWT p
      if r.1 ≠ BID_S_OK then Except.error r.1
      else unpackLoop env (q :: rest) { st with rCertificates := st.rCertificates ++ [r.2] }

/-- Unpacker `_BIDUnpackBackedAssertion` of `bid_util.c`. -/
def _BIDUnpackBackedAssertion (env : Env) (encodedJson : Option CStr) :
    Except BIDError BIDBackedAssertion :=
  match encodedJson with
  | none => Except.error BID_S_INVALID_ASSERTION
  | some tmp =>
    match unpackLoop env (cstrSplit '~' tmp) ⟨none, []⟩ with
    | Except.error err => Except.error err
    | Except.ok st =>
      match st.Assertion with
      | none => Except.error BID_S_INVALID_ASSERTION
      | some a =>
        if st.rCertificates.length = 0 then Except.error BID_S_INVALID_ASSERTION
        else Except.ok ⟨a, st.rCertificates⟩

/-- Payload of the last certificate, `_BIDLeafCert` of `bid_util.c`. -/
def _BIDLeafCert (backedAssertion : BIDBackedAssertion) : Option Json :=
  match backedAssertion.rCertificates.getLast? with
  | none => none
  | some cert => cert.Payload

/-- Payload of the first certificate, `_BIDRootCert` of `bid_util.c`. -/
def _BIDRootCert (backedAssertion : BIDBackedAssertion) : Option Json :=
  match backedAssertion.rCertificates.head? with
  | none => none
  | some cert => cert.Payload

/-- Binary member reader `_BIDGetJsonBinaryValue` of `bid_util.c`. -/
def _BIDGetJsonBinaryValue (env : Env) (json : Option Json) (key : CStr) :
    BIDError × List Octet :=
  match json_string_value (json_object_get json key) with
  | none => (BID_S_UNKNOWN_JSON_KEY, [])
  | some src => env._BIDBase64UrlDecode src

/-- C `memcmp(a, b, n) == 0` on buffers that hold at least `n` bytes. -/
def memcmpEq (a b : List Octet) (n : Nat) : Bool :=
  decide (a.take n = b.take n)

/-- The block `if (szAudienceOrSpn != NULL) { ... }` of `_BIDValidateAudience`: the status
it leaves, `BID_S_OK` when it falls through. `strcmp` is equality of the two strings. -/
def audienceCompare (claims : Option Json) (szAudienceOrSpn : Option CStr) : BIDError :=
  match szAudienceOrSpn with
  | none => BID_S_OK
  | some szAudience =>
    match json_string_value (json_object_get claims "aud".toList) with
    | none => BID_S_MISSING_AUDIENCE
    | some szAssertionSpn =>
      if szAudience ≠ szAssertionSpn then BID_S_BAD_AUDIENCE else BID_S_OK

/-- The block `if (pbChannelBindings != NULL) { ... }` of `_BIDValidateAudience` followed
by `err = BID_S_OK`. -/
def channelBindingsCompare (env : Env) (claims : Option Json)
    (channelBindings : Option (List Octet)) : BIDError :=
  match channelBindings with
  | none => BID_S_OK
  | some pbChannelBindings =>
    let r := _BIDGetJsonBinaryValue env claims "cbt".toList
    let err : BIDError :=
      if r.1 = BID_S_UNKNOWN_JSON_KEY then BID_S_MISSING_CHANNEL_BINDINGS else r.1
    if err ≠ BID_S_OK then err
    else if pbChannelBindings.length ≠ r.2.length ∨
        memcmpEq pbChannelBindings r.2 r.2.length = false then
      BID_S_CHANNEL_BINDINGS_MISMATCH
    else BID_S_OK

/-- Audience and channel-binding check `_BIDValidateAudience` of `bid_verify.c`. -/
def _BIDValidateAudience (env : Env) (backedAssertion : BIDBackedAssertion)
    (szAudienceOrSpn : Option CStr) (channelBindings : Option (List Octet)) : BIDError :=
  let claims := backedAssertion.Assertion.Payload
  match claims with
  | none => BID_S_MISSING_AUDIENCE
  | some _ =>
    let err := audienceCompare claims szAudienceOrSpn
    if err ≠ BID_S_OK then err
    else channelBindingsCompare env claims channelBindings

/-- Signature check of the final assertion, `_BIDVerifyAssertionSignature`. -/
def _BIDVerifyAssertionSignature (env : Env) (backedAssertion : BIDBackedAssertion)
    (reauthCred : BIDJWK) : BIDError :=
  let verifyCred : BIDJWK :=
    if backedAssertion.cCertificates = 0 then reauthCred else _BIDLeafCert backedAssertion
  env._BIDVerifySignature backedAssertion.Assertion verifyCred

/-- Issuer trust check `_BIDValidateCertIssuer` of `bid_verify.c`. -/
def _BIDValidateCertIssuer (env : Env) (backedAssertion : BIDBackedAssertion) : BIDError :=
  if backedAssertion.cCertificates = 0 then BID_S_MISSING_CERT
  else
    let leafCert := _BIDLeafCert backedAssertion
    match json_object_get leafCert "principal".toList with
    | none => BID_S_MISSING_PRINCIPAL
    | some principal =>
      match json_string_value (json_object_get (some principal) "email".toList) with
      | none => BID_S_UNKNOWN_PRINCIPAL_TYPE
      | some szEmail =>
        match strchr szEmail '@' with
        | none => BID_S_INVALID_ISSUER
        | some atSuffix =>
          let szEmailIssuer := atSuffix.tail
          match json_string_value (json_object_get leafCert "iss".toList) with
          | none => BID_S_MISSING_ISSUER
          | some szCertIssuer => env._BIDIssuerIsAuthoritative szEmailIssuer szCertIssuer

/-- The loop over the certificates in `_BIDValidateCertChain`; `pKey` is the key that the
next certificate must verify under. -/
def certChainLoop (env : Env) (context : BIDContext) (verificationTime : Int) :
    List BIDJWT → BIDJWK → BIDError
  | [], _ => BID_S_OK
  | cert :: rest, pKey =>
    let err := _BIDValidateExpiry context verificationTime cert.Payload
    if err ≠ BID_S_OK then err
    else
      let err := env._BIDVerifySignature cert pKey
      if err ≠ BID_S_OK then err
      else certChainLoop env context verificationTime rest cert.Payload

/-- The `switch (err)` at the `cleanup` label of `_BIDValidateCertChain`. -/
def certChainCleanup (err : BIDError) : BIDError :=
  match err with
  | BID_S_ASSERTION_NOT_YET_VALID => BID_S_CERT_NOT_YET_VALID
  | BID_S_EXPIRED_ASSERTION => BID_S_EXPIRED_CERT
  | e => e

/-- Chain check `_BIDValidateCertChain` of `bid_verify.c`. -/
def _BIDValidateCertChain (env : Env) (context : BIDContext)
    (backedAssertion : BIDBackedAssertion) (verificationTime : Int) : BIDError :=
  let rootCert := _BIDRootCert backedAssertion
  if backedAssertion.cCertificates = 0 then BID_S_MISSING_CERT
  else
    certChainCleanup
      (match json_string_value (json_object_get rootCert "iss".toList) with
       | none => BID_S_MISSING_ISSUER
       | some szCertIssuer =>
         let authority := env._BIDAcquireAuthority szCertIssuer
         if authority.1 ≠ BID_S_OK then authority.1
         else
           let rootKey := env._BIDGetAuthorityPublicKey authority.2
           if rootKey.1 ≠ BID_S_OK then rootKey.1
           else
             certChainLoop env context verificationTime backedAssertion.rCertificates
               rootKey.2)

/-- Replace the value under `key`, or add the member at the end. -/
def setMember (key : CStr) (value : Json) : List (CStr × Json) → List (CStr × Json)
  | [] => [(key, value)]
  | (k, v) :: rest => if k = key then (key, value) :: rest else (k, v) :: setMember key value rest

/-- jansson `json_object_set`: returns `-1` and changes nothing when the value is `NULL`
or the target is not an object, otherwise stores the value and returns `0`. -/
def json_object_set (object : Option Json) (key : CStr) (value : Option Json) :
    Int × Option Json :=
  match object, value with
  | some (Json.object members), some v => (0, some (Json.object (setMember key v members)))
  | o, _ => (-1, o)

/-- Identity construction `_BIDPopulateIdentity` of `bid_util.c`. The local `err` is not
assigned on the path that stores the identity; `errUnassigned` is the value it happens to
hold there. -/
def _BIDPopulateIdentity (errUnassigned : BIDError) (backedAssertion : BIDBackedAssertion) :
    BIDError × Option BIDIdentity :=
  let assertion := backedAssertion.Assertion.Payload
  let leafCert := _BIDLeafCert backedAssertion
  let principal := json_object_get leafCert "principal".toList
  let attributes : Option Json := some (Json.object [])
  if principal.isNone ∨ (json_object_get principal "email".toList).isNone then
    (BID_S_MISSING_PRINCIPAL, none)
  else
    let s1 := json_object_set attributes "email".toList
      (json_object_get principal "email".toList)
    if s1.1 ≠ 0 then (BID_S_NO_MEMORY, none)
    else
      let s2 := json_object_set s1.2 "audience".toList (json_object_get assertion "aud".toList)
      if s2.1 ≠ 0 then (BID_S_NO_MEMORY, none)
      else
        let s3 := json_object_set s2.2 "issuer".toList (json_object_get leafCert "iss".toList)
        if s3.1 ≠ 0 then (BID_S_NO_MEMORY, none)
        else
          let s4 := json_object_set s3.2 "expires".toList
            (json_object_get assertion "exp".toList)
          if s4.1 ≠ 0 then (BID_S_NO_MEMORY, none)
          else (errUnassigned, some ⟨s4.2, none, none⟩)

/-- Outputs of `_BIDVerifyLocal`: the status and the values left in `*pVerifiedIdentity`,
`*pExpiryTime` and `*pulRetFlags`. -/
structure VerifyOutput where
  err : BIDError
  VerifiedIdentity : Option BIDIdentity
  ExpiryTime : Int
  RetFlags : Nat

/-- Local verifier `_BIDVerifyLocal` of `bid_verify.c`. The three outputs start as no
identity, `0` and `0`; only the flags can change before the final success. -/
def _BIDVerifyLocal (env : Env) (context : BIDContext) (replayCache : BIDReplayCache)
    (szAssertion : Option CStr) (szAudience : Option CStr)
    (channelBindings : Option (List Octet)) (verificationTime : Int) (ulReqFlags : Nat) :
    VerifyOutput :=
  match _BIDUnpackBackedAssertion env szAssertion with
  | Except.error err => ⟨err, none, 0, 0⟩
  | Except.ok unpacked =>
    if unpacked.cCertificates = 0 ∧
        ((context.ContextOptions &&& env.BID_CONTEXT_REAUTH) = 0 ∨
          (ulReqFlags &&& env.BID_VERIFY_FLAG_NO_REAUTH) ≠ 0) then
      ⟨BID_S_INVALID_ASSERTION, none, 0, 0⟩
    else
      let ulRetFlags : Nat :=
        if unpacked.cCertificates = 0 then 0 ||| env.BID_VERIFY_FLAG_REAUTH else 0
      let reauth : ReauthOutput :=
        if unpacked.cCertificates = 0 then
          env._BIDVerifyReauthAssertion context replayCache unpacked verificationTime
        else ⟨BID_S_OK, unpacked, none, none⟩
      if reauth.err ≠ BID_S_OK then ⟨reauth.err, none, 0, ulRetFlags⟩
      else
        let backedAssertion := reauth.assertion
        let reauthCred := reauth.VerifierCred
        let err := _BIDValidateAudience env backedAssertion szAudience channelBindings
        if err ≠ BID_S_OK then ⟨err, none, 0, ulRetFlags⟩
        else
          let err := _BIDValidateExpiry context verificationTime backedAssertion.Assertion.Payload
          if err ≠ BID_S_OK then ⟨err, none, 0, ulRetFlags⟩
          else if backedAssertion.cCertificates > 1 then
            ⟨BID_S_TOO_MANY_CERTS, none, 0, ulRetFlags⟩
          else
            let err : BIDError :=
              if backedAssertion.cCertificates > 0 then
                let e := _BIDValidateCertIssuer env backedAssertion
                if e ≠ BID_S_OK then e
                else _BIDValidateCertChain env context backedAssertion verificationTime
              else BID_S_OK
            if err ≠ BID_S_OK then ⟨err, none, 0, ulRetFlags⟩
            else
              let err := _BIDVerifyAssertionSignature env backedAssertion reauthCred
              if err ≠ BID_S_OK then ⟨err, none, 0, ulRetFlags⟩
              else
                let populated : BIDError × Option BIDIdentity :=
                  match reauth.VerifiedIdentity with
                  | none => _BIDPopulateIdentity env.populateIdentityErr backedAssertion
                  | some identity => (BID_S_OK, some identity)
                if populated.1 ≠ BID_S_OK then ⟨populated.1, none, 0, ulRetFlags⟩
                else
                  let attributes : Option Json :=
                    match populated.2 with
                    | none => none
                    | some identity => identity.Attributes
                  ⟨BID_S_OK, populated.2,
                    (_BIDGetJsonTimestampValue attributes "exp".toList).2, ulRetFlags⟩

/-- Key that certificate `i` of a chain has to verify under, in the words of the
specification: the authority's public key for the root (`i = 0`), the payload of
certificate `i - 1` for every later one. -/
def chainKey (rootKey : BIDJWK) (certs : List BIDJWT) (i : Nat) : BIDJWK :=
  match i with
  | 0 => rootKey
  | j + 1 =>
    match certs[j]? with
    | none => none
    | some c => c.Payload

/-- The wire form of the specification without its leading tilde: the segments joined by
a tilde between neighbours. -/
def joinTilde : List CStr → CStr
  | [] => []
  | [s] => s
  | s :: t :: rest => s ++ '~' :: joinTilde (t :: rest)

/-- Status code that `_BIDUnpackBackedAssertion` returns to its caller. -/
def unpackStatus (r : Except BIDError BIDBackedAssertion) : BIDError :=
  match r with
  | Except.ok _ => BID_S_OK
  | Except.error e => e

/-! ### Replay cache, reauthentication and key derivation
(`bid_rcache.c`, `bid_reauth.c`, `_BIDDeriveKey` of `bid_openssl.c`) -/

/-- The message digests `_BIDEvpForAlgorithmName` can select (`const EVP_MD *`). -/
inductive EVP_MD
  | EVP_sha1
  | EVP_sha224
  | EVP_sha256
  | EVP_sha384
  | EVP_sha512
  deriving DecidableEq, Repr

/-- Digest length in bytes, OpenSSL `EVP_MD_size`. -/
def EVP_MD_size : EVP_MD → Nat
  | EVP_MD.EVP_sha1 => 20
  | EVP_MD.EVP_sha224 => 28
  | EVP_MD.EVP_sha256 => 32
  | EVP_MD.EVP_sha384 => 48
  | EVP_MD.EVP_sha512 => 64

/-- OpenSSL `EVP_MAX_MD_SIZE`. -/
def EVP_MAX_MD_SIZE : Nat := 64

/-- An OpenSSL RSA key object (`RSA *`), identified by a number. -/
abbrev RSA := Nat

/-- An OpenSSL DSA key object (`DSA *`), identified by a number. -/
abbrev DSA := Nat

/-- The OpenSSL primitives the sources call, and the bytes found in freshly allocated
memory. A streamed HMAC or digest is the function of the concatenated input.
`BIDMalloc n i` is the byte found at offset `i` of a fresh block of `n` bytes.
`RSA_private_encrypt` and `RSA_public_decrypt` give the output bytes, or nothing for a
negative return; `DSA_do_sign` gives the pair (r, s), or nothing for `NULL`;
`DSA_do_verify` gives 1, 0 or a negative number; `BN_dec2bn` and `BN_hex2bn` give their
return value (0 when nothing could be parsed) and the number left in `*bn`. The key builders `_BIDMakeRsaKey` and
`_BIDMakeDsaKey` of `bid_openssl.c` turn a JSON key into an OpenSSL key object; their
status and the object are taken as given (the flag is `public`). -/
structure OpenSSL where
  HMAC_SHA256 : List Octet → List Octet → List Octet
  RAND_bytes : Nat → Bool × (Nat → Octet)
  gettimeofday : Int × Int
  EVP_Digest : EVP_MD → List Octet → List Octet
  BIDMalloc : Nat → Nat → Octet
  _BIDMakeRsaKey : Option Json → Bool → BIDError × RSA
  RSA_private_encrypt : List Octet → RSA → Option (List Octet)
  RSA_public_decrypt : List Octet → RSA → Option (List Octet)
  _BIDMakeDsaKey : Option Json → Bool → BIDError × DSA
  DSA_do_sign : List Octet → DSA → Option (Nat × Nat)
  DSA_do_verify : List Octet → Nat × Nat → DSA → Int
  BN_dec2bn : CStr → Nat × Option Int
  BN_hex2bn : CStr → Nat × Option Int

/-- Remove the member stored under `key`. -/
def delMember (key : CStr) : List (CStr × Json) → List (CStr × Json)
  | [] => []
  | (k, v) :: rest => if k = key then delMember key rest else (k, v) :: delMember key rest

/-- Modelled from the spec: `_BIDSetJsonTimestampValue`, whose body is not part of the
sources. It stores the timestamp as the JSON integer that `_BIDGetJsonTimestampValue`
reads back; when the member cannot be stored it fails with `BID_S_NO_MEMORY`. The pair is
the status code and the object after the call. -/
def _BIDSetJsonTimestampValue (json : Option Json) (key : CStr) (ts : Int) :
    BIDError × Option Json :=
  let r := json_object_set json key (some (Json.integer ts))
  if r.1 ≠ 0 then (BID_S_NO_MEMORY, json) else (BID_S_OK, r.2)

/-- Modelled from the spec: `_BIDJsonObjectSet`, whose body is not part of the sources.
It stores `src` under `key`; a `NULL` source is an error when `BID_JSON_FLAG_REQUIRED` is
given (`required`) and is skipped otherwise, which is how the optional members of the
specification (`cbt?`) are written. The pair is the status code and the object after the
call. -/
def _BIDJsonObjectSet (dst : Option Json) (key : CStr) (src : Option Json)
    (required : Bool) : BIDError × Option Json :=
  match src with
  | none => if required then (BID_S_INVALID_PARAMETER, dst) else (BID_S_OK, dst)
  | some v =>
    let r := json_object_set dst key (some v)
    if r.1 ≠ 0 then (BID_S_NO_MEMORY, dst) else (BID_S_OK, r.2)

/-- Modelled from the spec: `_BIDJsonObjectDel`, whose body is not part of the sources.
It removes the member under `key`; without `BID_JSON_FLAG_REQUIRED` a member that is not
there is not an error. -/
def _BIDJsonObjectDel (dst : Option Json) (key : CStr) (required : Bool) :
    BIDError × Option Json :=
  match dst with
  | some (Json.object members) =>
    if required ∧ (lookupMember key members).isNone then (BID_S_UNKNOWN_JSON_KEY, dst)
    else (BID_S_OK, some (Json.object (delMember key members)))
  | d => if required then (BID_S_UNKNOWN_JSON_KEY, d) else (BID_S_OK, d)

/-- Modelled from the spec: `_BIDJsonBinaryValue`, whose body is not part of the sources:
the JSON string holding the base64url text of the bytes. -/
def _BIDJsonBinaryValue (env : Env) (pbData : List Octet) : BIDError × Option Json :=
  let r := env._BIDBase64UrlEncode pbData
  if r.1 ≠ BID_S_OK then (r.1, none) else (BID_S_OK, some (Json.string r.2))

/-- Modelled from the spec: `_BIDAllocIdentity`, whose body is not part of the sources:
an identity with the given public attributes, an empty private attribute object and no
session key. -/
def _BIDAllocIdentity (attributes : Option Json) : BIDError × BIDIdentity :=
  (BID_S_OK, ⟨attributes, some (Json.object []), none⟩)

/-- The byte of a character of a C string. -/
def charOctet (c : Char) : Octet := Fin.ofNat c.toNat

/-- The bytes of a C string. -/
def cstrOctets (s : CStr) : List Octet := s.map charOctet

/-- Secret handle `struct BIDSecretHandleDesc` of `bid_openssl.c`; `cbSecret` is the
length of the secret. -/
structure BIDSecretHandleDesc where
  pbSecret : Option (List Octet)

/-- The constant `_BIDSalt`, the nine bytes of the text BrowserID. -/
def _BIDSalt : List Octet := cstrOctets "BrowserID".toList

/-- Key derivation `_BIDDeriveKey` of `bid_openssl.c`. The pair is the status code and
the derived key (`*ppbDerivedKey`, `NULL` on failure); `*pcbDerivedKey` is its length. -/
def _BIDDeriveKey (ssl : OpenSSL) (secretHandle : Option BIDSecretHandleDesc)
    (pbSalt : Option (List Octet)) : BIDError × Option (List Octet) :=
  match secretHandle with
  | none => (BID_S_INVALID_PARAMETER, none)
  | some handle =>
    match handle.pbSecret with
    | none => (BID_S_INVALID_SECRET, none)
    | some secret =>
      let salt : List Octet :=
        match pbSalt with
        | none => []
        | some bytes => bytes
      (BID_S_OK, some (ssl.HMAC_SHA256 secret (_BIDSalt ++ secret ++ salt ++ [1])))

/-- Session key of an authenticator, `_BIDDeriveAuthenticatorSessionKey` of
`bid_reauth.c`. The call passes the key bytes and their length where `_BIDDeriveKey`
takes a secret handle; the bytes are the handle's secret here. -/
def _BIDDeriveAuthenticatorSessionKey (env : Env) (ssl : OpenSSL) (ark : BIDJWK)
    (ap : BIDJWT) : BIDError × Option (List Octet) :=
  let arkBytes := _BIDGetJsonBinaryValue env ark "secret-key".toList
  if arkBytes.1 ≠ BID_S_OK then (arkBytes.1, none)
  else
    let derived := _BIDDeriveKey ssl (some ⟨some arkBytes.2⟩) (some (cstrOctets ap.EncData))
    if derived.1 ≠ BID_S_OK then (derived.1, none)
    else (BID_S_OK, derived.2)

/-- Authenticator root key, `_BIDDeriveAuthenticatorRootKey` of `bid_reauth.c`. -/
def _BIDDeriveAuthenticatorRootKey (env : Env) (ssl : OpenSSL) (identity : BIDIdentity) :
    BIDError × BIDJWK :=
  let err := env.BIDGetIdentitySessionKey identity
  if err ≠ BID_S_OK then (err, none)
  else
    let subkey := _BIDDeriveKey ssl (some ⟨identity.SessionKey⟩)
      (some (cstrOctets "ARK".toList))
    if subkey.1 ≠ BID_S_OK then (subkey.1, none)
    else
      let sk := _BIDJsonBinaryValue env (subkey.2.getD [])
      if sk.1 ≠ BID_S_OK then (sk.1, none)
      else
        let ark := _BIDJsonObjectSet (some (Json.object [])) "secret-key".toList sk.2 false
        if ark.1 ≠ BID_S_OK then (ark.1, none)
        else (BID_S_OK, ark.2)

/-- Identity of a reauthentication, `_BIDMakeReauthIdentity` of `bid_reauth.c`
(`json_copy` of an immutable value is the value). -/
def _BIDMakeReauthIdentity (env : Env) (ssl : OpenSSL) (cred : Option Json) (ap : BIDJWT) :
    BIDError × Option BIDIdentity :=
  match cred with
  | none => (BID_S_NO_MEMORY, none)
  | some credCopy =>
    let alloc := _BIDAllocIdentity (some credCopy)
    if alloc.1 ≠ BID_S_OK then (alloc.1, none)
    else
      let identity := alloc.2
      let d1 := _BIDJsonObjectDel identity.Attributes "ark".toList false
      if d1.1 ≠ BID_S_OK then (d1.1, none)
      else
        let d2 := _BIDJsonObjectDel d1.2 "a-exp".toList false
        if d2.1 ≠ BID_S_OK then (d2.1, none)
        else
          let s := _BIDJsonObjectSet identity.PrivateAttributes "a-exp".toList
            (json_object_get cred "a-exp".toList) false
          if s.1 ≠ BID_S_OK then (s.1, none)
          else
            let key := _BIDDeriveAuthenticatorSessionKey env ssl
              (json_object_get cred "ark".toList) ap
            if key.1 ≠ BID_S_OK then (key.1, none)
            else (BID_S_OK, some ⟨d2.2, s.2, key.2⟩)

/-- Current time as a JSON value, `_BIDGetCurrentJsonTimestamp` of `bid_ppal.c`:
milliseconds from the seconds and microseconds of `gettimeofday`. -/
def _BIDGetCurrentJsonTimestamp (ssl : OpenSSL) : BIDError × Option Json :=
  let tv := ssl.gettimeofday
  let ms : Int := tv.1 * 1000 + tv.2 / 1000
  (BID_S_OK, some (Json.integer ms))

/-- Nonce `_BIDGenerateNonce` of `bid_openssl.c`: sixteen bytes of `RAND_bytes` as a
binary JSON value. -/
def _BIDGenerateNonce (env : Env) (ssl : OpenSSL) : BIDError × Option Json :=
  let r := ssl.RAND_bytes 16
  if r.1 = false then (BID_S_CRYPTO_ERROR, none)
  else _BIDJsonBinaryValue env ((List.range 16).map r.2)

/-- Authenticator `_BIDMakeAuthenticator` of `bid_reauth.c`. The local `exp` is computed
as in the source; no statement of the function stores it. -/
def _BIDMakeAuthenticator (env : Env) (ssl : OpenSSL) (context : BIDContext)
    (szAudienceOrSpn : CStr) (channelBindings : Option (List Octet)) (tkt : Option Json) :
    Except BIDError BIDJWT :=
  match tkt with
  | none => Except.error BID_S_BAD_TICKET_CACHE
  | some _ =>
    let iat := _BIDGetCurrentJsonTimestamp ssl
    if iat.1 ≠ BID_S_OK then Except.error iat.1
    else
      let _exp : Option Json := some (Json.integer (json_integer_value iat.2 + context.Skew))
      let n := _BIDGenerateNonce env ssl
      if n.1 ≠ BID_S_OK then Except.error n.1
      else
        let aud : Option Json := some (Json.string szAudienceOrSpn)
        let cbt : BIDError × Option Json :=
          match channelBindings with
          | none => (BID_S_OK, none)
          | some pbChannelBindings => _BIDJsonBinaryValue env pbChannelBindings
        if cbt.1 ≠ BID_S_OK then Except.error cbt.1
        else
          let p0 : Option Json := some (Json.object [])
          let p1 := _BIDJsonObjectSet p0 "iat".toList iat.2 true
          if p1.1 ≠ BID_S_OK then Except.error p1.1
          else
            let p2 := _BIDJsonObjectSet p1.2 "n".toList n.2 true
            if p2.1 ≠ BID_S_OK then Except.error p2.1
            else
              let p3 := _BIDJsonObjectSet p2.2 "tkt".toList tkt true
              if p3.1 ≠ BID_S_OK then Except.error p3.1
              else
                let p4 := _BIDJsonObjectSet p3.2 "aud".toList aud true
                if p4.1 ≠ BID_S_OK then Except.error p4.1
                else
                  let p5 := _BIDJsonObjectSet p4.2 "cbt".toList cbt.2 false
                  if p5.1 ≠ BID_S_OK then Except.error p5.1
                  else Except.ok ⟨[], none, p5.2, []⟩

/-- The scan of `_BIDFindTicketInCache` over the cache objects: the first entry whose
`aud` and `sub` strings equal the requested audience and identity name. -/
def findTicketScan (szPackedAudience szIdentityName : CStr) :
    List (CStr × Json) → Option Json
  | [] => none
  | (_, cacheVal) :: rest =>
    match json_string_value (json_object_get (some cacheVal) "aud".toList),
        json_string_value (json_object_get (some cacheVal) "sub".toList) with
    | some szCacheAudience, some szCacheIdentity =>
      if szCacheAudience = szPackedAudience ∧ szCacheIdentity = szIdentityName then
        some cacheVal
      else findTicketScan szPackedAudience szIdentityName rest
    | _, _ => findTicketScan szPackedAudience szIdentityName rest

/-- Ticket lookup `_BIDFindTicketInCache` of `bid_reauth.c`. `_BIDCacheObjects` gives the
objects that `_BIDGetFirstCacheObject` and `_BIDGetNextCacheObject` deliver and the status
that ends the enumeration. -/
def _BIDFindTicketInCache (env : Env) (ticketCache : BIDTicketCache)
    (szPackedAudience : CStr) (szIdentityName : Option CStr) : BIDError × Option Json :=
  match szIdentityName with
  | some name =>
    match findTicketScan szPackedAudience name (env._BIDCacheObjects ticketCache).1 with
    | some cred => (BID_S_OK, some cred)
    | none =>
      let err := (env._BIDCacheObjects ticketCache).2
      let err := if err = BID_S_NO_MORE_ITEMS then BID_S_CACHE_KEY_NOT_FOUND else err
      if err ≠ BID_S_OK then (err, none) else (BID_S_OK, none)
  | none =>
    let r := env._BIDGetCacheObject ticketCache (some szPackedAudience)
    if r.1 ≠ BID_S_OK then (r.1, none) else (BID_S_OK, r.2)

/-- The cache a call works on: the handle it was given, or the context's own cache when
the handle is null (`if (cache == NULL) cache = context->Cache`). -/
def cacheOrDefault (cache fallback : BIDReplayCache) : BIDReplayCache :=
  match cache with
  | none => fallback
  | some c => some c

/-- Outputs of `_BIDGetReauthAssertion`: the status and the values left in `*pAssertion`,
`*pAssertedIdentity` and `*ptExpiryTime`. -/
structure ReauthAssertionOutput where
  err : BIDError
  Assertion : Option CStr
  AssertedIdentity : Option BIDIdentity
  ExpiryTime : Int

/-- Reauthentication assertion `_BIDGetReauthAssertion` of `bid_reauth.c`. The three
flags say whether the output pointers are non-null. -/
def _BIDGetReauthAssertion (env : Env) (ssl : OpenSSL) (context : BIDContext)
    (ticketCache : BIDTicketCache) (szPackedAudience : CStr)
    (channelBindings : Option (List Octet)) (szIdentityName : Option CStr)
    (wantAssertion wantIdentity wantExpiry : Bool) : ReauthAssertionOutput :=
  let ticketCache : BIDTicketCache := cacheOrDefault ticketCache context.TicketCache
  let found := _BIDFindTicketInCache env ticketCache szPackedAudience szIdentityName
  if found.1 ≠ BID_S_OK then ⟨found.1, none, none, 0⟩
  else
    let cred := found.2
    match json_object_get cred "tkt".toList with
    | none => ⟨BID_S_BAD_TICKET_CACHE, none, none, 0⟩
    | some tktValue =>
      let tkt : Option Json := some tktValue
      let made := _BIDMakeAuthenticator env ssl context szPackedAudience channelBindings
        (json_object_get tkt "jti".toList)
      match made with
      | Except.error madeErr => ⟨madeErr, none, none, 0⟩
      | Except.ok ap =>
        let now := (_BIDGetJsonTimestampValue ap.Payload "iat".toList).2
        let err := _BIDValidateExpiry context now tkt
        if err ≠ BID_S_OK then ⟨err, none, none, 0⟩
        else
          let packed : BIDError × Option CStr × BIDJWT :=
            if wantAssertion then
              env._BIDPackBackedAssertion ⟨ap, []⟩ (json_object_get cred "ark".toList)
            else (BID_S_OK, none, ap)
          if packed.1 ≠ BID_S_OK then ⟨packed.1, none, none, 0⟩
          else
            let identity : BIDError × Option BIDIdentity :=
              if wantIdentity then _BIDMakeReauthIdentity env ssl cred packed.2.2
              else (BID_S_OK, none)
            if identity.1 ≠ BID_S_OK then ⟨identity.1, packed.2.1, none, 0⟩
            else
              ⟨BID_S_OK, packed.2.1, identity.2,
                if wantExpiry then (_BIDGetJsonTimestampValue tkt "exp".toList).2 else 0⟩

/-- Verification of a reauthentication assertion, `_BIDVerifyReauthAssertion` of
`bid_reauth.c`. -/
def _BIDVerifyReauthAssertion (env : Env) (ssl : OpenSSL) (context : BIDContext)
    (replayCache : BIDReplayCache) (assertion : BIDBackedAssertion)
    (verificationTime : Int) : ReauthOutput :=
  let ap := assertion.Assertion
  let szTicket := json_string_value (json_object_get ap.Payload "tkt".toList)
  let replayCache : BIDReplayCache := cacheOrDefault replayCache context.ReplayCache
  let got := env._BIDGetCacheObject replayCache szTicket
  let err : BIDError :=
    if got.1 = BID_S_CACHE_NOT_FOUND ∨ got.1 = BID_S_CACHE_KEY_NOT_FOUND then
      BID_S_INVALID_ASSERTION
    else got.1
  if err ≠ BID_S_OK then ⟨err, assertion, none, none⟩
  else
    let cred := got.2
    let err := _BIDValidateExpiry context verificationTime cred
    if err ≠ BID_S_OK then ⟨err, assertion, none, none⟩
    else
      let del := _BIDJsonObjectDel ap.Payload "exp".toList false
      if del.1 ≠ BID_S_OK then ⟨del.1, assertion, none, none⟩
      else
        let ap : BIDJWT := { ap with Payload := del.2 }
        let assertion : BIDBackedAssertion := { assertion with Assertion := ap }
        let verifierCred := json_object_get cred "ark".toList
        let err := env._BIDVerifySignature ap verifierCred
        if err ≠ BID_S_OK then ⟨err, assertion, none, verifierCred⟩
        else
          let identity := _BIDMakeReauthIdentity env ssl cred ap
          if identity.1 ≠ BID_S_OK then ⟨identity.1, assertion, none, verifierCred⟩
          else ⟨BID_S_OK, assertion, identity.2, verifierCred⟩

/-- Replay check `_BIDCheckReplayCache` of `bid_rcache.c`. -/
def _BIDCheckReplayCache (env : Env) (context : BIDContext) (szAssertion : CStr)
    (verificationTime : Int) : BIDError :=
  let hash := env._BIDDigestAssertion szAssertion
  if hash.1 ≠ BID_S_OK then hash.1
  else
    let szHash := env._BIDBase64UrlEncode hash.2
    if szHash.1 ≠ BID_S_OK then szHash.1
    else
      let got := env._BIDGetCacheObject context.ReplayCache (some szHash.2)
      if got.1 = BID_S_OK then
        let expHash := (_BIDGetJsonTimestampValue got.2 "exp".toList).2
        if verificationTime < expHash then BID_S_REPLAYED_ASSERTION else got.1
      else BID_S_OK

/-- Outputs of `_BIDUpdateReplayCache`: the status, the context with the replay cache
after the call, and the identity with its private attributes after the call. -/
structure UpdateReplayOutput where
  err : BIDError
  context : BIDContext
  identity : BIDIdentity

/-- The statements of `_BIDUpdateReplayCache` that give `rdata` its `exp`: the identity's
`exp` member when there is one, the verification time plus 300 otherwise. -/
def replayEntrySetExp (rdata : Option Json) (identity : BIDIdentity)
    (verificationTime : Int) : Option Json :=
  match json_object_get identity.Attributes "exp".toList with
  | none => (_BIDSetJsonTimestampValue rdata "exp".toList (verificationTime + 300)).2
  | some e => (json_object_set rdata "exp".toList (some e)).2

/-- The statements of `_BIDUpdateReplayCache` that add `ark` and `r-exp` to `rdata` in a
reauthentication context. -/
def replayEntrySetTicket (rdata : Option Json) (ark : BIDJWK) (verificationTime : Int)
    (ticketLifetime : Nat) : Option Json :=
  (_BIDSetJsonTimestampValue (json_object_set rdata "ark".toList ark).2 "r-exp".toList
    (verificationTime + ticketLifetime)).2

/-- Replay cache update `_BIDUpdateReplayCache` of `bid_rcache.c`. The results of the
`json_object_set` calls and of the timestamp writes whose status the source does not
test are used as they are. -/
def _BIDUpdateReplayCache (env : Env) (ssl : OpenSSL) (context : BIDContext)
    (identity : BIDIdentity) (szAssertion : CStr) (verificationTime : Int) :
    UpdateReplayOutput :=
  let hash := env._BIDDigestAssertion szAssertion
  if hash.1 ≠ BID_S_OK then ⟨hash.1, context, identity⟩
  else
    let szHash := env._BIDBase64UrlEncode hash.2
    if szHash.1 ≠ BID_S_OK then ⟨szHash.1, context, identity⟩
    else
      let reauth : Bool := decide ((context.ContextOptions &&& env.BID_CONTEXT_REAUTH) ≠ 0)
      let rdata0 : Option Json := if reauth then identity.Attributes else some (Json.object [])
      match rdata0 with
      | none => ⟨BID_S_NO_MEMORY, context, identity⟩
      | some _ =>
        let r1 := _BIDSetJsonTimestampValue rdata0 "iat".toList verificationTime
        if r1.1 ≠ BID_S_OK then ⟨r1.1, context, identity⟩
        else
          let rdata2 := replayEntrySetExp r1.2 identity verificationTime
          let ark : BIDError × BIDJWK :=
            if reauth then _BIDDeriveAuthenticatorRootKey env ssl identity
            else (BID_S_OK, none)
          if ark.1 ≠ BID_S_OK then ⟨ark.1, context, identity⟩
          else
            let rdata : Option Json :=
              if reauth then
                replayEntrySetTicket rdata2 ark.2 verificationTime context.TicketLifetime
              else rdata2
            let stored := env._BIDSetCacheObject context.ReplayCache szHash.2 rdata
            if stored.1 ≠ BID_S_OK then ⟨stored.1, context, identity⟩
            else
              let tkt0 : Option Json := some (Json.object [])
              let tkt1 := (json_object_set tkt0 "jti".toList (some (Json.string szHash.2))).2
              let tkt := (json_object_set tkt1 "exp".toList
                (json_object_get rdata "r-exp".toList)).2
              let priv := (json_object_set identity.PrivateAttributes "tkt".toList tkt).2
              ⟨stored.1, { context with ReplayCache := stored.2 },
                { identity with PrivateAttributes := priv }⟩

/-! ### Signature algorithms (`bid_openssl.c`) -/

/-- The three function pointers of an entry of the algorithm table: the RSA, DSA or
HMAC triple of make-signature, verify-signature and key-size functions. -/
inductive BIDSignatureFunctions
  | RSAFunctions
  | DSAFunctions
  | HMACSHAFunctions
  deriving DecidableEq, Repr

/-- Entry of the algorithm table, `struct BIDJWTAlgorithmDesc`. -/
structure BIDJWTAlgorithmDesc where
  szAlgID : CStr
  szKeyAlgID : CStr
  cbKey : Nat
  pbOid : Option (List Octet)
  cbOid : Nat
  Functions : BIDSignatureFunctions
  deriving DecidableEq

/-- The DigestInfo bytes written in the three RSA entries of the table. -/
def sha256Oid : List Octet :=
  [0x30, 0x31, 0x30, 0x0d, 0x06, 0x09, 0x60, 0x86, 0x48, 0x01, 0x65, 0x03, 0x04, 0x02,
    0x01, 0x05, 0x00, 0x04, 0x20]

/-- Entry `RS256` of the table `_BIDJWTAlgorithms`. -/
def algRS256 : BIDJWTAlgorithmDesc :=
  ⟨"RS256".toList, "RSA".toList, 0, some sha256Oid, 19, BIDSignatureFunctions.RSAFunctions⟩

/-- Entry `RS128` of the table `_BIDJWTAlgorithms`. -/
def algRS128 : BIDJWTAlgorithmDesc :=
  ⟨"RS128".toList, "RSA".toList, 0, some sha256Oid, 19, BIDSignatureFunctions.RSAFunctions⟩

/-- Entry `RS64` of the table `_BIDJWTAlgorithms`. -/
def algRS64 : BIDJWTAlgorithmDesc :=
  ⟨"RS64".toList, "RSA".toList, 0, some sha256Oid, 19, BIDSignatureFunctions.RSAFunctions⟩

/-- Entry `DS256` of the table `_BIDJWTAlgorithms`. -/
def algDS256 : BIDJWTAlgorithmDesc :=
  ⟨"DS256".toList, "DSA".toList, 256, none, 0, BIDSignatureFunctions.DSAFunctions⟩

/-- Entry `DS128` of the table `_BIDJWTAlgorithms`. -/
def algDS128 : BIDJWTAlgorithmDesc :=
  ⟨"DS128".toList, "DSA".toList, 160, none, 0, BIDSignatureFunctions.DSAFunctions⟩

/-- Entry `HS256` of the table `_BIDJWTAlgorithms`. -/
def algHS256 : BIDJWTAlgorithmDesc :=
  ⟨"HS256".toList, "HS".toList, 0, none, 0, BIDSignatureFunctions.HMACSHAFunctions⟩

/-- The table `_BIDJWTAlgorithms` of `bid_openssl.c`, without the entries under `#if 0`
and without the terminating empty entry. -/
def _BIDJWTAlgorithms : List BIDJWTAlgorithmDesc :=
  [algRS256, algRS128, algRS64, algDS256, algDS128, algHS256]

/-- Digest selection by name, `_BIDEvpForAlgorithmName` of `bid_openssl.c`: the digest
left in `*pMd`, or the status code of the failure. -/
def _BIDEvpForAlgorithmName (szAlgID : Option CStr) : Except BIDError EVP_MD :=
  match szAlgID with
  | none => Except.error BID_S_UNKNOWN_ALGORITHM
  | some name =>
    if name.length ≠ 4 then Except.error BID_S_UNKNOWN_ALGORITHM
    else if name = "S128".toList then Except.ok EVP_MD.EVP_sha1
    else if name = "S512".toList then Except.ok EVP_MD.EVP_sha512
    else if name = "S384".toList then Except.ok EVP_MD.EVP_sha384
    else if name = "S256".toList then Except.ok EVP_MD.EVP_sha256
    else if name = "S224".toList then Except.ok EVP_MD.EVP_sha224
    else Except.error BID_S_UNKNOWN_ALGORITHM

/-- Digest selection for a table entry, `_BIDEvpForAlgorithm` of `bid_openssl.c`:
the identifier must have five characters, and the name looked up is the identifier
without its first character (`&algorithm->szAlgID[1]`). -/
def _BIDEvpForAlgorithm (algorithm : BIDJWTAlgorithmDesc) : Except BIDError EVP_MD :=
  if algorithm.szAlgID.length ≠ 5 then Except.error BID_S_CRYPTO_ERROR
  else _BIDEvpForAlgorithmName (some (algorithm.szAlgID.drop 1))

/-- Digest of the signing input, `_BIDMakeShaDigest` of `bid_openssl.c`. `digestLength`
is the value of `*digestLength` on entry; the pair is the status code and the bytes
copied to `digest`, whose number is the value of `*digestLength` on return. The digest
is written to the start of the zero-filled buffer `shaMd`. -/
def _BIDMakeShaDigest (ssl : OpenSSL) (algorithm : BIDJWTAlgorithmDesc) (jwt : BIDJWT)
    (digestLength : Nat) : BIDError × List Octet :=
  match _BIDEvpForAlgorithm algorithm with
  | Except.error err => (err, [])
  | Except.ok md =>
    if digestLength < EVP_MD_size md then (BID_S_BUFFER_TOO_SMALL, [])
    else
      let final := ssl.EVP_Digest md (cstrOctets jwt.EncData)
      let shaMd : List Octet := final ++ List.replicate (EVP_MAX_MD_SIZE - final.length) 0
      let mdLength := final.length
      let digestLength := if digestLength > mdLength then mdLength else digestLength
      (BID_S_OK, shaMd.take digestLength)

/-- The bytes `memcpy(digest, algorithm->pbOid, algorithm->cbOid)` copies. -/
def oidBytes (algorithm : BIDJWTAlgorithmDesc) : List Octet :=
  match algorithm.pbOid with
  | none => []
  | some oid => oid.take algorithm.cbOid

/-- RSA signing, `_RSAMakeSignature` of `bid_openssl.c`. The pair is the status code and
the token, whose signature is set on success. -/
def _RSAMakeSignature (ssl : OpenSSL) (algorithm : BIDJWTAlgorithmDesc) (jwt : BIDJWT)
    (jwk : BIDJWK) : BIDError × BIDJWT :=
  let rsa := ssl._BIDMakeRsaKey jwk false
  if rsa.1 ≠ BID_S_OK then (rsa.1, jwt)
  else
    let sha := _BIDMakeShaDigest ssl algorithm jwt EVP_MAX_MD_SIZE
    if sha.1 ≠ BID_S_OK then (sha.1, jwt)
    else
      let digest := oidBytes algorithm ++ sha.2
      match ssl.RSA_private_encrypt digest rsa.2 with
      | none => (BID_S_CRYPTO_ERROR, jwt)
      | some signature => (BID_S_OK, { jwt with Signature := signature })

/-- RSA verification, `_RSAVerifySignature` of `bid_openssl.c`. The pair is the status
code and `*valid`. `_BIDTimingSafeCompare`, whose body is not part of the sources, is
taken to compare the two buffers byte by byte like `memcmp`. -/
def _RSAVerifySignature (ssl : OpenSSL) (algorithm : BIDJWTAlgorithmDesc) (jwt : BIDJWT)
    (jwk : BIDJWK) : BIDError × Bool :=
  let rsa := ssl._BIDMakeRsaKey jwk true
  if rsa.1 ≠ BID_S_OK then (rsa.1, false)
  else
    let sha := _BIDMakeShaDigest ssl algorithm jwt EVP_MAX_MD_SIZE
    if sha.1 ≠ BID_S_OK then (sha.1, false)
    else
      let digest := oidBytes algorithm ++ sha.2
      match ssl.RSA_public_decrypt jwt.Signature rsa.2 with
      | none => (BID_S_OK, false)
      | some signature =>
        (BID_S_OK,
          decide (signature.length = digest.length) &&
            memcmpEq signature digest signature.length)

/-- Big-endian bytes of a number, most significant first and without leading zero
bytes, built from the least significant end. -/
def bn2binLoop : Nat → Nat → List Octet → List Octet
  | 0, _, acc => acc
  | fuel + 1, n, acc =>
    if n = 0 then acc else bn2binLoop fuel (n / 256) (Fin.ofNat (n % 256) :: acc)

/-- OpenSSL `BN_bn2bin`: the bytes it writes, the big-endian form of the number without
leading zero bytes. -/
def BN_bn2bin (n : Nat) : List Octet := bn2binLoop n n []

/-- OpenSSL `BN_num_bytes`: the number of bytes `BN_bn2bin` writes. -/
def BN_num_bytes (n : Nat) : Nat := (BN_bn2bin n).length

/-- OpenSSL `BN_bin2bn`: the number whose big-endian form the bytes are. -/
def BN_bin2bn (bytes : List Octet) : Nat :=
  bytes.foldl (fun acc b => acc * 256 + b.val) 0

/-- The buffer after writing `bytes` at offset `off`; the bytes before and after the
written range keep their value. -/
def memWrite (buf : List Octet) (off : Nat) (bytes : List Octet) : List Octet :=
  buf.take off ++ bytes ++ buf.drop (off + bytes.length)

/-- DSA signing, `_DSAMakeSignature` of `bid_openssl.c`. The pair is the status code and
the token, whose signature is set on success: a fresh block of `2 * digestLength` bytes
into which `BN_bn2bin` writes r at offset 0 and s at offset `digestLength`. -/
def _DSAMakeSignature (ssl : OpenSSL) (algorithm : BIDJWTAlgorithmDesc) (jwt : BIDJWT)
    (jwk : BIDJWK) : BIDError × BIDJWT :=
  let sha := _BIDMakeShaDigest ssl algorithm jwt EVP_MAX_MD_SIZE
  if sha.1 ≠ BID_S_OK then (sha.1, jwt)
  else
    let digestLength := sha.2.length
    let dsa := ssl._BIDMakeDsaKey jwk false
    if dsa.1 ≠ BID_S_OK then (dsa.1, jwt)
    else
      match ssl.DSA_do_sign sha.2 dsa.2 with
      | none => (BID_S_CRYPTO_ERROR, jwt)
      | some (r, s) =>
        if BN_num_bytes r > digestLength ∨ BN_num_bytes s > digestLength then
          (BID_S_CRYPTO_ERROR, jwt)
        else
          let fresh : List Octet :=
            (List.range (2 * digestLength)).map (ssl.BIDMalloc (2 * digestLength))
          let withR := memWrite fresh 0 (BN_bn2bin r)
          let withS := memWrite withR digestLength (BN_bn2bin s)
          (BID_S_OK, { jwt with Signature := withS })

/-- DSA verification, `_DSAVerifySignature` of `bid_openssl.c`. The pair is the status
code and `*valid`. -/
def _DSAVerifySignature (ssl : OpenSSL) (algorithm : BIDJWTAlgorithmDesc) (jwt : BIDJWT)
    (jwk : BIDJWK) : BIDError × Int :=
  let dsa := ssl._BIDMakeDsaKey jwk true
  if dsa.1 ≠ BID_S_OK then (dsa.1, 0)
  else
    let sha := _BIDMakeShaDigest ssl algorithm jwt EVP_MAX_MD_SIZE
    if sha.1 ≠ BID_S_OK then (sha.1, 0)
    else
      let digestLength := sha.2.length
      if jwt.Signature.length ≠ 2 * digestLength then (BID_S_INVALID_SIGNATURE, 0)
      else
        let r := BN_bin2bn (jwt.Signature.take digestLength)
        let s := BN_bin2bn ((jwt.Signature.drop digestLength).take digestLength)
        let valid := ssl.DSA_do_verify sha.2 (r, s) dsa.2
        if valid < 0 then (BID_S_CRYPTO_ERROR, valid) else (BID_S_OK, valid)

/-- The signature the specification describes for a pair (r, s) and a digest of length
`L`: r as a big-endian number left-padded with zero bytes to `L` bytes, then s likewise. -/
def paddedSignature (L r s : Nat) : List Octet :=
  List.replicate (L - BN_num_bytes r) 0 ++ BN_bn2bin r ++
    (List.replicate (L - BN_num_bytes s) 0 ++ BN_bn2bin s)

/-! ### Attribute certificates (`bid_attrcert.c`) -/

mutual
/-- jansson `json_equal` on two values: the same type and, for containers, equal
elements; an object equals another when they have the same number of members and every
member of the first has an equal value under its key in the second. -/
def jsonEqual : Json → Json → Bool
  | Json.null, Json.null => true
  | Json.bool a, Json.bool b => a == b
  | Json.integer a, Json.integer b => a == b
  | Json.real m e, Json.real m2 e2 => m == m2 && e == e2
  | Json.string a, Json.string b => a == b
  | Json.array xs, Json.array ys => jsonArrayEqual xs ys
  | Json.object ms, Json.object ns => ms.length == ns.length && jsonMembersEqual ms ns
  | _, _ => false
/-- Element-wise equality of two arrays of the same length. -/
def jsonArrayEqual : List Json → List Json → Bool
  | [], [] => true
  | x :: xs, y :: ys => jsonEqual x y && jsonArrayEqual xs ys
  | _, _ => false
/-- Every member of the first list has an equal value under its key in the second. -/
def jsonMembersEqual : List (CStr × Json) → List (CStr × Json) → Bool
  | [], _ => true
  | (k, v) :: rest, ns =>
    (match lookupMember k ns with
      | none => false
      | some w => jsonEqual v w) && jsonMembersEqual rest ns
end

/-- jansson `json_equal`: false when either pointer is `NULL`. -/
def json_equal (a b : Option Json) : Bool :=
  match a, b with
  | some x, some y => jsonEqual x y
  | _, _ => false

/-- jansson `json_object_update`: every member of `other` is stored in `object`; nothing
changes unless both are objects. -/
def json_object_update (object other : Option Json) : Option Json :=
  match object, other with
  | some (Json.object members), some (Json.object updates) =>
    some (Json.object (updates.foldl (fun acc kv => setMember kv.1 kv.2 acc) members))
  | o, _ => o

/-- The `switch (err)` at the `cleanup` label of `_BIDValidateAttributeCertificate`. -/
def attrCertCleanup (err : BIDError) : BIDError :=
  match err with
  | BID_S_ASSERTION_NOT_YET_VALID => BID_S_CERT_NOT_YET_VALID
  | BID_S_EXPIRED_ASSERTION => BID_S_EXPIRED_CERT
  | e => e

/-- Outputs of `_BIDValidateAttributeCertificate`: the status, `*pId` and `*pClaims`. -/
structure AttrCertOutput where
  err : BIDError
  Id : Option Json
  Claims : Option Json

/-- Check of one attribute certificate, `_BIDValidateAttributeCertificate` of
`bid_attrcert.c`. -/
def _BIDValidateAttributeCertificate (env : Env) (context : BIDContext)
    (encodedAttrCert : Option Json) (verificationTime : Int) (certVerifyKey : BIDJWK)
    (certHash certIssuer : Option Json) : AttrCertOutput :=
  match json_string_value encodedAttrCert with
  | none => ⟨attrCertCleanup BID_S_INVALID_ASSERTION, none, none⟩
  | some text =>
    let parsed := env._BIDParseJWT text
    if parsed.1 ≠ BID_S_OK then ⟨attrCertCleanup parsed.1, none, none⟩
    else
      let attrCert := parsed.2
      let err : BIDError :=
        if (json_object_get attrCert.Payload "exp".toList).isSome then
          _BIDValidateExpiry context verificationTime attrCert.Payload
        else BID_S_OK
      if err ≠ BID_S_OK then ⟨attrCertCleanup err, none, none⟩
      else
        let iss := json_object_get attrCert.Payload "iss".toList
        if iss.isSome ∧ json_equal iss certIssuer = false then
          ⟨attrCertCleanup BID_S_INVALID_ISSUER, none, none⟩
        else
          let err := env._BIDVerifySignature attrCert certVerifyKey
          if err ≠ BID_S_OK then ⟨attrCertCleanup err, none, none⟩
          else
            let certBinding := json_object_get attrCert.Payload "cb".toList
            if certBinding.isNone then ⟨attrCertCleanup BID_S_MISSING_CERT_BINDING, none, none⟩
            else if json_equal certHash certBinding = false then
              ⟨attrCertCleanup BID_S_CERT_BINDING_MISMATCH, none, none⟩
            else
              let filtered := env._BIDFilterReservedClaims attrCert.Payload
              if filtered.1 ≠ BID_S_OK then ⟨attrCertCleanup filtered.1, none, filtered.2⟩
              else
                ⟨attrCertCleanup BID_S_OK, json_object_get attrCert.Payload "id".toList,
                  filtered.2⟩

/-- The loop `for (i = 0; i < cAttrCerts; i++)` of `_BIDValidateAttributeCertificates`
over the entries of the array: the claims object after the loop. An entry that does not
validate is skipped (`continue`). -/
def attrCertsLoop (env : Env) (context : BIDContext) (verificationTime : Int)
    (ulReqFlags : Nat) (certVerifyKey : BIDJWK) (certHash iss : Option Json) :
    List Json → Option Json → Option Json
  | [], allAttrCertClaims => allAttrCertClaims
  | attrCert :: rest, allAttrCertClaims =>
    let r := _BIDValidateAttributeCertificate env context (some attrCert) verificationTime
      certVerifyKey certHash iss
    if r.err ≠ BID_S_OK then
      attrCertsLoop env context verificationTime ulReqFlags certVerifyKey certHash iss rest
        allAttrCertClaims
    else if (ulReqFlags &&& env.BID_VERIFY_FLAG_FLATTEN_ATTR_CERTS) ≠ 0 then
      attrCertsLoop env context verificationTime ulReqFlags certVerifyKey certHash iss rest
        (json_object_update allAttrCertClaims r.Claims)
    else
      match json_string_value r.Id with
      | some id =>
        attrCertsLoop env context verificationTime ulReqFlags certVerifyKey certHash iss rest
          (json_object_set allAttrCertClaims id r.Claims).2
      | none =>
        attrCertsLoop env context verificationTime ulReqFlags certVerifyKey certHash iss rest
          allAttrCertClaims

/-- Attribute certificates of an assertion, `_BIDValidateAttributeCertificates` of
`bid_attrcert.c`: the status and `*pAllAttrCertClaims`. For a non-empty array the source
reads `rCertificates[cCertificates - 1]`; without a certificate that is a read outside
the array, whose behaviour is undefined, and the result is `none`. -/
def _BIDValidateAttributeCertificates (env : Env) (context : BIDContext)
    (backedAssertion : BIDBackedAssertion) (verificationTime : Int) (ulReqFlags : Nat)
    (certVerifyKey : BIDJWK) : Option (BIDError × Option Json) :=
  match json_object_get backedAssertion.Assertion.Payload "attr-certs".toList with
  | none => some (BID_S_OK, none)
  | some (Json.array []) => some (BID_S_OK, none)
  | some (Json.array (first :: others)) =>
    match backedAssertion.rCertificates.getLast? with
    | none => none
    | some leafCert =>
      let iss := json_object_get leafCert.Payload "iss".toList
      let hash := env._BIDDigestAssertion leafCert.EncData
      if hash.1 ≠ BID_S_OK then some (hash.1, none)
      else
        let certHash := _BIDJsonBinaryValue env hash.2
        if certHash.1 ≠ BID_S_OK then some (certHash.1, none)
        else
          some (BID_S_OK,
            attrCertsLoop env context verificationTime ulReqFlags certVerifyKey certHash.2
              iss (first :: others) (some (Json.object [])))
  | some _ => some (BID_S_INVALID_ASSERTION, none)

/-! ### Audiences, big numbers and error strings (`bid_util.c`, `bid_openssl.c`) -/

/-- The context option `BID_CONTEXT_GSS` of `browserid.h`. -/
def BID_CONTEXT_GSS : Nat := 0x00000010

/-- String copy `_BIDDuplicateString` of `bid_util.c`. -/
def _BIDDuplicateString (szSrc : Option CStr) : BIDError × Option CStr :=
  match szSrc with
  | none => (BID_S_INVALID_PARAMETER, none)
  | some src => (BID_S_OK, some src)

/-- C `strrchr`: the suffix starting at the last occurrence of `c`, or `NULL`. -/
def strrchr : CStr → Char → Option CStr
  | [], _ => none
  | x :: xs, c =>
    match strrchr xs c with
    | some p => some p
    | none => if x = c then some (x :: xs) else none

/-- Audience packing `_BIDPackAudience` of `bid_util.c`, built without
`BROKEN_URL_PARSER`: the status and `*pszPackedAudience`. `BID_GSS_AUDIENCE_PREFIX_LEN` is
the length of `BID_GSS_AUDIENCE_PREFIX`. -/
def _BIDPackAudience (env : Env) (context : BIDContext) (szAudienceOrSpn : Option CStr)
    (channelBindings : Option (List Octet)) : BIDError × Option CStr :=
  match szAudienceOrSpn with
  | none => (BID_S_INVALID_PARAMETER, none)
  | some spn =>
    if (context.ContextOptions &&& BID_CONTEXT_GSS) = 0 then
      if channelBindings.isSome then (BID_S_INVALID_PARAMETER, none)
      else
        let dup := _BIDDuplicateString (some spn)
        if dup.1 ≠ BID_S_OK then (dup.1, dup.2) else (BID_S_OK, dup.2)
    else
      let encoded : BIDError × CStr :=
        match channelBindings with
        | some bytes => env._BIDBase64UrlEncode bytes
        | none => (BID_S_OK, [])
      if encoded.1 ≠ BID_S_OK then (encoded.1, none)
      else
        let cchEncodedChannelBindings := encoded.2.length
        let separator : CStr := if cchEncodedChannelBindings ≠ 0 then ['#'] else []
        (BID_S_OK, some (env.BID_GSS_AUDIENCE_PREFIX ++ spn ++ separator ++ encoded.2))

/-- Audience unpacking `_BIDUnpackAudience` of `bid_util.c`, built without
`BROKEN_URL_PARSER`: the status, `*pszAudienceOrSpn` and `*ppbChannelBindings` (whose
length is `*pcbChannelBindings`). -/
def _BIDUnpackAudience (env : Env) (context : BIDContext) (szPackedAudience : Option CStr) :
    BIDError × Option CStr × Option (List Octet) :=
  match szPackedAudience with
  | none => (BID_S_INVALID_PARAMETER, none, none)
  | some packed =>
    if (context.ContextOptions &&& BID_CONTEXT_GSS) = 0 then
      let dup := _BIDDuplicateString (some packed)
      if dup.1 ≠ BID_S_OK then (dup.1, dup.2, none) else (BID_S_OK, dup.2, none)
    else
      let prefixLen := env.BID_GSS_AUDIENCE_PREFIX.length
      if packed.length ≤ prefixLen ∨ packed.take prefixLen ≠ env.BID_GSS_AUDIENCE_PREFIX then
        (BID_S_INVALID_AUDIENCE_URN, none, none)
      else
        let rest := packed.drop prefixLen
        match strrchr rest '#' with
        | some p =>
          let decoded : BIDError × Option (List Octet) :=
            if p.drop 1 ≠ [] then
              let d := env._BIDBase64UrlDecode (p.drop 1)
              (d.1, some d.2)
            else (BID_S_OK, none)
          if decoded.1 ≠ BID_S_OK then (decoded.1, none, decoded.2)
          else (BID_S_OK, some (rest.take (rest.length - p.length)), decoded.2)
        | none => (BID_S_OK, some rest, none)

/-- C `isdigit` on a character of a string. -/
def isdigit (c : Char) : Bool := decide (48 ≤ c.toNat ∧ c.toNat ≤ 57)

/-- Big-number member reader `_BIDGetJsonBNValue` of `bid_openssl.c`: the status and
`*bn`. A key of `NULL` reads the value itself. The decoder writes into a buffer of 2048
bytes of the caller. -/
def _BIDGetJsonBNValue (env : Env) (ssl : OpenSSL) (jwk : BIDJWK) (key : Option CStr)
    (encoding : Nat) : BIDError × Option Int :=
  let value : Option Json :=
    match key with
    | some k => json_object_get jwk k
    | none => jwk
  if value.isNone then (BID_S_NO_KEY, none)
  else
    match json_string_value value with
    | none => (BID_S_INVALID_KEY, none)
    | some szValue =>
      if encoding = env.BID_ENCODING_BASE64_URL ∨ env._BIDIsLegacyJWK jwk = false then
        let decoded := env._BIDBase64UrlDecode szValue
        if decoded.1 = BID_S_OK then (BID_S_OK, some (BN_bin2bn decoded.2 : Int))
        else (BID_S_INVALID_KEY, none)
      else
        let len := szValue.length
        let cchDecimal := szValue.countP isdigit
        let parsed := if cchDecimal = len then ssl.BN_dec2bn szValue else ssl.BN_hex2bn szValue
        if parsed.1 ≠ 0 then (BID_S_OK, parsed.2) else (BID_S_INVALID_KEY, parsed.2)

/-- The table `_BIDErrorTable` of `bid_util.c`. -/
def _BIDErrorTable : List CStr :=
  ["Success".toList,
    "No context".toList,
    "Out of memory".toList,
    "Not implemented".toList,
    "Invalid parameter".toList,
    "Invalid usage".toList,
    "Unavailable".toList,
    "Unknown JSON key".toList,
    "Invalid JSON".toList,
    "Invalid Base64".toList,
    "Invalid assertion".toList,
    "Cannot encode JSON".toList,
    "Cannot encode Base64".toList,
    "Too many certs".toList,
    "Untrusted issuer".toList,
    "invalid issuer".toList,
    "Missing issuer".toList,
    "Missing audience".toList,
    "Bad audience".toList,
    "Expired assertion".toList,
    "Expired certificate".toList,
    "Invalid signature".toList,
    "Missing algorithm".toList,
    "Unknown algorithm".toList,
    "Invalid key".toList,
    "Invalid key set".toList,
    "No key".toList,
    "Internal crypto error".toList,
    "HTTP error".toList,
    "Buffer too small".toList,
    "Buffer too large".toList,
    "Remote verification failure".toList,
    "Missing principal".toList,
    "Unknown principal type".toList,
    "Missing certificate".toList,
    "Unknown attribute".toList,
    "Missing channel bindings".toList,
    "Channel bindings mismatch".toList,
    "No session key".toList,
    "Document not modified".toList,
    "Process does not support UI interaction".toList,
    "Failed to acquire assertion interactively".toList,
    "Invalid audience URN".toList,
    "Invalid JSON web token".toList,
    "Unknown error code".toList]

/-- The enumerators of `BIDError` in `browserid.h`, in declaration order. -/
def headerEnumerators : List BIDError :=
  [BID_S_OK, BID_S_NO_CONTEXT, BID_S_NO_MEMORY, BID_S_NOT_IMPLEMENTED,
    BID_S_INVALID_PARAMETER, BID_S_INVALID_USAGE, BID_S_UNAVAILABLE, BID_S_UNKNOWN_JSON_KEY,
    BID_S_INVALID_JSON, BID_S_INVALID_BASE64, BID_S_INVALID_ASSERTION,
    BID_S_CANNOT_ENCODE_JSON, BID_S_CANNOT_ENCODE_BASE64, BID_S_TOO_MANY_CERTS,
    BID_S_UNTRUSTED_ISSUER, BID_S_INVALID_ISSUER, BID_S_MISSING_ISSUER,
    BID_S_MISSING_AUDIENCE, BID_S_BAD_AUDIENCE, BID_S_EXPIRED_ASSERTION, BID_S_EXPIRED_CERT,
    BID_S_INVALID_SIGNATURE, BID_S_MISSING_ALGORITHM, BID_S_UNKNOWN_ALGORITHM,
    BID_S_INVALID_KEY, BID_S_INVALID_KEYSET, BID_S_NO_KEY, BID_S_CRYPTO_ERROR,
    BID_S_HTTP_ERROR, BID_S_BUFFER_TOO_SMALL, BID_S_BUFFER_TOO_LONG,
    BID_S_REMOTE_VERIFY_FAILURE, BID_S_MISSING_PRINCIPAL, BID_S_UNKNOWN_PRINCIPAL_TYPE,
    BID_S_MISSING_CERT, BID_S_UNKNOWN_ATTRIBUTE, BID_S_MISSING_CHANNEL_BINDINGS,
    BID_S_CHANNEL_BINDINGS_MISMATCH, BID_S_NO_SESSION_KEY, BID_S_DOCUMENT_NOT_MODIFIED,
    BID_S_INTERACT_UNAVAILABLE, BID_S_INTERACT_FAILURE, BID_S_INVALID_AUDIENCE_URN,
    BID_S_INVALID_JSON_WEB_TOKEN, BID_S_UNKNOWN_ERROR_CODE]

/-- The number of an enumerator of `browserid.h`: its position in the declaration, the
first being 0. -/
def errorCode (e : BIDError) : Int := (headerEnumerators.indexOf e : Nat)

/-- Error description `BIDErrorToString` of `bid_util.c`, for a non-null `pszErr`: the
status and `*pszErr`. The argument is the number passed as `error`. -/
def BIDErrorToString (error : Int) : BIDError × Option CStr :=
  if error < errorCode BID_S_OK ∨ error > errorCode BID_S_UNKNOWN_ERROR_CODE then
    (BID_S_UNKNOWN_ERROR_CODE, none)
  else (BID_S_OK, _BIDErrorTable[error.toNat]?)

/-! ### Lifetimes of the GSS mechanism (`util_cred.c`, `util_context.c`) -/

/-- GSS-API `GSS_C_INDEFINITE` (RFC 2744). -/
def GSS_C_INDEFINITE : Nat := 0xffffffff

/-- GSS-API major status `GSS_S_COMPLETE` (RFC 2744). -/
def GSS_S_COMPLETE : Nat := 0

/-- GSS-API major status `GSS_S_CREDENTIALS_EXPIRED`, routine error 11 (RFC 2744). -/
def GSS_S_CREDENTIALS_EXPIRED : Nat := 11 * 2 ^ 16

/-- GSS-API major status `GSS_S_CONTEXT_EXPIRED`, routine error 12 (RFC 2744). -/
def GSS_S_CONTEXT_EXPIRED : Nat := 12 * 2 ^ 16

/-- GSS-API macro `GSS_ERROR`: a calling error or a routine error is set (RFC 2744). -/
def GSS_ERROR (major : Nat) : Bool := decide (major &&& 0xffff0000 ≠ 0)

/-- GSS-API credential usages `GSS_C_BOTH`, `GSS_C_INITIATE`, `GSS_C_ACCEPT` (RFC 2744). -/
def GSS_C_BOTH : Nat := 0

/-- GSS-API credential usage `GSS_C_INITIATE` (RFC 2744). -/
def GSS_C_INITIATE : Nat := 1

/-- GSS-API credential usage `GSS_C_ACCEPT` (RFC 2744). -/
def GSS_C_ACCEPT : Nat := 2

/-- The value an `OM_uint32` holds after a number is stored in it. -/
def toOMUint32 (n : Int) : Nat := (n % 2 ^ 32).toNat

/-- A name (`gss_name_t`), identified by a number. -/
abbrev gss_name_t := Nat

/-- A set of mechanisms (`gss_OID_set`), the numbers of its members. -/
abbrev gss_OID_set := List Nat

/-- The fields of a credential (`struct gss_cred_id_struct`) that `gssBidInquireCred`
reads; `none` is `GSS_C_NO_NAME` and `GSS_C_NO_OID_SET`. -/
structure gss_cred_id_struct where
  flags : Nat
  name : Option gss_name_t
  mechanisms : Option gss_OID_set
  expiryTime : Int

/-- Constants of the mechanism's private header and callees of `gssBidInquireCred` whose
bodies are not part of the sources. A callee returns its major status, the minor status
it leaves and its output. -/
structure GssEnv where
  CRED_FLAG_INITIATE : Nat
  CRED_FLAG_ACCEPT : Nat
  GSSBID_CRED_EXPIRED : Nat
  gssBidDuplicateName : gss_name_t → Nat × Nat × Option gss_name_t
  duplicateOidSet : gss_OID_set → Nat × Nat × Option gss_OID_set
  gssBidIndicateMechs : Nat × Nat × Option gss_OID_set

/-- Outputs of `gssBidInquireCred`: the major status and what the call stored through
`minor`, `name`, `pLifetime`, `cred_usage` and `mechanisms`; `none` where it stored
nothing. -/
structure InquireCredOutput where
  major : Nat
  minor : Option Nat
  name : Option (Option gss_name_t)
  lifetime : Option Nat
  cred_usage : Option Nat
  mechanisms : Option (Option gss_OID_set)

/-- The block `if (name != NULL)` of `gssBidInquireCred`: the major status, the minor
status and the name it leaves; the major status is `none` when the block assigns none. -/
def inquireCredName (g : GssEnv) (cred : gss_cred_id_struct) (wantName : Bool) :
    Option Nat × Option Nat × Option (Option gss_name_t) :=
  if wantName then
    match cred.name with
    | some n =>
      let r := g.gssBidDuplicateName n
      (some r.1, some r.2.1, some r.2.2)
    | none => (none, none, some none)
  else (none, none, none)

/-- The block `if (cred_usage != NULL)` of `gssBidInquireCred`. -/
def inquireCredUsage (g : GssEnv) (cred : gss_cred_id_struct) (wantUsage : Bool) :
    Option Nat :=
  if wantUsage then
    let flags := cred.flags &&& (g.CRED_FLAG_INITIATE ||| g.CRED_FLAG_ACCEPT)
    if flags = g.CRED_FLAG_INITIATE then some GSS_C_INITIATE
    else if flags = g.CRED_FLAG_ACCEPT then some GSS_C_ACCEPT
    else some GSS_C_BOTH
  else none

/-- The block `if (mechanisms != NULL)` of `gssBidInquireCred`. -/
def inquireCredMechanisms (g : GssEnv) (cred : gss_cred_id_struct) (wantMechanisms : Bool) :
    Option (Nat × Nat × Option gss_OID_set) :=
  if wantMechanisms then
    match cred.mechanisms with
    | some set => some (g.duplicateOidSet set)
    | none => some g.gssBidIndicateMechs
  else none

/-- The lifetime `gssBidInquireCred` computes (`time_t lifetime`), `now` being the value
of `time(NULL)`. -/
def inquireCredLifetime (now : Int) (cred : gss_cred_id_struct) : Int :=
  if cred.expiryTime = 0 then (GSS_C_INDEFINITE : Int)
  else
    let lifetime := now - cred.expiryTime
    if lifetime < 0 then 0 else lifetime

/-- Credential inquiry `gssBidInquireCred` of `util_cred.c`; `now` is the value of
`time(NULL)`, and each flag says whether the corresponding output pointer is not
`NULL`. -/
def gssBidInquireCred (g : GssEnv) (now : Int) (cred : gss_cred_id_struct)
    (wantName wantLifetime wantUsage wantMechanisms : Bool) : InquireCredOutput :=
  let nameStep := inquireCredName g cred wantName
  if (nameStep.1.map GSS_ERROR) = some true then
    ⟨nameStep.1.getD 0, nameStep.2.1, nameStep.2.2, none, none, none⟩
  else
    let usage := inquireCredUsage g cred wantUsage
    let mechs := inquireCredMechanisms g cred wantMechanisms
    let minorSoFar : Option Nat :=
      match mechs with
      | some r => some r.2.1
      | none => nameStep.2.1
    let mechsOut : Option (Option gss_OID_set) := mechs.map (fun r => r.2.2)
    if (mechs.map (fun r => GSS_ERROR r.1)) = some true then
      ⟨(mechs.map (fun r => r.1)).getD 0, minorSoFar, nameStep.2.2, none, usage, mechsOut⟩
    else
      let lifetime := inquireCredLifetime now cred
      let lifetimeOut : Option Nat := if wantLifetime then some (toOMUint32 lifetime) else none
      if lifetime = 0 then
        ⟨GSS_S_CREDENTIALS_EXPIRED, some g.GSSBID_CRED_EXPIRED, nameStep.2.2, lifetimeOut,
          usage, mechsOut⟩
      else ⟨GSS_S_COMPLETE, some 0, nameStep.2.2, lifetimeOut, usage, mechsOut⟩

/-- Remaining lifetime of a context, `gssBidContextTime` of `util_context.c`: the major
status, `*minor` and `*time_rec`; `expiryTime` is the field of the context handle and
`now` the value stored by `time(&now)`. -/
def gssBidContextTime (now : Int) (expiryTime : Int) : Nat × Nat × Nat :=
  if expiryTime = 0 then (GSS_S_COMPLETE, 0, GSS_C_INDEFINITE)
  else
    let lifetime := expiryTime - now
    if lifetime ≤ 0 then (GSS_S_CONTEXT_EXPIRED, 0, 0)
    else (GSS_S_COMPLETE, 0, toOMUint32 lifetime)

/-! ### A small environment for evaluating the definitions on concrete inputs -/

/-- A parser given by a finite table; any other text is rejected as
`BID_S_INVALID_JSON_WEB_TOKEN`. -/
def tableParseJWT (table : List (CStr × BIDJWT)) (s : CStr) : BIDError × BIDJWT :=
  match table with
  | [] => (BID_S_INVALID_JSON_WEB_TOKEN, ⟨[], none, none, []⟩)
  | (k, jwt) :: rest => if k = s then (BID_S_OK, jwt) else tableParseJWT rest s

/-- A token whose payload is the given object and whose other parts are empty. -/
def jwtOfPayload (enc : CStr) (members : List (CStr × Json)) : BIDJWT :=
  ⟨enc, some (Json.object []), some (Json.object members), []⟩

/-- Leaf certificate of the sample: alice@example.org issued by example.org. -/
def sampleCert : BIDJWT :=
  jwtOfPayload "c.c".toList
    [("iss".toList, Json.string "example.org".toList),
     ("exp".toList, Json.integer 2000000000000),
     ("principal".toList,
        Json.object [("email".toList, Json.string "alice@example.org".toList)])]

/-- Final assertion of the sample: audience https://rp.example.com with channel-binding
token `cbt`. -/
def sampleAssertion : BIDJWT :=
  jwtOfPayload "a.a".toList
    [("aud".toList, Json.string "https://rp.example.com".toList),
     ("exp".toList, Json.integer 2000000000000),
     ("cbt".toList, Json.string "AQI".toList)]

/-- Lookup in a sample cache: a null handle is `BID_S_CACHE_NOT_FOUND`, a null key
`BID_S_INVALID_PARAMETER`, a missing key `BID_S_CACHE_KEY_NOT_FOUND`. -/
def sampleGetCacheObject (cache : BIDReplayCache) (key : Option CStr) :
    BIDError × Option Json :=
  match cache, key with
  | none, _ => (BID_S_CACHE_NOT_FOUND, none)
  | some _, none => (BID_S_INVALID_PARAMETER, none)
  | some entries, some k =>
    match lookupMember k entries with
    | none => (BID_S_CACHE_KEY_NOT_FOUND, none)
    | some v => (BID_S_OK, some v)

/-- Store in a sample cache: replaces or adds the entry. -/
def sampleSetCacheObject (cache : BIDReplayCache) (key : CStr) (value : Option Json) :
    BIDError × BIDReplayCache :=
  match cache, value with
  | some entries, some v => (BID_S_OK, some (setMember key v entries))
  | none, _ => (BID_S_CACHE_NOT_FOUND, none)
  | c, none => (BID_S_INVALID_PARAMETER, c)

/-- Sample text encoding of bytes: byte `b` becomes the letter `a` shifted by `b mod 16`
preceded by the letter shifted by `b / 16`. It stands in for base64url in examples. -/
def sampleEncode (bytes : List Octet) : CStr :=
  bytes.flatMap (fun b => [Char.ofNat (97 + b.val / 16), Char.ofNat (97 + b.val % 16)])

/-- Inverse of the sample text encoding; `none` for a text it does not produce. -/
def sampleDecode : CStr → Option (List Octet)
  | [] => some []
  | [_] => none
  | a :: b :: rest =>
    if 97 ≤ a.toNat ∧ a.toNat < 113 ∧ 97 ≤ b.toNat ∧ b.toNat < 113 then
      match sampleDecode rest with
      | none => none
      | some bytes => some (Fin.ofNat ((a.toNat - 97) * 16 + (b.toNat - 97)) :: bytes)
    else none

/-- Sample digest of a string: its length and the code of its first character. -/
def sampleDigest (s : CStr) : List Octet :=
  [Fin.ofNat s.length, Fin.ofNat (s.headD 'x').toNat]

/-- Sample environment: a table parser for the two sample tokens, a decoder that knows the
text `AQI` (bytes 1, 2) and the sample text encoding, signatures that always verify, an
authority for example.org, a claim filter that drops `iss`, `exp`, `cb` and `id`, and keys
that are legacy keys when they have no `version` member. -/
def sampleEnv : Env where
  BID_MAX_CERTS := 6
  BID_CONTEXT_REAUTH := 64
  BID_VERIFY_FLAG_NO_REAUTH := 2
  BID_VERIFY_FLAG_REAUTH := 1
  _BIDParseJWT := tableParseJWT
    [("c.c.c".toList, sampleCert), ("a.a.a".toList, sampleAssertion)]
  _BIDBase64UrlDecode := fun s =>
    if s = "AQI".toList then (BID_S_OK, [1, 2])
    else
      match sampleDecode s with
      | some bytes => (BID_S_OK, bytes)
      | none => (BID_S_INVALID_BASE64, [])
  _BIDVerifySignature := fun _ _ => BID_S_OK
  _BIDIssuerIsAuthoritative := fun d i => if d = i then BID_S_OK else BID_S_UNTRUSTED_ISSUER
  _BIDAcquireAuthority := fun i =>
    if i = "example.org".toList then (BID_S_OK, some (Json.object [])) else (BID_S_HTTP_ERROR, none)
  _BIDGetAuthorityPublicKey := fun a => (BID_S_OK, a)
  _BIDVerifyReauthAssertion := fun _ _ a _ => ⟨BID_S_INVALID_ASSERTION, a, none, none⟩
  populateIdentityErr := BID_S_OK
  _BIDDigestAssertion := fun s => (BID_S_OK, sampleDigest s)
  _BIDBase64UrlEncode := fun b => (BID_S_OK, sampleEncode b)
  _BIDGetCacheObject := sampleGetCacheObject
  _BIDSetCacheObject := sampleSetCacheObject
  _BIDCacheObjects := fun c =>
    match c with
    | none => ([], BID_S_CACHE_NOT_FOUND)
    | some entries => (entries, BID_S_NO_MORE_ITEMS)
  BIDGetIdentitySessionKey := fun identity =>
    match identity.SessionKey with
    | none => BID_S_NO_SESSION_KEY
    | some _ => BID_S_OK
  _BIDPackBackedAssertion := fun a _ =>
    (BID_S_OK, some ('~' :: a.Assertion.EncData), a.Assertion)
  BID_VERIFY_FLAG_FLATTEN_ATTR_CERTS := 4
  _BIDFilterReservedClaims := fun payload =>
    match payload with
    | some (Json.object members) =>
      (BID_S_OK, some (Json.object (members.filter (fun kv =>
        decide (kv.1 ∉ ["iss".toList, "exp".toList, "cb".toList, "id".toList])))))
    | _ => (BID_S_INVALID_PARAMETER, none)
  BID_GSS_AUDIENCE_PREFIX := "urn:x-gss:".toList
  BID_ENCODING_BASE64_URL := 2
  _BIDIsLegacyJWK := fun jwk => (json_object_get jwk "version".toList).isNone

/-- Sample context: no options, skew of 300. -/
def sampleContext : BIDContext := ⟨0, 300, 36000, some [], some []⟩

/-- Sample context with the reauthentication option set. -/
def sampleReauthContext : BIDContext := ⟨64, 300, 36000, some [], some []⟩

/-- Sample backed assertion: one certificate and the final assertion. -/
def sampleBacked : BIDBackedAssertion := ⟨sampleAssertion, [sampleCert]⟩

/-- Value of a character as a digit of the given base, if it is one. -/
def sampleDigit (base : Nat) (c : Char) : Option Nat :=
  let v : Option Nat :=
    if 48 ≤ c.toNat ∧ c.toNat ≤ 57 then some (c.toNat - 48)
    else if 97 ≤ c.toNat ∧ c.toNat ≤ 102 then some (c.toNat - 87)
    else if 65 ≤ c.toNat ∧ c.toNat ≤ 70 then some (c.toNat - 55)
    else none
  match v with
  | some d => if d < base then some d else none
  | none => none

/-- Sample number parser: the digits in front of the text, read in the given base; the
count of digits read and the number, or 0 and nothing when the text starts with no digit. -/
def sampleParseNumber (base : Nat) (s : CStr) : Nat × Option Int :=
  let digits := s.takeWhile (fun c => (sampleDigit base c).isSome)
  if digits = [] then (0, none)
  else
    (digits.length,
      some (digits.foldl (fun acc c => acc * base + ((sampleDigit base c).getD 0 : Nat)) 0 : Nat))

/-- Sample library primitives: a keyed digest of 32 bytes that records the lengths of
key and message, a fixed stream of random bytes, and the clock at 1.1 seconds; a digest
of the length of the selected function that repeats the length of the message, fresh
memory filled with zero bytes, an RSA transformation that leaves the bytes as they are,
a DSA key whose signature is the pair (1, 2), the only pair it accepts, and number
parsers that read the leading digits. -/
def sampleSSL : OpenSSL where
  HMAC_SHA256 := fun k m =>
    Fin.ofNat k.length :: Fin.ofNat m.length :: List.replicate 30 0
  RAND_bytes := fun _ => (true, fun i => Fin.ofNat i)
  gettimeofday := (1, 100000)
  EVP_Digest := fun md data => List.replicate (EVP_MD_size md) (Fin.ofNat data.length)
  BIDMalloc := fun _ _ => 0
  _BIDMakeRsaKey := fun _ _ => (BID_S_OK, 0)
  RSA_private_encrypt := fun data _ => some data
  RSA_public_decrypt := fun data _ => some data
  _BIDMakeDsaKey := fun _ _ => (BID_S_OK, 0)
  DSA_do_sign := fun _ _ => some (1, 2)
  DSA_do_verify := fun _ sig _ => if sig = (1, 2) then 1 else 0
  BN_dec2bn := sampleParseNumber 10
  BN_hex2bn := sampleParseNumber 16

/-- Sample identity: claimed expiry 5000 and a three-byte session key. -/
def sampleIdentity : BIDIdentity :=
  ⟨some (Json.object [("exp".toList, Json.integer 5000)]), some (Json.object []),
    some [1, 2, 3]⟩

/-- Sample identity without a claimed expiry. -/
def sampleIdentityNoExp : BIDIdentity :=
  ⟨some (Json.object [("email".toList, Json.string "alice@example.org".toList)]),
    some (Json.object []), some [1, 2, 3]⟩

/-- Sample ticket-cache entry for the audience https://rp.example.com: a ticket with
`jti` J and `exp` 1000, and an authenticator root key. -/
def sampleTicketEntry : Json :=
  Json.object
    [("tkt".toList, Json.object
        [("jti".toList, Json.string "J".toList), ("exp".toList, Json.integer 1000)]),
     ("ark".toList, Json.object [("secret-key".toList, Json.string "AQI".toList)])]

/-- Sample reauthentication context with a ticket lifetime of 500. -/
def sampleShortTicketContext : BIDContext := ⟨64, 300, 500, some [], some []⟩

/-- Sample authenticator naming the replay-cache key of the sample assertion as its
ticket. -/
def sampleAuthenticator : BIDJWT :=
  jwtOfPayload "h.p".toList
    [("tkt".toList, Json.string
        (sampleEnv._BIDBase64UrlEncode
          (sampleEnv._BIDDigestAssertion "c.c.c~a.a.a".toList).2).2),
     ("aud".toList, Json.string "https://rp.example.com".toList)]

/-- Status of a call that delivers a token. -/
def tokenStatus (r : Except BIDError BIDJWT) : BIDError :=
  match r with
  | Except.ok _ => BID_S_OK
  | Except.error e => e

/-- Payload of the token a call delivers, `NULL` when it failed. -/
def tokenPayload (r : Except BIDError BIDJWT) : Option Json :=
  match r with
  | Except.ok jwt => jwt.Payload
  | Except.error _ => none

/-- Sample library primitives whose fresh memory is filled with the byte 170. -/
def sampleDirtySSL : OpenSSL :=
  { sampleSSL with BIDMalloc := fun _ _ => 170 }

/-- Sample mechanism environment: the flag values 0x10000 and 0x20000, and callees that
succeed. -/
def sampleGssEnv : GssEnv where
  CRED_FLAG_INITIATE := 0x00010000
  CRED_FLAG_ACCEPT := 0x00020000
  GSSBID_CRED_EXPIRED := 7
  gssBidDuplicateName := fun n => (0, 0, some n)
  duplicateOidSet := fun s => (0, 0, some s)
  gssBidIndicateMechs := (0, 0, some [1])

/-- Sample attribute certificate: bound to the sample leaf certificate, with the
identifier `role` and the claim `group`. -/
def sampleAttrCert : BIDJWT :=
  jwtOfPayload "t.t".toList
    [("cb".toList, Json.string "adgd".toList),
     ("id".toList, Json.string "role".toList),
     ("group".toList, Json.string "admin".toList)]

/-- Sample environment whose parser also knows the sample attribute certificate. -/
def sampleAttrEnv : Env :=
  { sampleEnv with
    _BIDParseJWT := tableParseJWT
      [("c.c.c".toList, sampleCert), ("a.a.a".toList, sampleAssertion),
        ("t.t.t".toList, sampleAttrCert)] }

/-- Sample backed assertion whose payload has the given `attr-certs` member. -/
def sampleAttrBacked (attrCerts : Json) : BIDBackedAssertion :=
  ⟨jwtOfPayload "a.a".toList
      [("aud".toList, Json.string "https://rp.example.com".toList),
        ("attr-certs".toList, attrCerts)],
    [sampleCert]⟩

/-! ## Theorems -/

/-- A failed timestamp read leaves zero in the output. -/
theorem timestamp_zero_of_fail (json : Option Json) (key : CStr)
    (h : (_BIDGetJsonTimestampValue json key).1 ≠ BID_S_OK) :
    (_BIDGetJsonTimestampValue json key).2 = 0 := by
  unfold _BIDGetJsonTimestampValue at h ⊢
  cases hget : json_object_get json key with
  | none => simp
  | some j => simp [hget] at h

/-- A timestamp read either succeeds or reports an unknown key. -/
theorem timestamp_status (json : Option Json) (key : CStr) :
    (_BIDGetJsonTimestampValue json key).1 = BID_S_OK ∨
      (_BIDGetJsonTimestampValue json key).1 = BID_S_UNKNOWN_JSON_KEY := by
  unfold _BIDGetJsonTimestampValue
  cases json_object_get json key <;> simp

/-- C1: when `exp` is read successfully and `iat`, `nbf` (when present) are at most
`Skew` ahead of the verification time, `_BIDValidateExpiry` returns
`BID_S_EXPIRED_ASSERTION` exactly when `verificationTime - exp > Skew` and `BID_S_OK`
otherwise; `verificationTime = exp + Skew` is accepted, `exp + Skew + 1` is rejected. -/
theorem C1_expiry_exact (context : BIDContext) (verificationTime : Int) (jwt : Option Json)
    (hexp : (_BIDGetJsonTimestampValue jwt "exp".toList).1 = BID_S_OK)
    (hiat : (_BIDGetJsonTimestampValue jwt "iat".toList).1 = BID_S_OK →
      (_BIDGetJsonTimestampValue jwt "iat".toList).2 - verificationTime ≤ (context.Skew : Int))
    (hnbf : (_BIDGetJsonTimestampValue jwt "nbf".toList).1 = BID_S_OK →
      (_BIDGetJsonTimestampValue jwt "nbf".toList).2 - verificationTime ≤ (context.Skew : Int)) :
    (_BIDValidateExpiry context verificationTime jwt = BID_S_EXPIRED_ASSERTION ↔
        verificationTime - (_BIDGetJsonTimestampValue jwt "exp".toList).2 >
          (context.Skew : Int)) ∧
      (¬ (verificationTime - (_BIDGetJsonTimestampValue jwt "exp".toList).2 >
          (context.Skew : Int)) →
        _BIDValidateExpiry context verificationTime jwt = BID_S_OK) ∧
      (verificationTime = (_BIDGetJsonTimestampValue jwt "exp".toList).2 + context.Skew →
        _BIDValidateExpiry context verificationTime jwt = BID_S_OK) ∧
      (verificationTime = (_BIDGetJsonTimestampValue jwt "exp".toList).2 + context.Skew + 1 →
        _BIDValidateExpiry context verificationTime jwt = BID_S_EXPIRED_ASSERTION) := by
  have h1 : ¬ ((_BIDGetJsonTimestampValue jwt "iat".toList).1 = BID_S_OK ∧
      (_BIDGetJsonTimestampValue jwt "iat".toList).2 - verificationTime >
        (context.Skew : Int)) := by
    rintro ⟨a, b⟩
    have := hiat a
    omega
  have h2 : ¬ ((_BIDGetJsonTimestampValue jwt "nbf".toList).1 = BID_S_OK ∧
      (_BIDGetJsonTimestampValue jwt "nbf".toList).2 - verificationTime >
        (context.Skew : Int)) := by
    rintro ⟨a, b⟩
    have := hnbf a
    omega
  have key : _BIDValidateExpiry context verificationTime jwt =
      if verificationTime - (_BIDGetJsonTimestampValue jwt "exp".toList).2 >
          (context.Skew : Int) then BID_S_EXPIRED_ASSERTION else BID_S_OK := by
    unfold _BIDValidateExpiry
    simp only [h1, h2, hexp, if_false]
    simp
  rw [key]
  refine ⟨?_, ?_, ?_, ?_⟩
  · constructor
    · intro h
      by_contra hn
      rw [if_neg hn] at h
      exact absurd h (by decide)
    · intro h
      rw [if_pos h]
  · intro h
    rw [if_neg h]
  · intro h
    rw [if_neg (by omega)]
  · intro h
    rw [if_pos (by omega)]

/-- Witness for C1: scenario S2, `exp = 2000000000000`, skew 300, verification 301000
past `exp`, is rejected as expired. -/
theorem C1_expiry_exact_witness :
    (_BIDGetJsonTimestampValue
        (some (Json.object [("exp".toList, Json.integer 2000000000000)])) "exp".toList).1
        = BID_S_OK ∧
      _BIDValidateExpiry sampleContext 2000000301000
        (some (Json.object [("exp".toList, Json.integer 2000000000000)]))
        = BID_S_EXPIRED_ASSERTION :=
  ⟨by decide,
    (C1_expiry_exact sampleContext 2000000301000
      (some (Json.object [("exp".toList, Json.integer 2000000000000)]))
      (by decide) (by decide) (by decide)).1.mpr (by decide)⟩

/-- C5: whenever `_BIDValidateExpiry` returns `BID_S_OK` at verification time `t`, a
present `iat` satisfies `t ≥ iat - Skew`, a present `nbf` satisfies `t ≥ nbf - Skew`, a
present `exp` satisfies `t ≤ exp + Skew`, and when `exp` is absent `iat` is present and
`t ≤ (iat + Skew) + Skew`; a payload with neither `exp` nor `iat` is not accepted. -/
theorem C5_accept_implies_window (context : BIDContext) (verificationTime : Int)
    (jwt : Option Json)
    (hok : _BIDValidateExpiry context verificationTime jwt = BID_S_OK) :
    ((_BIDGetJsonTimestampValue jwt "iat".toList).1 = BID_S_OK →
        verificationTime ≥ (_BIDGetJsonTimestampValue jwt "iat".toList).2 - context.Skew) ∧
      ((_BIDGetJsonTimestampValue jwt "nbf".toList).1 = BID_S_OK →
        verificationTime ≥ (_BIDGetJsonTimestampValue jwt "nbf".toList).2 - context.Skew) ∧
      ((_BIDGetJsonTimestampValue jwt "exp".toList).1 = BID_S_OK →
        verificationTime ≤ (_BIDGetJsonTimestampValue jwt "exp".toList).2 + context.Skew) ∧
      ((_BIDGetJsonTimestampValue jwt "exp".toList).1 ≠ BID_S_OK →
        (_BIDGetJsonTimestampValue jwt "iat".toList).1 = BID_S_OK ∧
          verificationTime ≤
            ((_BIDGetJsonTimestampValue jwt "iat".toList).2 + context.Skew) + context.Skew) ∧
      ¬ ((_BIDGetJsonTimestampValue jwt "exp".toList).1 ≠ BID_S_OK ∧
          (_BIDGetJsonTimestampValue jwt "iat".toList).1 ≠ BID_S_OK) := by
  have hz := timestamp_zero_of_fail jwt "iat".toList
  unfold _BIDValidateExpiry at hok
  generalize _BIDGetJsonTimestampValue jwt "iat".toList = iat at hok hz ⊢
  generalize _BIDGetJsonTimestampValue jwt "nbf".toList = nbf at hok ⊢
  generalize _BIDGetJsonTimestampValue jwt "exp".toList = exp at hok ⊢
  obtain ⟨ie, iv⟩ := iat
  obtain ⟨ne, nv⟩ := nbf
  obtain ⟨ee, ev⟩ := exp
  simp only [decide_eq_true_eq] at hok hz ⊢
  by_cases c1 : ie = BID_S_OK ∧ iv - verificationTime > (context.Skew : Int)
  · rw [if_pos c1] at hok
    exact absurd hok (by decide)
  rw [if_neg c1] at hok
  by_cases c2 : ne = BID_S_OK ∧ nv - verificationTime > (context.Skew : Int)
  · rw [if_pos c2] at hok
    exact absurd hok (by decide)
  rw [if_neg c2] at hok
  have b1 : ie = BID_S_OK → verificationTime ≥ iv - context.Skew := by
    intro h
    by_contra hn
    exact c1 ⟨h, by omega⟩
  have b2 : ne = BID_S_OK → verificationTime ≥ nv - context.Skew := by
    intro h
    by_contra hn
    exact c2 ⟨h, by omega⟩
  by_cases c3 : ee = BID_S_UNKNOWN_JSON_KEY ∧ iv ≠ 0
  · simp only [if_pos c3, ne_eq, not_true_eq_false, if_false] at hok
    have hie : ie = BID_S_OK := by
      by_contra hn
      exact c3.2 (hz hn)
    have hee : ee ≠ BID_S_OK := by
      rw [c3.1]
      decide
    by_cases c4 : verificationTime - (iv + (context.Skew : Int)) > (context.Skew : Int)
    · rw [if_pos c4] at hok
      exact absurd hok (by decide)
    refine ⟨b1, b2, fun h => absurd h hee, fun _ => ⟨hie, by omega⟩, fun h => h.2 hie⟩
  · simp only [if_neg c3] at hok
    by_cases c5 : ee = BID_S_OK
    · simp only [c5, ne_eq, not_true_eq_false, if_false] at hok
      by_cases c4 : verificationTime - ev > (context.Skew : Int)
      · rw [if_pos c4] at hok
        exact absurd hok (by decide)
      refine ⟨b1, b2, fun _ => by omega, fun h => absurd c5 h, fun h => h.1 c5⟩
    · have c5n : ee ≠ BID_S_OK := c5
      rw [if_pos c5n] at hok
      exact absurd hok c5

/-- Witness for C5: the sample assertion payload (`exp = 2000000000000`, no `iat`) is
accepted at `1999999999000` with skew 300, and the time lies below `exp + Skew`. -/
theorem C5_accept_implies_window_witness :
    _BIDValidateExpiry sampleContext 1999999999000 sampleAssertion.Payload = BID_S_OK ∧
      (1999999999000 : Int) ≤
        (_BIDGetJsonTimestampValue sampleAssertion.Payload "exp".toList).2 +
          sampleContext.Skew :=
  ⟨by decide,
    (C5_accept_implies_window sampleContext 1999999999000 sampleAssertion.Payload
      (by decide)).2.2.1 (by decide)⟩

/-- Counterexample for C6: a payload with `iat = 0` and no `exp`, checked at time 0 with
skew 300. `iat` is present and not ahead of the verification time, `nbf` is absent, and
`0 - (0 + 300) > 300` is false, so the claim promises success; the function returns
`BID_S_UNKNOWN_JSON_KEY`. -/
theorem C6_counterexample_iat_zero :
    (_BIDGetJsonTimestampValue (some (Json.object [("iat".toList, Json.integer 0)]))
        "iat".toList) = (BID_S_OK, 0) ∧
      (_BIDGetJsonTimestampValue (some (Json.object [("iat".toList, Json.integer 0)]))
        "exp".toList).1 = BID_S_UNKNOWN_JSON_KEY ∧
      (_BIDGetJsonTimestampValue (some (Json.object [("iat".toList, Json.integer 0)]))
        "nbf".toList).1 = BID_S_UNKNOWN_JSON_KEY ∧
      ¬ ((0 : Int) - (0 + sampleContext.Skew) > sampleContext.Skew) ∧
      _BIDValidateExpiry sampleContext 0
        (some (Json.object [("iat".toList, Json.integer 0)])) = BID_S_UNKNOWN_JSON_KEY ∧
      _BIDValidateExpiry sampleContext 0
        (some (Json.object [("iat".toList, Json.integer 0)])) ≠ BID_S_OK := by
  decide

/-- C6 (amended): for a payload whose `iat` is read successfully, whose `exp` is absent,
and whose `iat` and `nbf` (when present) are at most `Skew` ahead of the verification
time: when the `iat` value is not zero, `_BIDValidateExpiry` returns
`BID_S_EXPIRED_ASSERTION` iff `verificationTime - (iat + Skew) > Skew` and `BID_S_OK`
otherwise; when the `iat` value is zero it returns `BID_S_UNKNOWN_JSON_KEY`. -/
theorem C6_default_expiry_nonzero_iat (context : BIDContext) (verificationTime : Int)
    (jwt : Option Json)
    (hiat : (_BIDGetJsonTimestampValue jwt "iat".toList).1 = BID_S_OK)
    (hexp : (_BIDGetJsonTimestampValue jwt "exp".toList).1 = BID_S_UNKNOWN_JSON_KEY)
    (hiatle : (_BIDGetJsonTimestampValue jwt "iat".toList).2 - verificationTime
      ≤ (context.Skew : Int))
    (hnbf : (_BIDGetJsonTimestampValue jwt "nbf".toList).1 = BID_S_OK →
      (_BIDGetJsonTimestampValue jwt "nbf".toList).2 - verificationTime ≤ (context.Skew : Int)) :
    ((_BIDGetJsonTimestampValue jwt "iat".toList).2 ≠ 0 →
        (_BIDValidateExpiry context verificationTime jwt = BID_S_EXPIRED_ASSERTION ↔
          verificationTime - ((_BIDGetJsonTimestampValue jwt "iat".toList).2 + context.Skew)
            > (context.Skew : Int)) ∧
        (¬ (verificationTime - ((_BIDGetJsonTimestampValue jwt "iat".toList).2 + context.Skew)
            > (context.Skew : Int)) →
          _BIDValidateExpiry context verificationTime jwt = BID_S_OK)) ∧
      ((_BIDGetJsonTimestampValue jwt "iat".toList).2 = 0 →
        _BIDValidateExpiry context verificationTime jwt = BID_S_UNKNOWN_JSON_KEY) := by
  have _hpresent := hiat
  have h1 : ¬ ((_BIDGetJsonTimestampValue jwt "iat".toList).1 = BID_S_OK ∧
      (_BIDGetJsonTimestampValue jwt "iat".toList).2 - verificationTime >
        (context.Skew : Int)) := by
    rintro ⟨_, b⟩
    omega
  have h2 : ¬ ((_BIDGetJsonTimestampValue jwt "nbf".toList).1 = BID_S_OK ∧
      (_BIDGetJsonTimestampValue jwt "nbf".toList).2 - verificationTime >
        (context.Skew : Int)) := by
    rintro ⟨a, b⟩
    have := hnbf a
    omega
  constructor
  · intro hne
    have key : _BIDValidateExpiry context verificationTime jwt =
        if verificationTime -
            ((_BIDGetJsonTimestampValue jwt "iat".toList).2 + context.Skew) >
            (context.Skew : Int) then BID_S_EXPIRED_ASSERTION else BID_S_OK := by
      unfold _BIDValidateExpiry
      simp only [if_neg h1, if_neg h2, hexp, hne, ne_eq, not_false_eq_true, and_self,
        decide_True, if_true, not_true_eq_false, if_false]
    rw [key]
    constructor
    · constructor
      · intro h
        by_contra hn
        rw [if_neg hn] at h
        exact absurd h (by decide)
      · intro h
        rw [if_pos h]
    · intro h
      rw [if_neg h]
  · intro hz
    unfold _BIDValidateExpiry
    simp only [if_neg h1, if_neg h2]
    simp only [hexp, hz, ne_eq, not_true_eq_false, and_false,
      decide_False, Bool.false_eq_true, if_false, not_false_eq_true, if_true]
    rw [if_pos (by decide)]

/-- Witness for C6 (amended): `iat = 1000`, no `exp`, skew 300; time 1700 is rejected as
expired since `1700 - (1000 + 300) > 300`. -/
theorem C6_default_expiry_nonzero_iat_witness :
    (_BIDGetJsonTimestampValue (some (Json.object [("iat".toList, Json.integer 1000)]))
        "iat".toList) = (BID_S_OK, 1000) ∧
      _BIDValidateExpiry sampleContext 1700
        (some (Json.object [("iat".toList, Json.integer 1000)])) = BID_S_EXPIRED_ASSERTION :=
  ⟨by decide,
    ((C6_default_expiry_nonzero_iat sampleContext 1700
      (some (Json.object [("iat".toList, Json.integer 1000)]))
      (by decide) (by decide) (by decide) (by decide)).1 (by decide)).1.mpr (by decide)⟩

/-- On buffers of equal length `memcmp` over the whole length decides equality. -/
theorem memcmpEq_iff_eq (a b : List Octet) (h : a.length = b.length) :
    memcmpEq a b b.length = true ↔ a = b := by
  unfold memcmpEq
  rw [decide_eq_true_iff]
  conv_lhs => rw [← h, List.take_length, h, List.take_length]

/-- With a null claims pointer the audience block reports a missing audience. -/
theorem audienceCompare_null (szAudience : CStr) :
    audienceCompare none (some szAudience) = BID_S_MISSING_AUDIENCE := by
  simp [audienceCompare, json_object_get, json_string_value]

/-- The audience block for a non-null expected audience, by the shape of `aud`. -/
theorem audienceCompare_some (claims : Option Json) (szAudience : CStr) :
    (∀ a, json_string_value (json_object_get claims "aud".toList) = some a →
        a ≠ szAudience → audienceCompare claims (some szAudience) = BID_S_BAD_AUDIENCE) ∧
      (json_string_value (json_object_get claims "aud".toList) = none →
        audienceCompare claims (some szAudience) = BID_S_MISSING_AUDIENCE) ∧
      (json_string_value (json_object_get claims "aud".toList) = some szAudience ↔
        audienceCompare claims (some szAudience) = BID_S_OK) := by
  unfold audienceCompare
  cases ha : json_string_value (json_object_get claims "aud".toList) with
  | none =>
    refine ⟨fun a h => absurd h (by simp), fun _ => rfl, ?_⟩
    constructor
    · intro h
      exact absurd h (by simp)
    · intro h
      simp at h
  | some spn =>
    by_cases heq : szAudience = spn
    · subst heq
      refine ⟨fun a h hne => absurd (Option.some.inj h).symm hne, fun h => absurd h (by simp), ?_⟩
      simp
    · refine ⟨fun a _ _ => ?_, fun h => absurd h (by simp), ?_⟩
      · simp only [ne_eq, heq, not_false_eq_true, if_true]
      · constructor
        · intro h
          exact absurd (Option.some.inj h).symm heq
        · intro h
          simp only [ne_eq, heq, not_false_eq_true, if_true] at h
          exact absurd h (by decide)

/-- C3: for a non-null expected audience, `_BIDValidateAudience` returns
`BID_S_BAD_AUDIENCE` when `aud` is a string different from the expected audience,
`BID_S_MISSING_AUDIENCE` when `aud` is absent or not a string; the audience block lets
control through (status `BID_S_OK`, the result then being that of the channel-binding
block) exactly when the two strings are equal, and `BID_S_OK` is returned only then. -/
theorem C3_audience_comparison (env : Env) (backedAssertion : BIDBackedAssertion)
    (szAudience : CStr) (channelBindings : Option (List Octet)) :
    (∀ a, json_string_value (json_object_get backedAssertion.Assertion.Payload "aud".toList)
          = some a → a ≠ szAudience →
        _BIDValidateAudience env backedAssertion (some szAudience) channelBindings
          = BID_S_BAD_AUDIENCE) ∧
      (json_string_value (json_object_get backedAssertion.Assertion.Payload "aud".toList)
          = none →
        _BIDValidateAudience env backedAssertion (some szAudience) channelBindings
          = BID_S_MISSING_AUDIENCE) ∧
      (audienceCompare backedAssertion.Assertion.Payload (some szAudience) = BID_S_OK ↔
        json_string_value (json_object_get backedAssertion.Assertion.Payload "aud".toList)
          = some szAudience) ∧
      (json_string_value (json_object_get backedAssertion.Assertion.Payload "aud".toList)
          = some szAudience →
        _BIDValidateAudience env backedAssertion (some szAudience) channelBindings
          = channelBindingsCompare env backedAssertion.Assertion.Payload channelBindings) ∧
      (_BIDValidateAudience env backedAssertion (some szAudience) channelBindings = BID_S_OK →
        json_string_value (json_object_get backedAssertion.Assertion.Payload "aud".toList)
          = some szAudience) := by
  obtain ⟨hbad, hmiss, hok⟩ :=
    audienceCompare_some backedAssertion.Assertion.Payload szAudience
  unfold _BIDValidateAudience
  cases hp : backedAssertion.Assertion.Payload with
  | none =>
    rw [hp] at hbad hmiss hok
    refine ⟨?_, fun _ => rfl, hok.symm, ?_, ?_⟩
    · intro a ha
      simp [json_object_get, json_string_value] at ha
    · intro h
      simp [json_object_get, json_string_value] at h
    · intro h
      simp at h
  | some claims =>
    rw [hp] at hbad hmiss hok
    refine ⟨?_, ?_, hok.symm, ?_, ?_⟩
    · intro a ha hne
      simp only [hbad a ha hne]
      rw [if_pos (by decide)]
    · intro ha
      simp only [hmiss ha]
      rw [if_pos (by decide)]
    · intro ha
      simp only [hok.mp ha, ne_eq, not_true_eq_false, if_false]
    · intro h
      simp only at h
      by_cases hc : audienceCompare (some claims) (some szAudience) = BID_S_OK
      · exact hok.mpr hc
      · have hc2 : audienceCompare (some claims) (some szAudience) ≠ BID_S_OK := hc
        rw [if_pos hc2] at h
        exact absurd h hc

/-- Witness for C3: scenario S4, the sample assertion checked against the audience
https://evil.example.com gives `BID_S_BAD_AUDIENCE`. -/
theorem C3_audience_comparison_witness :
    _BIDValidateAudience sampleEnv sampleBacked (some "https://evil.example.com".toList) none
      = BID_S_BAD_AUDIENCE :=
  (C3_audience_comparison sampleEnv sampleBacked "https://evil.example.com".toList none).1
    "https://rp.example.com".toList (by decide) (by decide)

/-- The channel-binding block when bindings are supplied, by the shape of `cbt`. -/
theorem channelBindingsCompare_some (env : Env) (claims : Option Json) (cb : List Octet) :
    (json_string_value (json_object_get claims "cbt".toList) = none →
        channelBindingsCompare env claims (some cb) = BID_S_MISSING_CHANNEL_BINDINGS) ∧
      (∀ s, json_string_value (json_object_get claims "cbt".toList) = some s →
        (env._BIDBase64UrlDecode s).1 = BID_S_OK → (env._BIDBase64UrlDecode s).2 ≠ cb →
        channelBindingsCompare env claims (some cb) = BID_S_CHANNEL_BINDINGS_MISMATCH) ∧
      (channelBindingsCompare env claims (some cb) = BID_S_OK ↔
        ∃ s, json_string_value (json_object_get claims "cbt".toList) = some s ∧
          (env._BIDBase64UrlDecode s).1 = BID_S_OK ∧ (env._BIDBase64UrlDecode s).2 = cb) := by
  unfold channelBindingsCompare _BIDGetJsonBinaryValue
  cases hc : json_string_value (json_object_get claims "cbt".toList) with
  | none =>
    refine ⟨fun _ => ?_, fun s h => absurd h (by simp), ?_⟩
    · simp
    · simp
  | some src =>
    simp only [Option.some.injEq, forall_eq', exists_eq_left']
    obtain ⟨e, bytes, hr⟩ : ∃ e bytes, env._BIDBase64UrlDecode src = (e, bytes) :=
      ⟨_, _, rfl⟩
    simp only [hr]
    refine ⟨fun h => absurd h (by simp), ?_, ?_⟩
    · intro he hne
      subst he
      simp only [ne_eq, if_neg (show ¬ BID_S_OK = BID_S_UNKNOWN_JSON_KEY by decide),
        not_true_eq_false, if_false]
      by_cases hl : cb.length = bytes.length
      · have hm : memcmpEq cb bytes bytes.length = false := by
          cases hmm : memcmpEq cb bytes bytes.length with
          | false => rfl
          | true => exact absurd ((memcmpEq_iff_eq cb bytes hl).mp hmm).symm hne
        rw [if_pos (Or.inr hm)]
      · rw [if_pos (Or.inl hl)]
    · constructor
      · intro h
        by_cases hk : e = BID_S_UNKNOWN_JSON_KEY
        · simp [hk] at h
        · simp only [if_neg hk] at h
          by_cases he : e = BID_S_OK
          · subst he
            simp only [ne_eq, not_true_eq_false, if_false] at h
            by_cases hcond : cb.length ≠ bytes.length ∨ memcmpEq cb bytes bytes.length = false
            · rw [if_pos hcond] at h
              exact absurd h (by decide)
            · rw [not_or] at hcond
              have hl : cb.length = bytes.length := not_not.mp hcond.1
              have hm : memcmpEq cb bytes bytes.length = true := by
                cases hmm : memcmpEq cb bytes bytes.length with
                | false => exact absurd hmm hcond.2
                | true => rfl
              exact ⟨rfl, ((memcmpEq_iff_eq cb bytes hl).mp hm).symm⟩
          · have he2 : e ≠ BID_S_OK := he
            rw [if_pos he2] at h
            exact absurd h he
      · rintro ⟨he, hb⟩
        subst he
        subst hb
        simp only [ne_eq, if_neg (show ¬ BID_S_OK = BID_S_UNKNOWN_JSON_KEY by decide),
          not_true_eq_false, if_false]
        have hm : memcmpEq bytes bytes bytes.length = true :=
          (memcmpEq_iff_eq bytes bytes rfl).mpr rfl
        simp [hm]

/-- C4: for a backed assertion with a payload that passes the audience block and supplied
channel bindings `cb`, `_BIDValidateAudience` returns `BID_S_MISSING_CHANNEL_BINDINGS`
when the payload has no string `cbt`, `BID_S_CHANNEL_BINDINGS_MISMATCH` when `cbt` decodes
to bytes other than `cb`, and `BID_S_OK` exactly when `cbt` decodes to `cb`; with no
bindings supplied the result is `BID_S_OK` whatever `cbt` holds. -/
theorem C4_channel_bindings (env : Env) (backedAssertion : BIDBackedAssertion)
    (szAudience : Option CStr) (cb : List Octet)
    (hpayload : backedAssertion.Assertion.Payload.isSome = true)
    (hpass : audienceCompare backedAssertion.Assertion.Payload szAudience = BID_S_OK) :
    (json_string_value (json_object_get backedAssertion.Assertion.Payload "cbt".toList)
          = none →
        _BIDValidateAudience env backedAssertion szAudience (some cb)
          = BID_S_MISSING_CHANNEL_BINDINGS) ∧
      (∀ s, json_string_value (json_object_get backedAssertion.Assertion.Payload "cbt".toList)
          = some s →
        (env._BIDBase64UrlDecode s).1 = BID_S_OK → (env._BIDBase64UrlDecode s).2 ≠ cb →
        _BIDValidateAudience env backedAssertion szAudience (some cb)
          = BID_S_CHANNEL_BINDINGS_MISMATCH) ∧
      (_BIDValidateAudience env backedAssertion szAudience (some cb) = BID_S_OK ↔
        ∃ s, json_string_value
            (json_object_get backedAssertion.Assertion.Payload "cbt".toList) = some s ∧
          (env._BIDBase64UrlDecode s).1 = BID_S_OK ∧ (env._BIDBase64UrlDecode s).2 = cb) ∧
      _BIDValidateAudience env backedAssertion szAudience none = BID_S_OK := by
  have key : ∀ bindings, _BIDValidateAudience env backedAssertion szAudience bindings =
      channelBindingsCompare env backedAssertion.Assertion.Payload bindings := by
    intro bindings
    unfold _BIDValidateAudience
    cases hp : backedAssertion.Assertion.Payload with
    | none => simp [hp] at hpayload
    | some claims =>
      rw [hp] at hpass
      simp only [hpass, ne_eq, not_true_eq_false, if_false]
  rw [key, key]
  obtain ⟨h1, h2, h3⟩ :=
    channelBindingsCompare_some env backedAssertion.Assertion.Payload cb
  exact ⟨h1, h2, h3, rfl⟩

/-- Witness for C4: the sample assertion (`cbt` decoding to bytes 1, 2) against its own
audience passes with bindings 1, 2 and is a mismatch with bindings 1, 3. -/
theorem C4_channel_bindings_witness :
    audienceCompare sampleBacked.Assertion.Payload (some "https://rp.example.com".toList)
        = BID_S_OK ∧
      _BIDValidateAudience sampleEnv sampleBacked (some "https://rp.example.com".toList)
        (some [1, 3]) = BID_S_CHANNEL_BINDINGS_MISMATCH :=
  ⟨by decide,
    (C4_channel_bindings sampleEnv sampleBacked (some "https://rp.example.com".toList) [1, 3]
      (by decide) (by decide)).2.1 "AQI".toList (by decide) (by decide) (by decide)⟩

/-- C `strchr` finds nothing exactly when the character does not occur. -/
theorem strchr_none_of_not_mem (s : CStr) (c : Char) (h : c ∉ s) : strchr s c = none := by
  induction s with
  | nil => rfl
  | cons x xs ih =>
    rw [List.mem_cons, not_or] at h
    have hx : ¬ x = c := fun e => h.1 e.symm
    simp only [strchr, if_neg hx]
    exact ih h.2

/-- C `strchr` returns the suffix at the first occurrence. -/
theorem strchr_append (l d : CStr) (c : Char) (h : c ∉ l) :
    strchr (l ++ c :: d) c = some (c :: d) := by
  induction l with
  | nil => simp [strchr]
  | cons x xs ih =>
    rw [List.mem_cons, not_or] at h
    have hx : ¬ x = c := fun e => h.1 e.symm
    simp only [List.cons_append, strchr, if_neg hx]
    exact ih h.2

/-- C10: `_BIDValidateCertIssuer` fails with `BID_S_MISSING_CERT` without certificates,
then for the leaf certificate with `BID_S_MISSING_PRINCIPAL` (no `principal`),
`BID_S_UNKNOWN_PRINCIPAL_TYPE` (no string `email`), `BID_S_INVALID_ISSUER` (no `@` in the
email), `BID_S_MISSING_ISSUER` (no string `iss`), in this precedence and whatever the
environment; otherwise it returns `_BIDIssuerIsAuthoritative(D, I)` for the text `D`
after the first `@` of the email and the leaf's `iss` `I`. -/
theorem C10_cert_issuer (env : Env) (backedAssertion : BIDBackedAssertion) :
    (backedAssertion.rCertificates = [] →
        _BIDValidateCertIssuer env backedAssertion = BID_S_MISSING_CERT) ∧
      (∀ leaf, backedAssertion.rCertificates.getLast? = some leaf →
        (json_object_get leaf.Payload "principal".toList = none →
          _BIDValidateCertIssuer env backedAssertion = BID_S_MISSING_PRINCIPAL) ∧
        (∀ principal, json_object_get leaf.Payload "principal".toList = some principal →
          (json_string_value (json_object_get (some principal) "email".toList) = none →
            _BIDValidateCertIssuer env backedAssertion = BID_S_UNKNOWN_PRINCIPAL_TYPE) ∧
          (∀ email, json_string_value (json_object_get (some principal) "email".toList)
              = some email →
            ('@' ∉ email →
              _BIDValidateCertIssuer env backedAssertion = BID_S_INVALID_ISSUER) ∧
            (∀ localPart D, email = localPart ++ '@' :: D → '@' ∉ localPart →
              (json_string_value (json_object_get leaf.Payload "iss".toList) = none →
                _BIDValidateCertIssuer env backedAssertion = BID_S_MISSING_ISSUER) ∧
              (∀ I, json_string_value (json_object_get leaf.Payload "iss".toList) = some I →
                _BIDValidateCertIssuer env backedAssertion
                  = env._BIDIssuerIsAuthoritative D I))))) := by
  constructor
  · intro h
    simp [_BIDValidateCertIssuer, BIDBackedAssertion.cCertificates, h]
  · intro leaf hleaf
    have hne : ¬ backedAssertion.cCertificates = 0 := by
      unfold BIDBackedAssertion.cCertificates
      intro h0
      rw [List.length_eq_zero] at h0
      rw [h0] at hleaf
      simp at hleaf
    have hl : _BIDLeafCert backedAssertion = leaf.Payload := by
      simp [_BIDLeafCert, hleaf]
    unfold _BIDValidateCertIssuer
    simp only [if_neg hne, hl]
    constructor
    · intro hp
      simp only [hp]
    · intro principal hp
      simp only [hp]
      constructor
      · intro he
        simp only [he]
      · intro email he
        simp only [he]
        constructor
        · intro hat
          simp only [strchr_none_of_not_mem email '@' hat]
        · intro localPart D hsplit hloc
          subst hsplit
          simp only [strchr_append localPart D '@' hloc, List.tail_cons]
          constructor
          · intro hi
            simp only [hi]
          · intro I hi
            simp only [hi]

/-- Witness for C10: the sample leaf certificate (alice@example.org, `iss` example.org)
gives the resolver's answer for domain example.org and issuer example.org. -/
theorem C10_cert_issuer_witness :
    sampleBacked.rCertificates.getLast? = some sampleCert ∧
      _BIDValidateCertIssuer sampleEnv sampleBacked =
        sampleEnv._BIDIssuerIsAuthoritative "example.org".toList "example.org".toList :=
  ⟨rfl,
    ((((C10_cert_issuer sampleEnv sampleBacked).2 sampleCert rfl).2
      (Json.object [("email".toList, Json.string "alice@example.org".toList)]) rfl).2
      "alice@example.org".toList rfl).2 "alice".toList "example.org".toList rfl (by decide)
      |>.2 "example.org".toList rfl⟩

/-- Moving one certificate down the chain shifts the key index by one. -/
theorem chainKey_succ (k : BIDJWK) (c : BIDJWT) (cs : List BIDJWT) (i : Nat) :
    chainKey k (c :: cs) (i + 1) = chainKey c.Payload cs i := by
  cases i with
  | zero => simp [chainKey]
  | succ j => simp [chainKey]

/-- One pass of the chain loop. -/
theorem certChainLoop_cons (env : Env) (context : BIDContext) (t : Int) (c : BIDJWT)
    (cs : List BIDJWT) (k : BIDJWK) :
    certChainLoop env context t (c :: cs) k =
      if _BIDValidateExpiry context t c.Payload ≠ BID_S_OK then
        _BIDValidateExpiry context t c.Payload
      else if env._BIDVerifySignature c k ≠ BID_S_OK then env._BIDVerifySignature c k
      else certChainLoop env context t cs c.Payload := by
  simp only [certChainLoop]

/-- The chain loop succeeds exactly when every certificate passes the expiry policy and
verifies under its key. -/
theorem certChainLoop_ok_iff (env : Env) (context : BIDContext) (t : Int)
    (certs : List BIDJWT) (k : BIDJWK) :
    certChainLoop env context t certs k = BID_S_OK ↔
      ∀ i c, certs[i]? = some c →
        _BIDValidateExpiry context t c.Payload = BID_S_OK ∧
          env._BIDVerifySignature c (chainKey k certs i) = BID_S_OK := by
  induction certs generalizing k with
  | nil =>
    constructor
    · intro _ i c h
      simp at h
    · intro _
      rfl
  | cons c cs ih =>
    rw [certChainLoop_cons]
    constructor
    · intro h i d hd
      by_cases he : _BIDValidateExpiry context t c.Payload ≠ BID_S_OK
      · rw [if_pos he] at h
        exact absurd h he
      rw [if_neg he] at h
      by_cases hs : env._BIDVerifySignature c k ≠ BID_S_OK
      · rw [if_pos hs] at h
        exact absurd h hs
      rw [if_neg hs] at h
      cases i with
      | zero =>
        simp only [List.getElem?_cons_zero, Option.some.injEq] at hd
        subst hd
        simp only [chainKey]
        exact ⟨not_not.mp he, not_not.mp hs⟩
      | succ j =>
        simp only [List.getElem?_cons_succ] at hd
        rw [chainKey_succ]
        exact (ih c.Payload).mp h j d hd
    · intro h
      have h0 := h 0 c (by simp)
      simp only [chainKey] at h0
      rw [if_neg (not_not.mpr h0.1), if_neg (not_not.mpr h0.2)]
      apply (ih c.Payload).mpr
      intro i d hd
      have := h (i + 1) d (by simpa using hd)
      rw [chainKey_succ] at this
      exact this

/-- The chain loop returns the status of the first check that fails, expiry of a
certificate being checked before its signature. -/
theorem certChainLoop_first_failure (env : Env) (context : BIDContext) (t : Int)
    (certs : List BIDJWT) (k : BIDJWK) (i : Nat) (c : BIDJWT)
    (hc : certs[i]? = some c)
    (hbefore : ∀ j d, j < i → certs[j]? = some d →
      _BIDValidateExpiry context t d.Payload = BID_S_OK ∧
        env._BIDVerifySignature d (chainKey k certs j) = BID_S_OK) :
    (_BIDValidateExpiry context t c.Payload ≠ BID_S_OK →
        certChainLoop env context t certs k = _BIDValidateExpiry context t c.Payload) ∧
      (_BIDValidateExpiry context t c.Payload = BID_S_OK →
        env._BIDVerifySignature c (chainKey k certs i) ≠ BID_S_OK →
        certChainLoop env context t certs k
          = env._BIDVerifySignature c (chainKey k certs i)) := by
  induction certs generalizing k i with
  | nil => simp at hc
  | cons x xs ih =>
    rw [certChainLoop_cons]
    cases i with
    | zero =>
      simp only [List.getElem?_cons_zero, Option.some.injEq] at hc
      subst hc
      constructor
      · intro he
        rw [if_pos he]
      · intro he hs
        rw [if_neg (not_not.mpr he)]
        simp only [chainKey] at hs ⊢
        rw [if_pos hs]
    | succ j =>
      simp only [List.getElem?_cons_succ] at hc
      have h0 := hbefore 0 x (Nat.succ_pos j) (by simp)
      simp only [chainKey] at h0
      rw [if_neg (not_not.mpr h0.1), if_neg (not_not.mpr h0.2), chainKey_succ]
      apply ih x.Payload j hc
      intro m d hm hd
      have := hbefore (m + 1) d (Nat.succ_lt_succ hm) (by simpa using hd)
      rw [chainKey_succ] at this
      exact this

/-- The rewriting at `cleanup` keeps success and failure apart. -/
theorem certChainCleanup_eq_ok (e : BIDError) :
    certChainCleanup e = BID_S_OK ↔ e = BID_S_OK := by
  cases e <;> simp [certChainCleanup]

/-- C9: for a backed assertion with at least one certificate, `_BIDValidateCertChain`
succeeds iff the root certificate has a string `iss`, the authority and its public key are
obtained, and every certificate `i` passes the expiry policy and verifies under
`chainKey i` (the authority key for the root, the previous payload otherwise). On failure
the status is that of the first failing step in the order: issuer, authority, public key,
then for each certificate expiry before signature; it is passed through the `cleanup`
rewriting, which turns `BID_S_EXPIRED_ASSERTION` into `BID_S_EXPIRED_CERT`,
`BID_S_ASSERTION_NOT_YET_VALID` into `BID_S_CERT_NOT_YET_VALID` and keeps every other
status. -/
theorem C9_cert_chain (env : Env) (context : BIDContext)
    (backedAssertion : BIDBackedAssertion) (verificationTime : Int)
    (hn : 1 ≤ backedAssertion.cCertificates) :
    (_BIDValidateCertChain env context backedAssertion verificationTime = BID_S_OK ↔
        ∃ I, json_string_value (json_object_get (_BIDRootCert backedAssertion) "iss".toList)
            = some I ∧
          (env._BIDAcquireAuthority I).1 = BID_S_OK ∧
          (env._BIDGetAuthorityPublicKey (env._BIDAcquireAuthority I).2).1 = BID_S_OK ∧
          ∀ i c, backedAssertion.rCertificates[i]? = some c →
            _BIDValidateExpiry context verificationTime c.Payload = BID_S_OK ∧
              env._BIDVerifySignature c
                (chainKey (env._BIDGetAuthorityPublicKey (env._BIDAcquireAuthority I).2).2
                  backedAssertion.rCertificates i) = BID_S_OK) ∧
      (json_string_value (json_object_get (_BIDRootCert backedAssertion) "iss".toList) = none →
        _BIDValidateCertChain env context backedAssertion verificationTime
          = BID_S_MISSING_ISSUER) ∧
      (∀ I, json_string_value (json_object_get (_BIDRootCert backedAssertion) "iss".toList)
          = some I →
        ((env._BIDAcquireAuthority I).1 ≠ BID_S_OK →
          _BIDValidateCertChain env context backedAssertion verificationTime
            = certChainCleanup (env._BIDAcquireAuthority I).1) ∧
        ((env._BIDAcquireAuthority I).1 = BID_S_OK →
          (env._BIDGetAuthorityPublicKey (env._BIDAcquireAuthority I).2).1 ≠ BID_S_OK →
          _BIDValidateCertChain env context backedAssertion verificationTime
            = certChainCleanup
                (env._BIDGetAuthorityPublicKey (env._BIDAcquireAuthority I).2).1) ∧
        ((env._BIDAcquireAuthority I).1 = BID_S_OK →
          (env._BIDGetAuthorityPublicKey (env._BIDAcquireAuthority I).2).1 = BID_S_OK →
          ∀ i c, backedAssertion.rCertificates[i]? = some c →
            (∀ j d, j < i → backedAssertion.rCertificates[j]? = some d →
              _BIDValidateExpiry context verificationTime d.Payload = BID_S_OK ∧
                env._BIDVerifySignature d
                  (chainKey (env._BIDGetAuthorityPublicKey (env._BIDAcquireAuthority I).2).2
                    backedAssertion.rCertificates j) = BID_S_OK) →
            (_BIDValidateExpiry context verificationTime c.Payload ≠ BID_S_OK →
              _BIDValidateCertChain env context backedAssertion verificationTime
                = certChainCleanup (_BIDValidateExpiry context verificationTime c.Payload)) ∧
            (_BIDValidateExpiry context verificationTime c.Payload = BID_S_OK →
              env._BIDVerifySignature c
                (chainKey (env._BIDGetAuthorityPublicKey (env._BIDAcquireAuthority I).2).2
                  backedAssertion.rCertificates i) ≠ BID_S_OK →
              _BIDValidateCertChain env context backedAssertion verificationTime
                = certChainCleanup (env._BIDVerifySignature c
                  (chainKey (env._BIDGetAuthorityPublicKey (env._BIDAcquireAuthority I).2).2
                    backedAssertion.rCertificates i))))) ∧
      (certChainCleanup BID_S_EXPIRED_ASSERTION = BID_S_EXPIRED_CERT ∧
        certChainCleanup BID_S_ASSERTION_NOT_YET_VALID = BID_S_CERT_NOT_YET_VALID ∧
        ∀ e, e ≠ BID_S_EXPIRED_ASSERTION → e ≠ BID_S_ASSERTION_NOT_YET_VALID →
          certChainCleanup e = e) := by
  have hc : ¬ backedAssertion.cCertificates = 0 := by omega
  unfold _BIDValidateCertChain
  simp only [if_neg hc]
  refine ⟨?_, ?_, ?_, rfl, rfl, ?_⟩
  · rw [certChainCleanup_eq_ok]
    cases hiss : json_string_value
        (json_object_get (_BIDRootCert backedAssertion) "iss".toList) with
    | none => simp
    | some I =>
      simp only [Option.some.injEq, exists_eq_left']
      by_cases ha : (env._BIDAcquireAuthority I).1 ≠ BID_S_OK
      · rw [if_pos ha]
        exact ⟨fun h => absurd h ha, fun h => absurd h.1 ha⟩
      rw [if_neg ha]
      by_cases hk :
          (env._BIDGetAuthorityPublicKey (env._BIDAcquireAuthority I).2).1 ≠ BID_S_OK
      · rw [if_pos hk]
        exact ⟨fun h => absurd h hk, fun h => absurd h.2.1 hk⟩
      rw [if_neg hk, certChainLoop_ok_iff]
      exact ⟨fun h => ⟨not_not.mp ha, not_not.mp hk, h⟩, fun h => h.2.2⟩
  · intro hiss
    simp only [hiss]
    rfl
  · intro I hiss
    simp only [hiss]
    refine ⟨?_, ?_, ?_⟩
    · intro ha
      rw [if_pos ha]
    · intro ha hk
      rw [if_neg (not_not.mpr ha), if_pos hk]
    · intro ha hk i c hci hbefore
      rw [if_neg (not_not.mpr ha), if_neg (not_not.mpr hk)]
      obtain ⟨h1, h2⟩ := certChainLoop_first_failure env context verificationTime
        backedAssertion.rCertificates
        (env._BIDGetAuthorityPublicKey (env._BIDAcquireAuthority I).2).2 i c hci hbefore
      constructor
      · intro he
        rw [h1 he]
      · intro he hs
        rw [h2 he hs]
  · intro e h1 h2
    cases e <;> first | rfl | exact absurd rfl h1 | exact absurd rfl h2

/-- Witness for C9: the sample chain (one certificate issued by example.org) checked
301000 past the certificate's `exp` with skew 300 fails at the expiry of certificate 0,
and the status is the rewritten `BID_S_EXPIRED_CERT`. -/
theorem C9_cert_chain_witness :
    1 ≤ sampleBacked.cCertificates ∧
      _BIDValidateCertChain sampleEnv sampleContext sampleBacked 2000000301000
        = BID_S_EXPIRED_CERT :=
  ⟨by decide,
    ((((C9_cert_chain sampleEnv sampleContext sampleBacked 2000000301000 (by decide)).2.2.1
      "example.org".toList rfl).2.2 (by decide) (by decide) 0 sampleCert rfl
      (fun j _ hj => absurd hj (Nat.not_lt_zero j))).1 (by decide)).trans (by decide)⟩

/-- A string without the separator is a single piece. -/
theorem cstrSplit_of_not_mem (c : Char) (s : CStr) (h : c ∉ s) : cstrSplit c s = [s] := by
  induction s with
  | nil => rfl
  | cons x xs ih =>
    rw [List.mem_cons, not_or] at h
    have hx : ¬ x = c := fun e => h.1 e.symm
    simp only [cstrSplit, if_neg hx, ih h.2]

/-- Splitting after a separator-free prefix. -/
theorem cstrSplit_append (c : Char) (s rest : CStr) (h : c ∉ s) :
    cstrSplit c (s ++ c :: rest) = s :: cstrSplit c rest := by
  induction s with
  | nil => simp [cstrSplit]
  | cons x xs ih =>
    rw [List.mem_cons, not_or] at h
    have hx : ¬ x = c := fun e => h.1 e.symm
    rw [List.cons_append, cstrSplit, if_neg hx, ih h.2]

/-- When `strchr` finds no separator, the string is the only piece: the pass with
`q == NULL`. -/
theorem cstrSplit_of_strchr_none (c : Char) (p : CStr) (h : strchr p c = none) :
    cstrSplit c p = [p] := by
  induction p with
  | nil => rfl
  | cons x xs ih =>
    by_cases hx : x = c
    · simp [strchr, hx] at h
    · simp only [strchr, if_neg hx] at h
      simp only [cstrSplit, if_neg hx, ih h]

/-- When `strchr` returns `q`, the first piece is the text of `p` before `q` and the
remaining pieces are those of the text after the separator (`q + 1`): the pass with
`q != NULL`. -/
theorem cstrSplit_of_strchr_some (c : Char) (p q : CStr) (h : strchr p c = some q) :
    ∃ before, p = before ++ q ∧ c ∉ before ∧ q.head? = some c ∧
      cstrSplit c p = before :: cstrSplit c q.tail := by
  induction p with
  | nil => simp [strchr] at h
  | cons x xs ih =>
    by_cases hx : x = c
    · simp only [strchr, if_pos hx, Option.some.injEq] at h
      subst h
      refine ⟨[], rfl, by simp, by simp [hx], ?_⟩
      simp only [cstrSplit, if_pos hx, List.tail_cons]
    · simp only [strchr, if_neg hx] at h
      obtain ⟨before, h1, h2, h3, h4⟩ := ih h
      refine ⟨x :: before, by rw [h1]; rfl, ?_, h3, ?_⟩
      · rw [List.mem_cons, not_or]
        exact ⟨fun e => hx e.symm, h2⟩
      · simp only [cstrSplit, if_neg hx, h4]

/-- Splitting the joined segments gives the segments back. -/
theorem cstrSplit_joinTilde (segs : List CStr) (hne : segs ≠ [])
    (h : ∀ s ∈ segs, '~' ∉ s) : cstrSplit '~' (joinTilde segs) = segs := by
  induction segs with
  | nil => exact absurd rfl hne
  | cons s t ih =>
    cases t with
    | nil =>
      simp only [joinTilde]
      exact cstrSplit_of_not_mem '~' s (h s (by simp))
    | cons u rest =>
      simp only [joinTilde]
      rw [cstrSplit_append '~' s _ (h s (by simp)), ih (by simp)]
      intro x hx
      exact h x (List.mem_cons_of_mem s hx)

/-- The unpack loop on certificate segments followed by a last segment, all of which
parse: the certificates are appended in order and the last segment becomes the
assertion. -/
theorem unpackLoop_all_parse (env : Env) (certSegs : List CStr) (last : CStr)
    (st : UnpackState)
    (hparse : ∀ s ∈ certSegs ++ [last], (env._BIDParseJWT s).1 = BID_S_OK)
    (hmax : st.rCertificates.length + certSegs.length ≤ env.BID_MAX_CERTS) :
    unpackLoop env (certSegs ++ [last]) st =
      Except.ok ⟨some (env._BIDParseJWT last).2,
        st.rCertificates ++ certSegs.map (fun s => (env._BIDParseJWT s).2)⟩ := by
  induction certSegs generalizing st with
  | nil =>
    have hl := hparse last (by simp)
    simp only [List.nil_append, unpackLoop, ne_eq, hl, not_true_eq_false, if_false,
      List.map_nil, List.append_nil]
  | cons c cs ih =>
    have hc := hparse c (by simp)
    have hlt : ¬ st.rCertificates.length ≥ env.BID_MAX_CERTS := by
      simp only [List.length_cons] at hmax
      omega
    have hstep : unpackLoop env ((c :: cs) ++ [last]) st =
        unpackLoop env (cs ++ [last])
          { st with rCertificates := st.rCertificates ++ [(env._BIDParseJWT c).2] } := by
      cases cs with
      | nil =>
        simp only [List.cons_append, List.nil_append]
        conv_lhs => rw [unpackLoop]
        simp only [if_neg hlt, ne_eq, hc, not_true_eq_false, if_false]
      | cons d ds =>
        simp only [List.cons_append]
        conv_lhs => rw [unpackLoop]
        simp only [if_neg hlt, ne_eq, hc, not_true_eq_false, if_false]
    rw [hstep, ih]
    · simp
    · intro s hs
      exact hparse s (by simp only [List.cons_append, List.mem_cons]; exact Or.inr hs)
    · simp only [List.length_append, List.length_cons, List.length_nil] at hmax ⊢
      omega

/-- A successful unpack always carries at least one certificate. -/
theorem unpack_ok_has_cert (env : Env) (encodedJson : Option CStr)
    (backedAssertion : BIDBackedAssertion)
    (h : _BIDUnpackBackedAssertion env encodedJson = Except.ok backedAssertion) :
    backedAssertion.cCertificates ≠ 0 := by
  unfold _BIDUnpackBackedAssertion at h
  cases encodedJson with
  | none => simp at h
  | some tmp =>
    simp only at h
    cases hl : unpackLoop env (cstrSplit '~' tmp) ⟨none, []⟩ with
    | error e => simp [hl] at h
    | ok st =>
      simp only [hl] at h
      cases ha : st.Assertion with
      | none => simp [ha] at h
      | some a =>
        simp only [ha] at h
        by_cases hz : st.rCertificates.length = 0
        · simp [hz] at h
        · simp only [if_neg hz, Except.ok.injEq] at h
          subst h
          exact hz

/-- When the unpack loop succeeds on certificate segments followed by a last segment,
every segment was accepted by the parser and the certificates are their parses, appended
in order. -/
theorem unpackLoop_ok_shape (env : Env) (certSegs : List CStr) (last : CStr)
    (st st' : UnpackState)
    (h : unpackLoop env (certSegs ++ [last]) st = Except.ok st') :
    st'.rCertificates = st.rCertificates ++ certSegs.map (fun s => (env._BIDParseJWT s).2) ∧
      ∀ s ∈ certSegs ++ [last], (env._BIDParseJWT s).1 = BID_S_OK := by
  induction certSegs generalizing st with
  | nil =>
    simp only [List.nil_append, unpackLoop] at h
    by_cases hl : (env._BIDParseJWT last).1 ≠ BID_S_OK
    · rw [if_pos hl] at h
      simp at h
    · rw [if_neg hl, Except.ok.injEq] at h
      subst h
      simp only [List.map_nil, List.append_nil, List.nil_append, List.mem_singleton,
        forall_eq, true_and]
      exact not_not.mp hl
  | cons c cs ih =>
    have hstep : unpackLoop env ((c :: cs) ++ [last]) st =
        if st.rCertificates.length ≥ env.BID_MAX_CERTS then Except.error BID_S_TOO_MANY_CERTS
        else if (env._BIDParseJWT c).1 ≠ BID_S_OK then Except.error (env._BIDParseJWT c).1
        else unpackLoop env (cs ++ [last])
          { st with rCertificates := st.rCertificates ++ [(env._BIDParseJWT c).2] } := by
      cases cs with
      | nil =>
        simp only [List.cons_append, List.nil_append]
        conv_lhs => rw [unpackLoop]
      | cons d ds =>
        simp only [List.cons_append]
        conv_lhs => rw [unpackLoop]
    rw [hstep] at h
    by_cases hm : st.rCertificates.length ≥ env.BID_MAX_CERTS
    · rw [if_pos hm] at h
      simp at h
    rw [if_neg hm] at h
    by_cases hc : (env._BIDParseJWT c).1 ≠ BID_S_OK
    · rw [if_pos hc] at h
      simp at h
    rw [if_neg hc] at h
    obtain ⟨h1, h2⟩ := ih _ h
    constructor
    · rw [h1]
      simp
    · intro s hs
      simp only [List.cons_append, List.mem_cons] at hs
      cases hs with
      | inl e =>
        rw [e]
        exact not_not.mp hc
      | inr e => exact h2 s e

/-- With a leading tilde in front of `N` tilde-free segments, the unpacker can succeed
only if the parser accepts the empty string, and it then delivers `N` certificates, never
`N - 1`: the empty text before the first tilde counts as a certificate segment. -/
theorem unpack_leading_tilde_count (env : Env) (segs : List CStr) (hne : segs ≠ [])
    (htilde : ∀ s ∈ segs, '~' ∉ s) (backedAssertion : BIDBackedAssertion)
    (h : _BIDUnpackBackedAssertion env (some ('~' :: joinTilde segs))
      = Except.ok backedAssertion) :
    (env._BIDParseJWT []).1 = BID_S_OK ∧
      backedAssertion.rCertificates.length = segs.length := by
  have hsplit : cstrSplit '~' ('~' :: joinTilde segs) = [] :: segs := by
    simp only [cstrSplit, if_true, cstrSplit_joinTilde segs hne htilde]
  obtain ⟨init, last, hsegs⟩ : ∃ init last, segs = init ++ [last] :=
    ⟨segs.dropLast, segs.getLast hne, (List.dropLast_append_getLast hne).symm⟩
  unfold _BIDUnpackBackedAssertion at h
  simp only [hsplit] at h
  cases hl : unpackLoop env ([] :: segs) ⟨none, []⟩ with
  | error e => simp [hl] at h
  | ok st =>
    have hl2 : unpackLoop env (([] :: init) ++ [last]) ⟨none, []⟩ = Except.ok st := by
      rw [List.cons_append, ← hsegs]
      exact hl
    obtain ⟨h1, h2⟩ := unpackLoop_ok_shape env ([] :: init) last ⟨none, []⟩ st hl2
    simp only [hl] at h
    cases ha : st.Assertion with
    | none => simp [ha] at h
    | some a =>
      simp only [ha] at h
      by_cases hz : st.rCertificates.length = 0
      · simp [hz] at h
      · simp only [if_neg hz, Except.ok.injEq] at h
        subst h
        constructor
        · exact h2 [] (by simp)
        · simp only [h1, hsegs, List.nil_append, List.map_cons, List.length_cons,
            List.length_map, List.length_append, List.length_nil]

/-- Counterexample for C7: with the sample parser, the two well-formed segments `c.c.c`
and `a.a.a` (`N = 2`, within `1 .. BID_MAX_CERTS + 1`) in the wire form with a leading
tilde do not unpack: the empty text before the first tilde is handed to the parser as the
first certificate and the call returns the parser's status. -/
theorem C7_counterexample_leading_tilde :
    (1 ≤ ["c.c.c".toList, "a.a.a".toList].length ∧
        ["c.c.c".toList, "a.a.a".toList].length ≤ sampleEnv.BID_MAX_CERTS + 1) ∧
      (∀ s ∈ ["c.c.c".toList, "a.a.a".toList],
        '~' ∉ s ∧ (sampleEnv._BIDParseJWT s).1 = BID_S_OK) ∧
      unpackStatus (_BIDUnpackBackedAssertion sampleEnv
        (some ('~' :: joinTilde ["c.c.c".toList, "a.a.a".toList])))
        = BID_S_INVALID_JSON_WEB_TOKEN ∧
      unpackStatus (_BIDUnpackBackedAssertion sampleEnv
        (some ('~' :: joinTilde ["c.c.c".toList, "a.a.a".toList]))) ≠ BID_S_OK := by
  decide

/-- C7 (amended): for `N - 1 ≥ 1` certificate segments and a last segment, `N - 1` at most
`BID_MAX_CERTS`, every segment free of tildes and accepted by the parser,
`_BIDUnpackBackedAssertion` applied to the segments joined by tildes (no leading tilde)
succeeds with exactly the parses of the first `N - 1` segments as certificates, in order,
and the parse of the last segment as the assertion. -/
theorem C7_unpack_joined_segments (env : Env) (certSegs : List CStr) (last : CStr)
    (hmin : 1 ≤ certSegs.length) (hmax : certSegs.length ≤ env.BID_MAX_CERTS)
    (hwf : ∀ s ∈ certSegs ++ [last], '~' ∉ s ∧ (env._BIDParseJWT s).1 = BID_S_OK) :
    _BIDUnpackBackedAssertion env (some (joinTilde (certSegs ++ [last]))) =
      Except.ok ⟨(env._BIDParseJWT last).2,
        certSegs.map (fun s => (env._BIDParseJWT s).2)⟩ := by
  unfold _BIDUnpackBackedAssertion
  have hsplit : cstrSplit '~' (joinTilde (certSegs ++ [last])) = certSegs ++ [last] :=
    cstrSplit_joinTilde _ (by simp) (fun s hs => (hwf s hs).1)
  have hloop := unpackLoop_all_parse env certSegs last ⟨none, []⟩
    (fun s hs => (hwf s hs).2) (by simpa using hmax)
  simp only [hsplit, hloop, List.nil_append, List.length_map]
  have hz : ¬ certSegs.length = 0 := by omega
  rw [if_neg hz]

/-- Witness for C7 (amended): the sample certificate and assertion joined as
`c.c.c~a.a.a` unpack to one certificate and the final assertion. -/
theorem C7_unpack_joined_segments_witness :
    (∀ s ∈ ["c.c.c".toList] ++ ["a.a.a".toList],
        '~' ∉ s ∧ (sampleEnv._BIDParseJWT s).1 = BID_S_OK) ∧
      _BIDUnpackBackedAssertion sampleEnv
          (some (joinTilde (["c.c.c".toList] ++ ["a.a.a".toList]))) =
        Except.ok ⟨(sampleEnv._BIDParseJWT "a.a.a".toList).2,
          ["c.c.c".toList].map (fun s => (sampleEnv._BIDParseJWT s).2)⟩ :=
  ⟨by decide,
    C7_unpack_joined_segments sampleEnv ["c.c.c".toList] "a.a.a".toList (by decide)
      (by decide) (by decide)⟩

/-- A string audience that differs from the expected one makes `_BIDValidateAudience`
return `BID_S_BAD_AUDIENCE`. -/
theorem validateAudience_bad (env : Env) (backedAssertion : BIDBackedAssertion)
    (szAudience a : CStr) (channelBindings : Option (List Octet))
    (ha : json_string_value (json_object_get backedAssertion.Assertion.Payload "aud".toList)
      = some a)
    (hne : a ≠ szAudience) :
    _BIDValidateAudience env backedAssertion (some szAudience) channelBindings
      = BID_S_BAD_AUDIENCE := by
  have hbad := (audienceCompare_some backedAssertion.Assertion.Payload szAudience).1 a ha hne
  unfold _BIDValidateAudience
  cases hp : backedAssertion.Assertion.Payload with
  | none =>
    rw [hp] at ha
    simp [json_object_get, json_string_value] at ha
  | some claims =>
    rw [hp] at hbad
    simp only [hbad]
    rw [if_pos (by decide)]

/-- C2: for every assertion string that unpacks successfully and whose payload `aud` is a
string different from the expected audience, `_BIDVerifyLocal` returns
`BID_S_BAD_AUDIENCE`, whatever the environment (parser results, signatures, issuer
trust), the time, the flags and the number of certificates. -/
theorem C2_bad_audience_first (env : Env) (context : BIDContext)
    (replayCache : BIDReplayCache) (szAssertion : CStr) (szAudience : CStr)
    (channelBindings : Option (List Octet)) (verificationTime : Int) (ulReqFlags : Nat)
    (backedAssertion : BIDBackedAssertion) (a : CStr)
    (hunpack : _BIDUnpackBackedAssertion env (some szAssertion) = Except.ok backedAssertion)
    (ha : json_string_value (json_object_get backedAssertion.Assertion.Payload "aud".toList)
      = some a)
    (hne : a ≠ szAudience) :
    (_BIDVerifyLocal env context replayCache (some szAssertion) (some szAudience)
      channelBindings verificationTime ulReqFlags).err = BID_S_BAD_AUDIENCE := by
  have hc := unpack_ok_has_cert env (some szAssertion) backedAssertion hunpack
  have hbad := validateAudience_bad env backedAssertion szAudience a channelBindings ha hne
  unfold _BIDVerifyLocal
  simp only [hunpack, hc, false_and, if_false, ne_eq, not_true_eq_false, hbad]
  rw [if_pos (by decide)]

/-- Witness for C2: scenario S4, the sample assertion `c.c.c~a.a.a` verified for the
audience https://evil.example.com. -/
theorem C2_bad_audience_first_witness :
    _BIDUnpackBackedAssertion sampleEnv (some "c.c.c~a.a.a".toList)
        = Except.ok sampleBacked ∧
      (_BIDVerifyLocal sampleEnv sampleContext none (some "c.c.c~a.a.a".toList)
        (some "https://evil.example.com".toList) none 1999999999000 0).err
        = BID_S_BAD_AUDIENCE :=
  ⟨rfl,
    C2_bad_audience_first sampleEnv sampleContext none "c.c.c~a.a.a".toList
      "https://evil.example.com".toList none 1999999999000 0 sampleBacked
      "https://rp.example.com".toList rfl rfl (by decide)⟩

/-- Whatever the input, `_BIDVerifyLocal` leaves the return flags at zero and its result
does not depend on `_BIDVerifyReauthAssertion`: the unpacker never delivers an assertion
without certificates, so the zero-certificate branch is not entered. -/
theorem verifyLocal_reauth_unreachable (env : Env) (context : BIDContext)
    (replayCache : BIDReplayCache) (szAssertion : Option CStr) (szAudience : Option CStr)
    (channelBindings : Option (List Octet)) (verificationTime : Int) (ulReqFlags : Nat) :
    (_BIDVerifyLocal env context replayCache szAssertion szAudience channelBindings
      verificationTime ulReqFlags).RetFlags = 0 := by
  unfold _BIDVerifyLocal
  cases hu : _BIDUnpackBackedAssertion env szAssertion with
  | error e => rfl
  | ok unpacked =>
    have hc := unpack_ok_has_cert env szAssertion unpacked hu
    simp only [hc, false_and, if_false]
    split_ifs <;> rfl

/-- C8: at the zero-certificate wire form `~a.a.a`, in a context with the REAUTH option
and request flags without NO_REAUTH, `_BIDVerifyLocal` of the sample environment returns
the parser's status for the empty first segment and leaves the return flags at zero; the
reauthentication verifier is not reached. -/
theorem C8_zero_cert_form_not_handed_off :
    (sampleReauthContext.ContextOptions &&& sampleEnv.BID_CONTEXT_REAUTH) ≠ 0 ∧
      ((0 : Nat) &&& sampleEnv.BID_VERIFY_FLAG_NO_REAUTH) = 0 ∧
      (sampleEnv._BIDParseJWT "a.a.a".toList).1 = BID_S_OK ∧
      (_BIDVerifyLocal sampleEnv sampleReauthContext none (some "~a.a.a".toList)
        (some "https://rp.example.com".toList) none 1999999999000 0).err
        = BID_S_INVALID_JSON_WEB_TOKEN ∧
      (_BIDVerifyLocal sampleEnv sampleReauthContext none (some "~a.a.a".toList)
        (some "https://rp.example.com".toList) none 1999999999000 0).RetFlags = 0 ∧
      (_BIDVerifyLocal sampleEnv sampleReauthContext none (some "a.a.a".toList)
        (some "https://rp.example.com".toList) none 1999999999000 0).err
        = BID_S_INVALID_ASSERTION ∧
      (_BIDVerifyLocal sampleEnv sampleReauthContext none (some "a.a.a".toList)
        (some "https://rp.example.com".toList) none 1999999999000 0).RetFlags = 0 := by
  decide

/-! ### Replay cache (C11 to C13) -/

/-- Reading a member that was just stored. -/
theorem lookupMember_setMember_same (key : CStr) (v : Json) (members : List (CStr × Json)) :
    lookupMember key (setMember key v members) = some v := by
  induction members with
  | nil => simp [setMember, lookupMember]
  | cons kv rest ih =>
    obtain ⟨k, w⟩ := kv
    by_cases hk : k = key
    · simp [setMember, lookupMember, hk]
    · simp [setMember, lookupMember, hk, ih]

/-- Storing a member leaves the members under other keys alone. -/
theorem lookupMember_setMember_other (key other : CStr) (v : Json)
    (members : List (CStr × Json)) (h : other ≠ key) :
    lookupMember other (setMember key v members) = lookupMember other members := by
  induction members with
  | nil =>
    have h' : ¬ key = other := fun e => h e.symm
    simp [setMember, lookupMember, h']
  | cons kv rest ih =>
    obtain ⟨k, w⟩ := kv
    by_cases hk : k = key
    · have h' : ¬ key = other := fun e => h e.symm
      have h'' : ¬ k = other := fun e => h (e.symm.trans hk)
      simp [setMember, lookupMember, hk, h', h'']
    · by_cases hko : k = other
      · subst hko
        simp [setMember, lookupMember, hk]
      · simp [setMember, lookupMember, hk, hko, ih]

/-- After `json_object_set`, members under other keys are as before, whether or not the
call stored anything. -/
theorem json_object_get_set_other (o : Option Json) (key other : CStr) (v : Option Json)
    (h : other ≠ key) :
    json_object_get (json_object_set o key v).2 other = json_object_get o other := by
  unfold json_object_set
  split
  · simp [json_object_get, lookupMember_setMember_other key other _ _ h]
  · rfl

/-- After a successful `json_object_set` the member is the stored value. -/
theorem json_object_get_set_same (o : Option Json) (key : CStr) (v : Option Json)
    (h : (json_object_set o key v).1 = 0) :
    json_object_get (json_object_set o key v).2 key = v := by
  unfold json_object_set at h ⊢
  split
  · simp [json_object_get, lookupMember_setMember_same]
  · simp at h

/-- The JSON value (an object or not) that `json_object_set` leaves is an object whenever
the target was one. -/
theorem json_object_set_object (members : List (CStr × Json)) (key : CStr)
    (v : Option Json) :
    ∃ members', (json_object_set (some (Json.object members)) key v).2
      = some (Json.object members') := by
  cases v with
  | none => exact ⟨members, rfl⟩
  | some x => exact ⟨setMember key x members, rfl⟩

/-- A successful timestamp write stores the integer and leaves an object. -/
theorem setTimestamp_ok (json : Option Json) (key : CStr) (ts : Int)
    (h : (_BIDSetJsonTimestampValue json key ts).1 = BID_S_OK) :
    (∃ members, (_BIDSetJsonTimestampValue json key ts).2 = some (Json.object members)) ∧
      _BIDGetJsonTimestampValue (_BIDSetJsonTimestampValue json key ts).2 key
        = (BID_S_OK, ts) := by
  unfold _BIDSetJsonTimestampValue at h ⊢
  cases json with
  | none => simp [json_object_set] at h
  | some j =>
    cases j with
    | object members =>
      refine ⟨⟨setMember key (Json.integer ts) members, ?_⟩, ?_⟩
      · simp [json_object_set]
      · simp [json_object_set, _BIDGetJsonTimestampValue, json_object_get,
          lookupMember_setMember_same, json_integer_value]
    | null => simp [json_object_set] at h
    | bool b => simp [json_object_set] at h
    | integer n => simp [json_object_set] at h
    | real m e => simp [json_object_set] at h
    | string str => simp [json_object_set] at h
    | array xs => simp [json_object_set] at h

/-- A timestamp write leaves members under other keys alone, whether or not it stored
anything. -/
theorem setTimestamp_get_other (json : Option Json) (key other : CStr) (ts : Int)
    (h : other ≠ key) :
    json_object_get (_BIDSetJsonTimestampValue json key ts).2 other
      = json_object_get json other := by
  unfold _BIDSetJsonTimestampValue
  by_cases hr : (json_object_set json key (some (Json.integer ts))).1 ≠ 0
  · simp only [if_pos hr]
  · simp only [if_neg hr]
    exact json_object_get_set_other json key other _ h

/-- A timestamp write on an object stores the integer. -/
theorem setTimestamp_object (members : List (CStr × Json)) (key : CStr) (ts : Int) :
    _BIDSetJsonTimestampValue (some (Json.object members)) key ts
      = (BID_S_OK, some (Json.object (setMember key (Json.integer ts) members))) := by
  simp [_BIDSetJsonTimestampValue, json_object_set]

/-- The timestamp read depends only on the member under the key. -/
theorem getTimestamp_congr (a b : Option Json) (key : CStr)
    (h : json_object_get a key = json_object_get b key) :
    _BIDGetJsonTimestampValue a key = _BIDGetJsonTimestampValue b key := by
  unfold _BIDGetJsonTimestampValue
  rw [h]

/-- A timestamp write succeeds only on an object. -/
theorem setTimestamp_ok_input (json : Option Json) (key : CStr) (ts : Int)
    (h : (_BIDSetJsonTimestampValue json key ts).1 = BID_S_OK) :
    ∃ members, json = some (Json.object members) := by
  unfold _BIDSetJsonTimestampValue at h
  cases json with
  | none => simp [json_object_set] at h
  | some j =>
    cases j with
    | object members => exact ⟨members, rfl⟩
    | null => simp [json_object_set] at h
    | bool b => simp [json_object_set] at h
    | integer n => simp [json_object_set] at h
    | real m e => simp [json_object_set] at h
    | string str => simp [json_object_set] at h
    | array xs => simp [json_object_set] at h

/-- The `exp` statements on an object: `iat` is kept and `exp` is the identity's member,
or the verification time plus 300. -/
theorem replayEntrySetExp_props (members : List (CStr × Json)) (identity : BIDIdentity)
    (t : Int) :
    json_object_get (replayEntrySetExp (some (Json.object members)) identity t) "iat".toList
        = json_object_get (some (Json.object members)) "iat".toList ∧
      json_object_get (replayEntrySetExp (some (Json.object members)) identity t)
          "exp".toList =
        (match json_object_get identity.Attributes "exp".toList with
         | none => some (Json.integer (t + 300))
         | some e => some e) := by
  unfold replayEntrySetExp
  cases json_object_get identity.Attributes "exp".toList with
  | none =>
    refine ⟨setTimestamp_get_other _ _ _ _ (by decide), ?_⟩
    simp [setTimestamp_object, json_object_get, lookupMember_setMember_same]
  | some e =>
    refine ⟨json_object_get_set_other _ _ _ _ (by decide), ?_⟩
    simp [json_object_set, json_object_get, lookupMember_setMember_same]

/-- The ticket statements keep `iat` and `exp`. -/
theorem replayEntrySetTicket_props (rdata : Option Json) (ark : BIDJWK) (t : Int)
    (lifetime : Nat) :
    json_object_get (replayEntrySetTicket rdata ark t lifetime) "iat".toList
        = json_object_get rdata "iat".toList ∧
      json_object_get (replayEntrySetTicket rdata ark t lifetime) "exp".toList
        = json_object_get rdata "exp".toList := by
  unfold replayEntrySetTicket
  constructor
  · rw [setTimestamp_get_other _ _ _ _ (by decide),
      json_object_get_set_other _ _ _ _ (by decide)]
  · rw [setTimestamp_get_other _ _ _ _ (by decide),
      json_object_get_set_other _ _ _ _ (by decide)]

/-- The replay check once digest and encoding have succeeded. -/
theorem checkReplay_eq (env : Env) (context : BIDContext) (szAssertion : CStr)
    (verificationTime : Int)
    (hdigest : (env._BIDDigestAssertion szAssertion).1 = BID_S_OK)
    (hencode : (env._BIDBase64UrlEncode (env._BIDDigestAssertion szAssertion).2).1 = BID_S_OK) :
    _BIDCheckReplayCache env context szAssertion verificationTime =
      if (env._BIDGetCacheObject context.ReplayCache
            (some (env._BIDBase64UrlEncode (env._BIDDigestAssertion szAssertion).2).2)).1
          = BID_S_OK ∧
        verificationTime < (_BIDGetJsonTimestampValue
            (env._BIDGetCacheObject context.ReplayCache
              (some (env._BIDBase64UrlEncode (env._BIDDigestAssertion szAssertion).2).2)).2
            "exp".toList).2
      then BID_S_REPLAYED_ASSERTION else BID_S_OK := by
  unfold _BIDCheckReplayCache
  simp only [hdigest, hencode, ne_eq, not_true_eq_false, if_false]
  by_cases hg : (env._BIDGetCacheObject context.ReplayCache
      (some (env._BIDBase64UrlEncode (env._BIDDigestAssertion szAssertion).2).2)).1 = BID_S_OK
  · by_cases ht : verificationTime < (_BIDGetJsonTimestampValue
        (env._BIDGetCacheObject context.ReplayCache
          (some (env._BIDBase64UrlEncode (env._BIDDigestAssertion szAssertion).2).2)).2
        "exp".toList).2
    · rw [if_pos hg, if_pos ht, if_pos ⟨hg, ht⟩]
    · rw [if_pos hg, if_neg ht, if_neg (fun h => ht h.2)]
      exact hg
  · rw [if_neg hg, if_neg (fun h => hg h.1)]

/-- C12: when digesting and encoding succeed, `_BIDCheckReplayCache` returns
`BID_S_REPLAYED_ASSERTION` iff the cache lookup under the encoded digest succeeds with an
entry whose `exp` is strictly greater than the verification time, and `BID_S_OK`
otherwise. -/
theorem C12_check_replay (env : Env) (context : BIDContext) (szAssertion : CStr)
    (verificationTime : Int)
    (hdigest : (env._BIDDigestAssertion szAssertion).1 = BID_S_OK)
    (hencode : (env._BIDBase64UrlEncode (env._BIDDigestAssertion szAssertion).2).1 = BID_S_OK) :
    (_BIDCheckReplayCache env context szAssertion verificationTime = BID_S_REPLAYED_ASSERTION ↔
        (env._BIDGetCacheObject context.ReplayCache
            (some (env._BIDBase64UrlEncode (env._BIDDigestAssertion szAssertion).2).2)).1
          = BID_S_OK ∧
        (_BIDGetJsonTimestampValue
            (env._BIDGetCacheObject context.ReplayCache
              (some (env._BIDBase64UrlEncode (env._BIDDigestAssertion szAssertion).2).2)).2
            "exp".toList).2 > verificationTime) ∧
      (_BIDCheckReplayCache env context szAssertion verificationTime ≠ BID_S_REPLAYED_ASSERTION →
        _BIDCheckReplayCache env context szAssertion verificationTime = BID_S_OK) := by
  rw [checkReplay_eq env context szAssertion verificationTime hdigest hencode]
  constructor
  · constructor
    · intro h
      by_contra hn
      rw [if_neg hn] at h
      exact absurd h (by decide)
    · intro h
      rw [if_pos h]
  · intro h
    split_ifs at h ⊢ with hc
    · exact absurd rfl h
    · rfl

/-- What a successful `_BIDUpdateReplayCache` has done: digest and encoding succeeded,
and the cache object stored under the encoded digest has `iat` equal to the verification
time and `exp` equal to the identity's `exp` member, or to the time plus 300 when the
identity has none; the new context differs from the old one in the replay cache only. -/
theorem updateReplay_ok_inv (env : Env) (ssl : OpenSSL) (context : BIDContext)
    (identity : BIDIdentity) (szAssertion : CStr) (verificationTime : Int)
    (h : (_BIDUpdateReplayCache env ssl context identity szAssertion verificationTime).err
      = BID_S_OK) :
    (env._BIDDigestAssertion szAssertion).1 = BID_S_OK ∧
      (env._BIDBase64UrlEncode (env._BIDDigestAssertion szAssertion).2).1 = BID_S_OK ∧
      ∃ rdata,
        env._BIDSetCacheObject context.ReplayCache
            (env._BIDBase64UrlEncode (env._BIDDigestAssertion szAssertion).2).2 rdata
          = (BID_S_OK,
            (_BIDUpdateReplayCache env ssl context identity szAssertion
              verificationTime).context.ReplayCache) ∧
        json_object_get rdata "iat".toList = some (Json.integer verificationTime) ∧
        json_object_get rdata "exp".toList =
          (match json_object_get identity.Attributes "exp".toList with
           | none => some (Json.integer (verificationTime + 300))
           | some e => some e) := by
  unfold _BIDUpdateReplayCache at h ⊢
  by_cases h1 : (env._BIDDigestAssertion szAssertion).1 ≠ BID_S_OK
  · simp only [if_pos h1] at h
    exact absurd h h1
  simp only [if_neg h1] at h ⊢
  by_cases h2 : (env._BIDBase64UrlEncode (env._BIDDigestAssertion szAssertion).2).1 ≠ BID_S_OK
  · simp only [if_pos h2] at h
    exact absurd h h2
  simp only [if_neg h2] at h ⊢
  refine ⟨not_not.mp h1, not_not.mp h2, ?_⟩
  generalize decide ((context.ContextOptions &&& env.BID_CONTEXT_REAUTH) ≠ 0) = reauth at h ⊢
  cases hr0 : (if reauth = true then identity.Attributes else some (Json.object [])) with
  | none =>
    simp only [hr0] at h
    exact absurd h (by decide)
  | some j0 =>
    simp only [hr0] at h ⊢
    by_cases h3 : (_BIDSetJsonTimestampValue (some j0) "iat".toList verificationTime).1
        ≠ BID_S_OK
    · simp only [if_pos h3] at h
      exact absurd h h3
    simp only [if_neg h3] at h ⊢
    obtain ⟨m0, hm0⟩ := setTimestamp_ok_input (some j0) "iat".toList verificationTime
      (not_not.mp h3)
    rw [hm0, setTimestamp_object] at h ⊢
    simp only at h ⊢
    obtain ⟨p1, p2⟩ := replayEntrySetExp_props
      (setMember "iat".toList (Json.integer verificationTime) m0) identity verificationTime
    have p1' : json_object_get (replayEntrySetExp (some (Json.object
        (setMember "iat".toList (Json.integer verificationTime) m0))) identity
        verificationTime) "iat".toList = some (Json.integer verificationTime) := by
      rw [p1]
      simp [json_object_get, lookupMember_setMember_same]
    generalize replayEntrySetExp (some (Json.object
        (setMember "iat".toList (Json.integer verificationTime) m0))) identity
        verificationTime = rdata2 at h p1' p2 ⊢
    generalize (if reauth = true then _BIDDeriveAuthenticatorRootKey env ssl identity
        else (BID_S_OK, none)) = ark at h ⊢
    by_cases h4 : ark.1 ≠ BID_S_OK
    · simp only [if_pos h4] at h
      exact absurd h h4
    simp only [if_neg h4] at h ⊢
    obtain ⟨q1, q2⟩ := replayEntrySetTicket_props rdata2 ark.2 verificationTime
      context.TicketLifetime
    have hrd : ∀ rdata : Option Json,
        rdata = (if reauth = true then
          replayEntrySetTicket rdata2 ark.2 verificationTime context.TicketLifetime
          else rdata2) →
        json_object_get rdata "iat".toList = some (Json.integer verificationTime) ∧
        json_object_get rdata "exp".toList =
          (match json_object_get identity.Attributes "exp".toList with
           | none => some (Json.integer (verificationTime + 300))
           | some e => some e) := by
      intro rdata hrdata
      cases reauth with
      | true =>
        simp only [if_true] at hrdata
        rw [hrdata, q1, q2]
        exact ⟨p1', p2⟩
      | false =>
        simp only [Bool.false_eq_true, if_false] at hrdata
        rw [hrdata]
        exact ⟨p1', p2⟩
    generalize (if reauth = true then
        replayEntrySetTicket rdata2 ark.2 verificationTime context.TicketLifetime
        else rdata2) = rdata at h hrd ⊢
    by_cases h5 : (env._BIDSetCacheObject context.ReplayCache
        (env._BIDBase64UrlEncode (env._BIDDigestAssertion szAssertion).2).2 rdata).1
        ≠ BID_S_OK
    · simp only [if_pos h5] at h
      exact absurd h h5
    simp only [if_neg h5] at h ⊢
    exact ⟨rdata, Prod.ext (not_not.mp h5) rfl, hrd rdata rfl⟩

/-- The sample cache returns what was stored last. -/
theorem sample_get_after_set (c : BIDReplayCache) (k : CStr) (v : Option Json)
    (c' : BIDReplayCache) (h : sampleSetCacheObject c k v = (BID_S_OK, c')) :
    sampleGetCacheObject c' (some k) = (BID_S_OK, v) := by
  cases c with
  | none => simp [sampleSetCacheObject] at h
  | some entries =>
    cases v with
    | none => simp [sampleSetCacheObject] at h
    | some x =>
      simp only [sampleSetCacheObject, Prod.mk.injEq, true_and] at h
      subst h
      simp [sampleGetCacheObject, lookupMember_setMember_same]

/-- Reading a member that holds an integer. -/
theorem getTimestamp_of_integer (json : Option Json) (key : CStr) (n : Int)
    (h : json_object_get json key = some (Json.integer n)) :
    _BIDGetJsonTimestampValue json key = (BID_S_OK, n) := by
  unfold _BIDGetJsonTimestampValue
  rw [h]
  rfl

/-- C13: after a successful `_BIDUpdateReplayCache`, with a cache that returns what was
stored, the replay cache has under the encoded digest an entry whose `iat` is the
verification time and whose `exp` is the identity's `exp` member when there is one and
the verification time plus 300 otherwise. -/
theorem C13_update_entry (env : Env) (ssl : OpenSSL) (context : BIDContext)
    (identity : BIDIdentity) (szAssertion : CStr) (verificationTime : Int)
    (hgs : ∀ c k v c', env._BIDSetCacheObject c k v = (BID_S_OK, c') →
      env._BIDGetCacheObject c' (some k) = (BID_S_OK, v))
    (hok : (_BIDUpdateReplayCache env ssl context identity szAssertion verificationTime).err
      = BID_S_OK) :
    ∃ entry,
      env._BIDGetCacheObject
          (_BIDUpdateReplayCache env ssl context identity szAssertion
            verificationTime).context.ReplayCache
          (some (env._BIDBase64UrlEncode (env._BIDDigestAssertion szAssertion).2).2)
        = (BID_S_OK, entry) ∧
      _BIDGetJsonTimestampValue entry "iat".toList = (BID_S_OK, verificationTime) ∧
      (∀ e, json_object_get identity.Attributes "exp".toList = some e →
        json_object_get entry "exp".toList = some e ∧
          _BIDGetJsonTimestampValue entry "exp".toList
            = _BIDGetJsonTimestampValue identity.Attributes "exp".toList) ∧
      (json_object_get identity.Attributes "exp".toList = none →
        _BIDGetJsonTimestampValue entry "exp".toList = (BID_S_OK, verificationTime + 300)) := by
  obtain ⟨_, _, rdata, hset, hiat, hexp⟩ :=
    updateReplay_ok_inv env ssl context identity szAssertion verificationTime hok
  refine ⟨rdata, hgs _ _ _ _ hset, ?_, ?_, ?_⟩
  · exact getTimestamp_of_integer _ _ _ hiat
  · intro e he
    rw [he] at hexp
    exact ⟨hexp, getTimestamp_congr _ _ _ (hexp.trans he.symm)⟩
  · intro he
    rw [he] at hexp
    exact getTimestamp_of_integer _ _ _ hexp

/-- C11 (amended): after a successful `_BIDUpdateReplayCache`, with a cache that returns
what was stored, `_BIDCheckReplayCache` for the same assertion returns
`BID_S_REPLAYED_ASSERTION` exactly for the times strictly before the `exp` stored in the
entry. -/
theorem C11_replay_until_expiry (env : Env) (ssl : OpenSSL) (context : BIDContext)
    (identity : BIDIdentity) (szAssertion : CStr) (verificationTime laterTime : Int)
    (hgs : ∀ c k v c', env._BIDSetCacheObject c k v = (BID_S_OK, c') →
      env._BIDGetCacheObject c' (some k) = (BID_S_OK, v))
    (hok : (_BIDUpdateReplayCache env ssl context identity szAssertion verificationTime).err
      = BID_S_OK) :
    _BIDCheckReplayCache env
        (_BIDUpdateReplayCache env ssl context identity szAssertion verificationTime).context
        szAssertion laterTime = BID_S_REPLAYED_ASSERTION ↔
      laterTime < (_BIDGetJsonTimestampValue
        (env._BIDGetCacheObject
          (_BIDUpdateReplayCache env ssl context identity szAssertion
            verificationTime).context.ReplayCache
          (some (env._BIDBase64UrlEncode (env._BIDDigestAssertion szAssertion).2).2)).2
        "exp".toList).2 := by
  obtain ⟨hd, he, rdata, hset, _, _⟩ :=
    updateReplay_ok_inv env ssl context identity szAssertion verificationTime hok
  have hget := hgs _ _ _ _ hset
  rw [checkReplay_eq env _ szAssertion laterTime hd he, hget]
  constructor
  · intro h
    by_contra hn
    rw [if_neg (fun hc => hn hc.2)] at h
    exact absurd h (by decide)
  · intro h
    rw [if_pos ⟨rfl, h⟩]

/-- Counterexample for C11: the sample identity claims `exp = 5000`; after the update at
time 1000 the entry's `exp` reads 5000, and the check at `t' = 5000 ≤ exp` returns
`BID_S_OK`, while the check at 4999 reports the replay. -/
theorem C11_counterexample_at_expiry :
    (_BIDUpdateReplayCache sampleEnv sampleSSL sampleContext sampleIdentity
        "c.c.c~a.a.a".toList 1000).err = BID_S_OK ∧
      (_BIDGetJsonTimestampValue
        (sampleEnv._BIDGetCacheObject
          (_BIDUpdateReplayCache sampleEnv sampleSSL sampleContext sampleIdentity
            "c.c.c~a.a.a".toList 1000).context.ReplayCache
          (some (sampleEnv._BIDBase64UrlEncode
            (sampleEnv._BIDDigestAssertion "c.c.c~a.a.a".toList).2).2)).2
        "exp".toList) = (BID_S_OK, 5000) ∧
      _BIDCheckReplayCache sampleEnv
        (_BIDUpdateReplayCache sampleEnv sampleSSL sampleContext sampleIdentity
          "c.c.c~a.a.a".toList 1000).context "c.c.c~a.a.a".toList 5000 = BID_S_OK ∧
      _BIDCheckReplayCache sampleEnv
        (_BIDUpdateReplayCache sampleEnv sampleSSL sampleContext sampleIdentity
          "c.c.c~a.a.a".toList 1000).context "c.c.c~a.a.a".toList 4999
        = BID_S_REPLAYED_ASSERTION := by
  decide

/-- Witness for C11 (amended): after the sample update at 1000 (entry `exp` 5000) the
check at 2000 reports the replay. -/
theorem C11_replay_until_expiry_witness :
    (_BIDUpdateReplayCache sampleEnv sampleSSL sampleContext sampleIdentity
        "c.c.c~a.a.a".toList 1000).err = BID_S_OK ∧
      _BIDCheckReplayCache sampleEnv
        (_BIDUpdateReplayCache sampleEnv sampleSSL sampleContext sampleIdentity
          "c.c.c~a.a.a".toList 1000).context "c.c.c~a.a.a".toList 2000
        = BID_S_REPLAYED_ASSERTION :=
  ⟨by decide,
    (C11_replay_until_expiry sampleEnv sampleSSL sampleContext sampleIdentity
      "c.c.c~a.a.a".toList 1000 2000 sample_get_after_set (by decide)).mpr (by decide)⟩

/-- Witness for C12: with an empty replay cache the lookup fails and the check of the
sample assertion returns `BID_S_OK`. -/
theorem C12_check_replay_witness :
    (sampleEnv._BIDDigestAssertion "c.c.c~a.a.a".toList).1 = BID_S_OK ∧
      _BIDCheckReplayCache sampleEnv sampleContext "c.c.c~a.a.a".toList 1000 = BID_S_OK :=
  ⟨by decide,
    (C12_check_replay sampleEnv sampleContext "c.c.c~a.a.a".toList 1000 (by decide)
      (by decide)).2 (by decide)⟩

/-- Witness for C13: the sample identity without `exp`, updated at 1000, leaves an entry
with `iat = 1000` and `exp = 1300`. -/
theorem C13_update_entry_witness :
    (_BIDUpdateReplayCache sampleEnv sampleSSL sampleContext sampleIdentityNoExp
        "c.c.c~a.a.a".toList 1000).err = BID_S_OK ∧
      ∃ entry,
        sampleEnv._BIDGetCacheObject
            (_BIDUpdateReplayCache sampleEnv sampleSSL sampleContext sampleIdentityNoExp
              "c.c.c~a.a.a".toList 1000).context.ReplayCache
            (some (sampleEnv._BIDBase64UrlEncode
              (sampleEnv._BIDDigestAssertion "c.c.c~a.a.a".toList).2).2)
          = (BID_S_OK, entry) ∧
        _BIDGetJsonTimestampValue entry "iat".toList = (BID_S_OK, 1000) ∧
        _BIDGetJsonTimestampValue entry "exp".toList = (BID_S_OK, 1000 + 300) :=
  ⟨by decide,
    (C13_update_entry sampleEnv sampleSSL sampleContext sampleIdentityNoExp
      "c.c.c~a.a.a".toList 1000 sample_get_after_set (by decide)).imp
      (fun _ h => ⟨h.1, h.2.1, h.2.2.2 rfl⟩)⟩

/-! ### Reauthentication (C14 to C17) -/

/-- Storing a present value into an object. -/
theorem jsonObjectSet_object (members : List (CStr × Json)) (key : CStr) (v : Json)
    (required : Bool) :
    _BIDJsonObjectSet (some (Json.object members)) key (some v) required
      = (BID_S_OK, some (Json.object (setMember key v members))) := by
  simp [_BIDJsonObjectSet, json_object_set]

/-- A binary JSON value is the string of the encoded bytes, or the encoder's failure. -/
theorem jsonBinaryValue_ok (env : Env) (bytes : List Octet) (j : Option Json)
    (h : _BIDJsonBinaryValue env bytes = (BID_S_OK, j)) :
    (env._BIDBase64UrlEncode bytes).1 = BID_S_OK ∧
      j = some (Json.string (env._BIDBase64UrlEncode bytes).2) := by
  unfold _BIDJsonBinaryValue at h
  by_cases he : (env._BIDBase64UrlEncode bytes).1 ≠ BID_S_OK
  · simp only [if_pos he, Prod.mk.injEq] at h
    exact absurd h.1 he
  · simp only [if_neg he, Prod.mk.injEq, true_and] at h
    exact ⟨not_not.mp he, h.symm⟩

/-- The payload of every authenticator that `_BIDMakeAuthenticator` delivers: the members
`iat` (milliseconds of the clock), `n` (the text of sixteen random bytes), `tkt` (the
value passed as ticket), `aud`, and `cbt` when channel bindings were supplied; nothing
else. -/
theorem makeAuthenticator_ok (env : Env) (ssl : OpenSSL) (context : BIDContext)
    (szAudienceOrSpn : CStr) (channelBindings : Option (List Octet)) (tkt : Option Json)
    (ap : BIDJWT)
    (h : _BIDMakeAuthenticator env ssl context szAudienceOrSpn channelBindings tkt
      = Except.ok ap) :
    ∃ jti, tkt = some jti ∧
      (ssl.RAND_bytes 16).1 = true ∧
      (env._BIDBase64UrlEncode ((List.range 16).map (ssl.RAND_bytes 16).2)).1 = BID_S_OK ∧
      (∀ b, channelBindings = some b → (env._BIDBase64UrlEncode b).1 = BID_S_OK) ∧
      ap.Payload = some (Json.object
        ([("iat".toList, Json.integer (ssl.gettimeofday.1 * 1000 + ssl.gettimeofday.2 / 1000)),
          ("n".toList, Json.string
            (env._BIDBase64UrlEncode ((List.range 16).map (ssl.RAND_bytes 16).2)).2),
          ("tkt".toList, jti),
          ("aud".toList, Json.string szAudienceOrSpn)] ++
         (match channelBindings with
          | none => []
          | some b => [("cbt".toList, Json.string (env._BIDBase64UrlEncode b).2)]))) := by
  unfold _BIDMakeAuthenticator at h
  cases tkt with
  | none => simp at h
  | some jti =>
    refine ⟨jti, rfl, ?_⟩
    simp only [_BIDGetCurrentJsonTimestamp, ne_eq, not_true_eq_false, if_false] at h
    cases hn : _BIDGenerateNonce env ssl with
    | mk nerr nval =>
      rw [hn] at h
      simp only at h
      by_cases hne : nerr = BID_S_OK
      · subst hne
        simp only [not_true_eq_false, if_false] at h
        unfold _BIDGenerateNonce at hn
        by_cases hr : (ssl.RAND_bytes 16).1 = false
        · simp [hr] at hn
        · simp only [if_neg hr] at hn
          obtain ⟨hn1, hn2⟩ := jsonBinaryValue_ok env _ _ hn
          subst hn2
          have hr' : (ssl.RAND_bytes 16).1 = true := by
            cases hb : (ssl.RAND_bytes 16).1 with
            | true => rfl
            | false => exact absurd hb hr
          refine ⟨hr', hn1, ?_⟩
          cases channelBindings with
          | none =>
            simp only [not_true_eq_false, if_false, jsonObjectSet_object] at h
            simp only [_BIDJsonObjectSet, Bool.false_eq_true, if_false, not_true_eq_false,
              Except.ok.injEq] at h
            subst h
            refine ⟨fun b hb => absurd hb (by simp), ?_⟩
            simp only [List.append_nil]
            congr 2
          | some b =>
            simp only at h
            cases hc : _BIDJsonBinaryValue env b with
            | mk cerr cval =>
              rw [hc] at h
              simp only at h
              by_cases hce : cerr = BID_S_OK
              · subst hce
                obtain ⟨hc1, hc2⟩ := jsonBinaryValue_ok env _ _ hc
                subst hc2
                simp only [not_true_eq_false, if_false, jsonObjectSet_object,
                  Except.ok.injEq] at h
                subst h
                refine ⟨fun b' hb => ?_, ?_⟩
                · simp only [Option.some.injEq] at hb
                  subst hb
                  exact hc1
                · simp only
                  congr 2
              · simp [hce] at h
      · simp [hne] at h

/-- C16: the authenticator that `_BIDMakeAuthenticator` of the sample environment makes
for the audience https://rp.example.com and ticket J has `iat` 1100 (the clock in
milliseconds) and no `exp` member, with or without channel bindings; `cbt` is there when
bindings are supplied. -/
theorem C16_authenticator_lacks_exp :
    tokenStatus (_BIDMakeAuthenticator sampleEnv sampleSSL sampleContext
        "https://rp.example.com".toList none (some (Json.string "J".toList))) = BID_S_OK ∧
      _BIDGetJsonTimestampValue
        (tokenPayload (_BIDMakeAuthenticator sampleEnv sampleSSL sampleContext
          "https://rp.example.com".toList none (some (Json.string "J".toList))))
        "iat".toList = (BID_S_OK, 1100) ∧
      (json_object_get
        (tokenPayload (_BIDMakeAuthenticator sampleEnv sampleSSL sampleContext
          "https://rp.example.com".toList none (some (Json.string "J".toList))))
        "exp".toList).isNone = true ∧
      _BIDGetJsonTimestampValue
        (tokenPayload (_BIDMakeAuthenticator sampleEnv sampleSSL sampleContext
          "https://rp.example.com".toList none (some (Json.string "J".toList))))
        "exp".toList = (BID_S_UNKNOWN_JSON_KEY, 0) ∧
      (json_object_get
        (tokenPayload (_BIDMakeAuthenticator sampleEnv sampleSSL sampleContext
          "https://rp.example.com".toList (some [1, 2]) (some (Json.string "J".toList))))
        "cbt".toList).isSome = true ∧
      (json_object_get
        (tokenPayload (_BIDMakeAuthenticator sampleEnv sampleSSL sampleContext
          "https://rp.example.com".toList (some [1, 2]) (some (Json.string "J".toList))))
        "exp".toList).isNone = true := by
  decide

/-- No authenticator that `_BIDMakeAuthenticator` delivers has an `exp` member, and its
`iat` is the clock in milliseconds. -/
theorem makeAuthenticator_no_exp (env : Env) (ssl : OpenSSL) (context : BIDContext)
    (szAudienceOrSpn : CStr) (channelBindings : Option (List Octet)) (tkt : Option Json)
    (ap : BIDJWT)
    (h : _BIDMakeAuthenticator env ssl context szAudienceOrSpn channelBindings tkt
      = Except.ok ap) :
    json_object_get ap.Payload "exp".toList = none ∧
      _BIDGetJsonTimestampValue ap.Payload "iat".toList
        = (BID_S_OK, ssl.gettimeofday.1 * 1000 + ssl.gettimeofday.2 / 1000) := by
  obtain ⟨jti, _, _, _, _, hp⟩ := makeAuthenticator_ok env ssl context szAudienceOrSpn
    channelBindings tkt ap h
  rw [hp]
  constructor
  · cases channelBindings with
    | none => simp [json_object_get, lookupMember]
    | some b => simp [json_object_get, lookupMember]
  · apply getTimestamp_of_integer
    simp [json_object_get, lookupMember]

/-- C14: `_BIDVerifyReauthAssertion` does not apply the expiry policy to the ticket expiry
`r-exp` that `_BIDUpdateReplayCache` wrote (`verificationTime + TicketLifetime`); it
applies it to the cache object, whose `exp` is the expiry of the original assertion.
With ticket lifetime 36000 and an identity without `exp` stored at time 1000 the entry has
`r-exp = 37000`, yet the authenticator naming it is refused at time 2000 with
`BID_S_EXPIRED_ASSERTION`. With ticket lifetime 500 and an identity with `exp = 5000`
stored at time 1000 the entry has `r-exp = 1500`, which lies more than the skew (300)
before time 4000, yet verification at 4000 succeeds. -/
theorem C14_ticket_expiry_not_consulted :
    (_BIDUpdateReplayCache sampleEnv sampleSSL sampleReauthContext sampleIdentityNoExp
        "c.c.c~a.a.a".toList 1000).err = BID_S_OK ∧
      _BIDGetJsonTimestampValue
        (sampleEnv._BIDGetCacheObject
          (_BIDUpdateReplayCache sampleEnv sampleSSL sampleReauthContext sampleIdentityNoExp
            "c.c.c~a.a.a".toList 1000).context.ReplayCache
          (json_string_value (json_object_get sampleAuthenticator.Payload "tkt".toList))).2
        "r-exp".toList = (BID_S_OK, 1000 + 36000) ∧
      (_BIDVerifyReauthAssertion sampleEnv sampleSSL
        (_BIDUpdateReplayCache sampleEnv sampleSSL sampleReauthContext sampleIdentityNoExp
          "c.c.c~a.a.a".toList 1000).context
        none ⟨sampleAuthenticator, []⟩ 2000).err = BID_S_EXPIRED_ASSERTION ∧
      (_BIDUpdateReplayCache sampleEnv sampleSSL sampleShortTicketContext sampleIdentity
        "c.c.c~a.a.a".toList 1000).err = BID_S_OK ∧
      _BIDGetJsonTimestampValue
        (sampleEnv._BIDGetCacheObject
          (_BIDUpdateReplayCache sampleEnv sampleSSL sampleShortTicketContext sampleIdentity
            "c.c.c~a.a.a".toList 1000).context.ReplayCache
          (json_string_value (json_object_get sampleAuthenticator.Payload "tkt".toList))).2
        "r-exp".toList = (BID_S_OK, 1000 + 500) ∧
      (4000 : Int) - (1000 + 500) > sampleShortTicketContext.Skew ∧
      (_BIDVerifyReauthAssertion sampleEnv sampleSSL
        (_BIDUpdateReplayCache sampleEnv sampleSSL sampleShortTicketContext sampleIdentity
          "c.c.c~a.a.a".toList 1000).context
        none ⟨sampleAuthenticator, []⟩ 4000).err = BID_S_OK := by
  decide

/-- The expiry step of `_BIDVerifyReauthAssertion` is the expiry policy on the cache
object itself: when the lookup succeeds and the policy rejects the object, that status is
returned. -/
theorem verifyReauth_expiry_of_entry (env : Env) (ssl : OpenSSL) (context : BIDContext)
    (replayCache : BIDReplayCache) (assertion : BIDBackedAssertion) (verificationTime : Int)
    (cred : Option Json)
    (hgot : env._BIDGetCacheObject (cacheOrDefault replayCache context.ReplayCache)
      (json_string_value (json_object_get assertion.Assertion.Payload "tkt".toList))
      = (BID_S_OK, cred))
    (hexp : _BIDValidateExpiry context verificationTime cred ≠ BID_S_OK) :
    (_BIDVerifyReauthAssertion env ssl context replayCache assertion verificationTime).err
      = _BIDValidateExpiry context verificationTime cred := by
  unfold _BIDVerifyReauthAssertion
  simp only [hgot]
  rw [if_neg (by decide)]
  simp only [ne_eq, not_true_eq_false, if_false, hexp, not_false_eq_true, if_true]

/-- The session key of `_BIDDeriveAuthenticatorSessionKey` when it succeeds. -/
theorem deriveSessionKey_ok (env : Env) (ssl : OpenSSL) (ark : BIDJWK) (ap : BIDJWT)
    (key : Option (List Octet))
    (h : _BIDDeriveAuthenticatorSessionKey env ssl ark ap = (BID_S_OK, key)) :
    (_BIDGetJsonBinaryValue env ark "secret-key".toList).1 = BID_S_OK ∧
      key = some (ssl.HMAC_SHA256 (_BIDGetJsonBinaryValue env ark "secret-key".toList).2
        (_BIDSalt ++ (_BIDGetJsonBinaryValue env ark "secret-key".toList).2 ++
          cstrOctets ap.EncData ++ [1])) := by
  unfold _BIDDeriveAuthenticatorSessionKey at h
  by_cases hb : (_BIDGetJsonBinaryValue env ark "secret-key".toList).1 ≠ BID_S_OK
  · simp only [if_pos hb, Prod.mk.injEq] at h
    exact absurd h.1 hb
  · simp only [if_neg hb, _BIDDeriveKey, ne_eq, not_true_eq_false, if_false,
      Prod.mk.injEq, true_and] at h
    exact ⟨not_not.mp hb, h.symm⟩

/-- The identity of `_BIDMakeReauthIdentity` when it succeeds carries the key of
`_BIDDeriveAuthenticatorSessionKey`. -/
theorem makeReauthIdentity_ok (env : Env) (ssl : OpenSSL) (cred : Option Json) (ap : BIDJWT)
    (identity : Option BIDIdentity)
    (h : _BIDMakeReauthIdentity env ssl cred ap = (BID_S_OK, identity)) :
    ∃ id, identity = some id ∧
      _BIDDeriveAuthenticatorSessionKey env ssl (json_object_get cred "ark".toList) ap
        = (BID_S_OK, id.SessionKey) := by
  unfold _BIDMakeReauthIdentity at h
  cases cred with
  | none => simp at h
  | some c =>
    simp only at h
    split_ifs at h with h1 h2 h3 h4 h5
    all_goals first
      | (simp only [Prod.mk.injEq] at h; exact absurd h.1 (by assumption))
      | skip
    simp only [Prod.mk.injEq, true_and] at h
    subst h
    exact ⟨_, rfl, Prod.ext (not_not.mp h5) rfl⟩

/-- Deleting a member that need not be there always succeeds. -/
theorem jsonObjectDel_optional (dst : Option Json) (key : CStr) :
    (_BIDJsonObjectDel dst key false).1 = BID_S_OK := by
  unfold _BIDJsonObjectDel
  split
  · simp
  · simp

/-- Storing an optional member into an object always succeeds. -/
theorem jsonObjectSet_optional (members : List (CStr × Json)) (key : CStr)
    (src : Option Json) :
    (_BIDJsonObjectSet (some (Json.object members)) key src false).1 = BID_S_OK := by
  cases src with
  | none => rfl
  | some v => rw [jsonObjectSet_object]

/-- When the `secret-key` of the record's `ark` can be read, `_BIDMakeReauthIdentity`
succeeds and delivers an identity whose session key is the derived key. -/
theorem makeReauthIdentity_succeeds (env : Env) (ssl : OpenSSL) (cred : Option Json)
    (ap : BIDJWT)
    (hark : (_BIDGetJsonBinaryValue env (json_object_get cred "ark".toList)
      "secret-key".toList).1 = BID_S_OK) :
    ∃ identity,
      _BIDMakeReauthIdentity env ssl cred ap = (BID_S_OK, some identity) ∧
      identity.SessionKey =
        some (ssl.HMAC_SHA256
          (_BIDGetJsonBinaryValue env (json_object_get cred "ark".toList)
            "secret-key".toList).2
          (_BIDSalt ++
            (_BIDGetJsonBinaryValue env (json_object_get cred "ark".toList)
              "secret-key".toList).2 ++ cstrOctets ap.EncData ++ [1])) := by
  cases cred with
  | none => exact absurd hark (by simp [json_object_get, _BIDGetJsonBinaryValue, json_string_value])
  | some c =>
    have hkey : _BIDDeriveAuthenticatorSessionKey env ssl
        (json_object_get (some c) "ark".toList) ap
        = (BID_S_OK, some (ssl.HMAC_SHA256
          (_BIDGetJsonBinaryValue env (json_object_get (some c) "ark".toList)
            "secret-key".toList).2
          (_BIDSalt ++
            (_BIDGetJsonBinaryValue env (json_object_get (some c) "ark".toList)
              "secret-key".toList).2 ++ cstrOctets ap.EncData ++ [1]))) := by
      unfold _BIDDeriveAuthenticatorSessionKey
      simp only [hark, ne_eq, not_true_eq_false, if_false, _BIDDeriveKey]
    unfold _BIDMakeReauthIdentity
    simp only [_BIDAllocIdentity, ne_eq, not_true_eq_false, if_false,
      jsonObjectDel_optional, jsonObjectSet_optional, hkey]
    exact ⟨_, rfl, rfl⟩

/-- C17: `_BIDMakeReauthIdentity` succeeds exactly when the `secret-key` of the record's
`ark` can be read. For every credential record whose `ark` has a readable `secret-key` and
every authenticator it builds an identity; the `secret-key` is a string that
base64url-decodes to bytes K, and the session key of the identity is `_BIDDeriveKey` of K
with the bytes of the authenticator's encoded `header.payload` text as salt, that is
HMAC-SHA256 keyed with K over `_BIDSalt ++ K ++ salt ++ [1]`. Every call with the same
`ark` and the same encoded text, as made by the other party, also builds an identity, and
that identity has the same session key. -/
theorem C17_reauth_session_key (env : Env) (ssl : OpenSSL) (cred : Option Json)
    (ap : BIDJWT) :
    ((_BIDMakeReauthIdentity env ssl cred ap).1 = BID_S_OK ↔
        (_BIDGetJsonBinaryValue env (json_object_get cred "ark".toList)
          "secret-key".toList).1 = BID_S_OK) ∧
      ((_BIDGetJsonBinaryValue env (json_object_get cred "ark".toList)
          "secret-key".toList).1 = BID_S_OK →
        ∃ identity,
          _BIDMakeReauthIdentity env ssl cred ap = (BID_S_OK, some identity) ∧
          (∃ text, json_string_value
              (json_object_get (json_object_get cred "ark".toList) "secret-key".toList)
              = some text ∧
            (_BIDGetJsonBinaryValue env (json_object_get cred "ark".toList)
              "secret-key".toList).2 = (env._BIDBase64UrlDecode text).2) ∧
          identity.SessionKey =
            (_BIDDeriveKey ssl
              (some ⟨some (_BIDGetJsonBinaryValue env (json_object_get cred "ark".toList)
                "secret-key".toList).2⟩)
              (some (cstrOctets ap.EncData))).2 ∧
          identity.SessionKey =
            some (ssl.HMAC_SHA256
              (_BIDGetJsonBinaryValue env (json_object_get cred "ark".toList)
                "secret-key".toList).2
              (_BIDSalt ++
                (_BIDGetJsonBinaryValue env (json_object_get cred "ark".toList)
                  "secret-key".toList).2 ++ cstrOctets ap.EncData ++ [1])) ∧
          (∀ cred2 ap2,
            json_object_get cred2 "ark".toList = json_object_get cred "ark".toList →
            ap2.EncData = ap.EncData →
            ∃ identity2,
              _BIDMakeReauthIdentity env ssl cred2 ap2 = (BID_S_OK, some identity2) ∧
              identity2.SessionKey = identity.SessionKey)) := by
  constructor
  · constructor
    · intro h
      obtain ⟨_, _, hkey⟩ := makeReauthIdentity_ok env ssl cred ap
        (_BIDMakeReauthIdentity env ssl cred ap).2 (Prod.ext h rfl)
      exact (deriveSessionKey_ok env ssl _ ap _ hkey).1
    · intro hark
      obtain ⟨identity, hmade, _⟩ := makeReauthIdentity_succeeds env ssl cred ap hark
      rw [hmade]
  · intro hark
    obtain ⟨identity, hmade, hk⟩ := makeReauthIdentity_succeeds env ssl cred ap hark
    refine ⟨identity, hmade, ?_, ?_, hk, ?_⟩
    · unfold _BIDGetJsonBinaryValue at hark ⊢
      cases ht : json_string_value
          (json_object_get (json_object_get cred "ark".toList) "secret-key".toList) with
      | none =>
        rw [ht] at hark
        simp at hark
      | some text => exact ⟨text, rfl, rfl⟩
    · rw [hk]
      rfl
    · intro cred2 ap2 harkEq henc
      have hark2 : (_BIDGetJsonBinaryValue env (json_object_get cred2 "ark".toList)
          "secret-key".toList).1 = BID_S_OK := by
        rw [harkEq]
        exact hark
      obtain ⟨identity2, hmade2, hk2⟩ :=
        makeReauthIdentity_succeeds env ssl cred2 ap2 hark2
      refine ⟨identity2, hmade2, ?_⟩
      rw [hk2, hk, harkEq, henc]

/-- Witness for C17: the sample ticket entry, whose `ark` secret-key decodes to the bytes
1, 2, with the sample authenticator, whose encoded text is `h.p`: an identity is built and
its session key is the HMAC-SHA256 value keyed with 1, 2. -/
theorem C17_reauth_session_key_witness :
    (_BIDGetJsonBinaryValue sampleEnv
        (json_object_get (some sampleTicketEntry) "ark".toList) "secret-key".toList)
        = (BID_S_OK, [1, 2]) ∧
      ∃ identity,
        _BIDMakeReauthIdentity sampleEnv sampleSSL (some sampleTicketEntry)
          sampleAuthenticator = (BID_S_OK, some identity) ∧
        identity.SessionKey =
          some (sampleSSL.HMAC_SHA256 [1, 2]
            (_BIDSalt ++ [1, 2] ++ cstrOctets "h.p".toList ++ [1])) :=
  ⟨by decide,
    ((C17_reauth_session_key sampleEnv sampleSSL (some sampleTicketEntry) sampleAuthenticator).2
      (by decide)).imp (fun _ h => ⟨h.1, h.2.2.2.1⟩)⟩

/-- The identity that a successful `_BIDVerifyReauthAssertion` returns is the one
`_BIDMakeReauthIdentity` builds from the cache object and the authenticator, whose
signing input is unchanged. -/
theorem verifyReauth_identity (env : Env) (ssl : OpenSSL) (context : BIDContext)
    (replayCache : BIDReplayCache) (assertion : BIDBackedAssertion) (verificationTime : Int)
    (h : (_BIDVerifyReauthAssertion env ssl context replayCache assertion
      verificationTime).err = BID_S_OK) :
    ∃ ap,
      ap.EncData = assertion.Assertion.EncData ∧
      _BIDMakeReauthIdentity env ssl
          (env._BIDGetCacheObject (cacheOrDefault replayCache context.ReplayCache)
            (json_string_value
              (json_object_get assertion.Assertion.Payload "tkt".toList))).2 ap
        = (BID_S_OK,
          (_BIDVerifyReauthAssertion env ssl context replayCache assertion
            verificationTime).VerifiedIdentity) := by
  unfold _BIDVerifyReauthAssertion at h ⊢
  simp only at h ⊢
  split_ifs at h ⊢ with h1 h2 h3 h4 h5 h6 h7
  all_goals first
    | exact absurd h (by assumption)
    | (exfalso; apply h2; decide)
    | skip
  rename_i hmk
  exact ⟨_, rfl, Prod.ext (not_not.mp hmk) rfl⟩

/-- The identity that a successful `_BIDGetReauthAssertion` returns, when one is asked
for, is the one `_BIDMakeReauthIdentity` builds from the ticket cache entry and the
authenticator just made (as packed, when an assertion is asked for too). -/
theorem getReauth_identity (env : Env) (ssl : OpenSSL) (context : BIDContext)
    (ticketCache : BIDTicketCache) (szPackedAudience : CStr)
    (channelBindings : Option (List Octet)) (szIdentityName : Option CStr)
    (wantAssertion wantExpiry : Bool) (cred : Option Json) (tkt : Json) (ap : BIDJWT)
    (hfound : _BIDFindTicketInCache env (cacheOrDefault ticketCache context.TicketCache)
      szPackedAudience szIdentityName = (BID_S_OK, cred))
    (htkt : json_object_get cred "tkt".toList = some tkt)
    (hmade : _BIDMakeAuthenticator env ssl context szPackedAudience channelBindings
      (json_object_get (some tkt) "jti".toList) = Except.ok ap)
    (h : (_BIDGetReauthAssertion env ssl context ticketCache szPackedAudience
      channelBindings szIdentityName wantAssertion true wantExpiry).err = BID_S_OK) :
    _BIDMakeReauthIdentity env ssl cred
        (if wantAssertion then
          (env._BIDPackBackedAssertion ⟨ap, []⟩ (json_object_get cred "ark".toList)).2.2
        else ap)
      = (BID_S_OK,
        (_BIDGetReauthAssertion env ssl context ticketCache szPackedAudience
          channelBindings szIdentityName wantAssertion true wantExpiry).AssertedIdentity) := by
  unfold _BIDGetReauthAssertion at h ⊢
  simp only [hfound, ne_eq, not_true_eq_false, if_false, htkt, hmade, if_true] at h ⊢
  cases wantAssertion
  all_goals
    simp only [if_true, if_false, Bool.false_eq_true] at h ⊢
    split_ifs at h ⊢ with h1 h2 h3
    all_goals first
      | exact absurd h (by assumption)
      | exact absurd trivial (by assumption)
      | exact Prod.ext (by assumption) rfl

/-- Both parties of a reauthentication hold the same session key: when
`_BIDGetReauthAssertion`, asked for the assertion and the identity, and
`_BIDVerifyReauthAssertion` both succeed, the acceptor's cache object carrying the same
`ark` as the initiator's record and the verified assertion the encoded text of the packed
authenticator, both deliver an identity and the two session keys are equal. -/
theorem reauth_same_session_key (env : Env) (ssl : OpenSSL)
    (initiator acceptor : BIDContext) (ticketCache : BIDTicketCache)
    (replayCache : BIDReplayCache) (szPackedAudience : CStr)
    (channelBindings : Option (List Octet)) (szIdentityName : Option CStr)
    (wantExpiry : Bool) (cred : Option Json) (tkt : Json) (ap : BIDJWT)
    (assertion : BIDBackedAssertion) (verificationTime : Int)
    (hfound : _BIDFindTicketInCache env (cacheOrDefault ticketCache initiator.TicketCache)
      szPackedAudience szIdentityName = (BID_S_OK, cred))
    (htkt : json_object_get cred "tkt".toList = some tkt)
    (hmade : _BIDMakeAuthenticator env ssl initiator szPackedAudience channelBindings
      (json_object_get (some tkt) "jti".toList) = Except.ok ap)
    (hget : (_BIDGetReauthAssertion env ssl initiator ticketCache szPackedAudience
      channelBindings szIdentityName true true wantExpiry).err = BID_S_OK)
    (hverify : (_BIDVerifyReauthAssertion env ssl acceptor replayCache assertion
      verificationTime).err = BID_S_OK)
    (hsameArk : json_object_get
        (env._BIDGetCacheObject (cacheOrDefault replayCache acceptor.ReplayCache)
          (json_string_value
            (json_object_get assertion.Assertion.Payload "tkt".toList))).2 "ark".toList
      = json_object_get cred "ark".toList)
    (hsameText : assertion.Assertion.EncData
      = (env._BIDPackBackedAssertion ⟨ap, []⟩
          (json_object_get cred "ark".toList)).2.2.EncData) :
    ∃ asserted verified,
      (_BIDGetReauthAssertion env ssl initiator ticketCache szPackedAudience
        channelBindings szIdentityName true true wantExpiry).AssertedIdentity
        = some asserted ∧
      (_BIDVerifyReauthAssertion env ssl acceptor replayCache assertion
        verificationTime).VerifiedIdentity = some verified ∧
      asserted.SessionKey = verified.SessionKey ∧
      asserted.SessionKey.isSome = true := by
  have hi := getReauth_identity env ssl initiator ticketCache szPackedAudience
    channelBindings szIdentityName true wantExpiry cred tkt ap hfound htkt hmade hget
  obtain ⟨apv, hencv, hv⟩ := verifyReauth_identity env ssl acceptor replayCache assertion
    verificationTime hverify
  rw [if_pos rfl] at hi
  obtain ⟨asserted, ha, hka⟩ := makeReauthIdentity_ok env ssl _ _ _ hi
  obtain ⟨verified, hvv, hkv⟩ := makeReauthIdentity_ok env ssl _ _ _ hv
  obtain ⟨_, hka2⟩ := deriveSessionKey_ok env ssl _ _ _ hka
  obtain ⟨_, hkv2⟩ := deriveSessionKey_ok env ssl _ _ _ hkv
  refine ⟨asserted, verified, ha, hvv, ?_, ?_⟩
  · rw [hka2, hkv2, hsameArk, hencv, hsameText]
  · rw [hka2]
    rfl

/-! ### Key derivation and signatures (C18 to C20) -/

/-- C18: for a secret K and a salt S, `_BIDDeriveKey` succeeds with HMAC-SHA256 keyed with
K over the nine bytes of `BrowserID`, then K, then S (nothing when the salt is absent),
then the byte 1; an absent salt gives the same result as an empty one; the key has 32
bytes, the length of an HMAC-SHA256 value. It fails with `BID_S_INVALID_PARAMETER` for a
null handle and with `BID_S_INVALID_SECRET` for a handle without secret bytes. -/
theorem C18_derive_key (ssl : OpenSSL) (K : List Octet) (S : Option (List Octet))
    (hlen : ∀ k m, (ssl.HMAC_SHA256 k m).length = 32) :
    _BIDDeriveKey ssl (some ⟨some K⟩) S
        = (BID_S_OK, some (ssl.HMAC_SHA256 K (_BIDSalt ++ K ++ S.getD [] ++ [1]))) ∧
      _BIDSalt = [66, 114, 111, 119, 115, 101, 114, 73, 68] ∧
      _BIDDeriveKey ssl (some ⟨some K⟩) none = _BIDDeriveKey ssl (some ⟨some K⟩) (some []) ∧
      (∀ key, (_BIDDeriveKey ssl (some ⟨some K⟩) S).2 = some key → key.length = 32) ∧
      _BIDDeriveKey ssl none S = (BID_S_INVALID_PARAMETER, none) ∧
      _BIDDeriveKey ssl (some ⟨none⟩) S = (BID_S_INVALID_SECRET, none) := by
  refine ⟨?_, by decide, rfl, ?_, rfl, rfl⟩
  · cases S <;> rfl
  · intro key hkey
    cases S with
    | none =>
      simp only [_BIDDeriveKey, Option.some.injEq] at hkey
      rw [← hkey]
      exact hlen _ _
    | some bytes =>
      simp only [_BIDDeriveKey, Option.some.injEq] at hkey
      rw [← hkey]
      exact hlen _ _

/-- Witness for C18: the secret 1, 2 with the salt 7 under the sample primitives. -/
theorem C18_derive_key_witness :
    (∀ k m, (sampleSSL.HMAC_SHA256 k m).length = 32) ∧
      _BIDDeriveKey sampleSSL (some ⟨some [1, 2]⟩) (some [7])
        = (BID_S_OK, some (sampleSSL.HMAC_SHA256 [1, 2] (_BIDSalt ++ [1, 2] ++ [7] ++ [1]))) ∧
      (∀ key, (_BIDDeriveKey sampleSSL (some ⟨some [1, 2]⟩) (some [7])).2 = some key →
        key.length = 32) :=
  ⟨fun _ _ => rfl,
    (C18_derive_key sampleSSL [1, 2] (some [7]) (fun _ _ => rfl)).1,
    (C18_derive_key sampleSSL [1, 2] (some [7]) (fun _ _ => rfl)).2.2.2.1⟩

/-- The digest `_BIDMakeShaDigest` copies when the table entry selects the digest `md`
and the buffer has the maximal size. -/
theorem makeShaDigest_of_evp (ssl : OpenSSL) (algorithm : BIDJWTAlgorithmDesc) (jwt : BIDJWT)
    (md : EVP_MD) (h : _BIDEvpForAlgorithm algorithm = Except.ok md) :
    _BIDMakeShaDigest ssl algorithm jwt EVP_MAX_MD_SIZE
      = (BID_S_OK, (ssl.EVP_Digest md (cstrOctets jwt.EncData)).take EVP_MAX_MD_SIZE) := by
  unfold _BIDMakeShaDigest
  rw [h]
  have hsize : ¬ EVP_MAX_MD_SIZE < EVP_MD_size md := by
    cases md <;> decide
  simp only [if_neg hsize]
  by_cases hlen : EVP_MAX_MD_SIZE > (ssl.EVP_Digest md (cstrOctets jwt.EncData)).length
  · rw [if_pos hlen]
    rw [List.take_left, List.take_of_length_le (Nat.le_of_lt hlen)]
  · rw [if_neg hlen]
    have hz : EVP_MAX_MD_SIZE - (ssl.EVP_Digest md (cstrOctets jwt.EncData)).length = 0 := by
      omega
    rw [hz, List.replicate_zero, List.append_nil]

/-- C19: the table entries `RS256`, `RS128` and `RS64` all carry the 19-byte SHA-256
DigestInfo bytes, but the digest that `_RSAMakeSignature` signs and `_RSAVerifySignature`
compares follows the name of the entry: for `RS256` it is the SHA-256 digest of the
signing input, for `RS128` it is the SHA-1 digest (20 bytes after the SHA-256 DigestInfo
bytes), and for `RS64`, whose name has four characters, `_BIDMakeShaDigest` fails with
`BID_S_CRYPTO_ERROR`, so that signing and verifying never succeed. With the sample
primitives the values signed under `RS256` and `RS128` differ, and a token signed under
`RS256` is not valid under `RS128`. -/
theorem C19_rsa_digest_follows_name (ssl : OpenSSL) (jwt : BIDJWT) (jwk : BIDJWK) :
    (_BIDJWTAlgorithms.take 3 = [algRS256, algRS128, algRS64] ∧
      [algRS256.pbOid, algRS128.pbOid, algRS64.pbOid]
        = [some sha256Oid, some sha256Oid, some sha256Oid] ∧
      [algRS256.cbOid, algRS128.cbOid, algRS64.cbOid] = [19, 19, 19]) ∧
      _BIDMakeShaDigest ssl algRS256 jwt EVP_MAX_MD_SIZE
        = (BID_S_OK,
          (ssl.EVP_Digest EVP_MD.EVP_sha256 (cstrOctets jwt.EncData)).take EVP_MAX_MD_SIZE) ∧
      _BIDMakeShaDigest ssl algRS128 jwt EVP_MAX_MD_SIZE
        = (BID_S_OK,
          (ssl.EVP_Digest EVP_MD.EVP_sha1 (cstrOctets jwt.EncData)).take EVP_MAX_MD_SIZE) ∧
      _BIDMakeShaDigest ssl algRS64 jwt EVP_MAX_MD_SIZE = (BID_S_CRYPTO_ERROR, []) ∧
      (_RSAMakeSignature ssl algRS64 jwt jwk).1 ≠ BID_S_OK ∧
      (_RSAVerifySignature ssl algRS64 jwt jwk).1 ≠ BID_S_OK ∧
      (_RSAVerifySignature ssl algRS64 jwt jwk).2 = false ∧
      (_RSAMakeSignature sampleSSL algRS256 sampleAuthenticator none).1 = BID_S_OK ∧
      (_RSAMakeSignature sampleSSL algRS256 sampleAuthenticator none).2.Signature
        = sha256Oid ++ List.replicate 32 3 ∧
      (_RSAMakeSignature sampleSSL algRS128 sampleAuthenticator none).1 = BID_S_OK ∧
      (_RSAMakeSignature sampleSSL algRS128 sampleAuthenticator none).2.Signature
        = sha256Oid ++ List.replicate 20 3 ∧
      _RSAVerifySignature sampleSSL algRS256
          (_RSAMakeSignature sampleSSL algRS256 sampleAuthenticator none).2 none
        = (BID_S_OK, true) ∧
      _RSAVerifySignature sampleSSL algRS128
          (_RSAMakeSignature sampleSSL algRS256 sampleAuthenticator none).2 none
        = (BID_S_OK, false) := by
  have h64 : _BIDMakeShaDigest ssl algRS64 jwt EVP_MAX_MD_SIZE = (BID_S_CRYPTO_ERROR, []) :=
    rfl
  refine ⟨by decide, makeShaDigest_of_evp ssl algRS256 jwt _ rfl,
    makeShaDigest_of_evp ssl algRS128 jwt _ rfl, h64, ?_, ?_, ?_,
    by decide, by decide, by decide, by decide, by decide, by decide⟩
  · unfold _RSAMakeSignature
    simp only [h64]
    by_cases h1 : (ssl._BIDMakeRsaKey jwk false).1 ≠ BID_S_OK
    · rw [if_pos h1]
      exact h1
    · rw [if_neg h1, if_pos (by decide : BID_S_CRYPTO_ERROR ≠ BID_S_OK)]
      intro h
      cases h
  · unfold _RSAVerifySignature
    simp only [h64]
    by_cases h1 : (ssl._BIDMakeRsaKey jwk true).1 ≠ BID_S_OK
    · rw [if_pos h1]
      exact h1
    · rw [if_neg h1, if_pos (by decide : BID_S_CRYPTO_ERROR ≠ BID_S_OK)]
      intro h
      cases h
  · unfold _RSAVerifySignature
    simp only [h64]
    by_cases h1 : (ssl._BIDMakeRsaKey jwk true).1 ≠ BID_S_OK
    · rw [if_pos h1]
    · rw [if_neg h1, if_pos (by decide : BID_S_CRYPTO_ERROR ≠ BID_S_OK)]


/-- The number read from a buffer with a given start value. -/
theorem bin2bn_foldl (xs : List Octet) (a : Nat) :
    xs.foldl (fun acc b => acc * 256 + b.val) a
      = a * 256 ^ xs.length + BN_bin2bn xs := by
  unfold BN_bin2bn
  induction xs generalizing a with
  | nil => simp
  | cons x xs ih =>
    simp only [List.foldl_cons, List.length_cons]
    rw [ih (a * 256 + x.val), ih (0 * 256 + x.val)]
    ring

/-- `BN_bin2bn` of two buffers one after the other. -/
theorem bin2bn_append (xs ys : List Octet) :
    BN_bin2bn (xs ++ ys) = BN_bin2bn xs * 256 ^ ys.length + BN_bin2bn ys := by
  conv_lhs => unfold BN_bin2bn
  rw [List.foldl_append, bin2bn_foldl]
  rfl

/-- The loop of `BN_bn2bin` writes the number in front of what it was given. -/
theorem bin2bn_bn2binLoop (fuel n : Nat) (acc : List Octet) (h : n ≤ fuel) :
    BN_bin2bn (bn2binLoop fuel n acc) = n * 256 ^ acc.length + BN_bin2bn acc := by
  induction fuel generalizing n acc with
  | zero =>
    have hn : n = 0 := by omega
    subst hn
    simp [bn2binLoop]
  | succ fuel ih =>
    unfold bn2binLoop
    by_cases hn : n = 0
    · subst hn
      simp
    · rw [if_neg hn, ih (n / 256) _ (by omega)]
      have hcons : BN_bin2bn ((Fin.ofNat (n % 256) : Octet) :: acc)
          = (n % 256) * 256 ^ acc.length + BN_bin2bn acc := by
        have := bin2bn_append [(Fin.ofNat (n % 256) : Octet)] acc
        simp only [List.singleton_append] at this
        rw [this]
        have hv : BN_bin2bn [(Fin.ofNat (n % 256) : Octet)] = n % 256 := by
          simp [BN_bin2bn, Fin.ofNat]
        rw [hv]
      rw [hcons, List.length_cons, pow_succ]
      have hdm := Nat.div_add_mod n 256
      generalize 256 ^ acc.length = p
      generalize BN_bin2bn acc = v
      generalize n / 256 = q at hdm ⊢
      generalize n % 256 = d at hdm ⊢
      subst hdm
      ring

/-- Reading back what `BN_bn2bin` wrote gives the number. -/
theorem bin2bn_bn2bin (n : Nat) : BN_bin2bn (BN_bn2bin n) = n := by
  unfold BN_bn2bin
  rw [bin2bn_bn2binLoop n n [] (le_refl n)]
  simp [BN_bin2bn]


/-- The result of `_DSAMakeSignature` when the digest, the key and the signature pair
are obtained and both numbers fit the digest length. -/
theorem dsaMakeSignature_ok (ssl : OpenSSL) (algorithm : BIDJWTAlgorithmDesc) (jwt : BIDJWT)
    (jwk : BIDJWK) (digest : List Octet) (dsa : DSA) (r s : Nat)
    (hsha : _BIDMakeShaDigest ssl algorithm jwt EVP_MAX_MD_SIZE = (BID_S_OK, digest))
    (hkey : ssl._BIDMakeDsaKey jwk false = (BID_S_OK, dsa))
    (hsign : ssl.DSA_do_sign digest dsa = some (r, s))
    (hr : BN_num_bytes r ≤ digest.length) (hs : BN_num_bytes s ≤ digest.length) :
    _DSAMakeSignature ssl algorithm jwt jwk
      = (BID_S_OK,
        { jwt with
          Signature :=
            memWrite
              (memWrite
                ((List.range (2 * digest.length)).map (ssl.BIDMalloc (2 * digest.length)))
                0 (BN_bn2bin r))
              digest.length (BN_bn2bin s) }) := by
  unfold _DSAMakeSignature
  simp only [hsha, hkey, hsign, ne_eq, not_true_eq_false, if_false]
  rw [if_neg (by omega)]

/-- Writing at offset `off` leaves the bytes before `off` as they were. -/
theorem memWrite_take (buf bytes : List Octet) (off : Nat) (h : off ≤ buf.length) :
    (memWrite buf off bytes).take off = buf.take off := by
  unfold memWrite
  rw [List.append_assoc, List.take_append_eq_append_take, List.length_take,
    List.take_take, Nat.min_self, Nat.min_eq_left h, Nat.sub_self, List.take_zero,
    List.append_nil]

/-- The first half of the stored signature: the bytes of r followed by bytes of the
fresh block. -/
theorem dsaSignature_first_half (fresh rb sb : List Octet) (L : Nat)
    (hfresh : fresh.length = 2 * L) (hr : rb.length ≤ L) :
    (memWrite (memWrite fresh 0 rb) L sb).take L
      = rb ++ (fresh.drop rb.length).take (L - rb.length) := by
  have hlen : (memWrite fresh 0 rb).length = 2 * L := by
    simp only [memWrite, List.take_zero, List.nil_append, List.length_append,
      List.length_drop, Nat.zero_add]
    omega
  rw [memWrite_take _ _ _ (by omega)]
  simp only [memWrite, List.take_zero, List.nil_append, Nat.zero_add]
  rw [List.take_append_eq_append_take, List.take_of_length_le hr]

/-- When r needs fewer bytes than the digest has, the number `_DSAVerifySignature` reads
from the first half of the signature that `_DSAMakeSignature` stored is larger than r,
whatever the fresh block held. -/
theorem dsaSignature_short_r (ssl : OpenSSL) (algorithm : BIDJWTAlgorithmDesc) (jwt : BIDJWT)
    (jwk : BIDJWK) (digest : List Octet) (dsa : DSA) (r s : Nat)
    (hsha : _BIDMakeShaDigest ssl algorithm jwt EVP_MAX_MD_SIZE = (BID_S_OK, digest))
    (hkey : ssl._BIDMakeDsaKey jwk false = (BID_S_OK, dsa))
    (hsign : ssl.DSA_do_sign digest dsa = some (r, s))
    (hpos : 0 < r)
    (hr : BN_num_bytes r < digest.length) (hs : BN_num_bytes s ≤ digest.length) :
    (_DSAMakeSignature ssl algorithm jwt jwk).1 = BID_S_OK ∧
      r < BN_bin2bn
        ((_DSAMakeSignature ssl algorithm jwt jwk).2.Signature.take digest.length) := by
  rw [dsaMakeSignature_ok ssl algorithm jwt jwk digest dsa r s hsha hkey hsign
    (Nat.le_of_lt hr) hs]
  refine ⟨rfl, ?_⟩
  simp only
  rw [dsaSignature_first_half _ _ _ digest.length (by simp) (Nat.le_of_lt hr),
    bin2bn_append, bin2bn_bn2bin]
  have hk : ((List.drop (BN_bn2bin r).length
      (List.map (ssl.BIDMalloc (2 * digest.length)) (List.range (2 * digest.length)))).take
      (digest.length - (BN_bn2bin r).length)).length
      = digest.length - (BN_bn2bin r).length := by
    simp only [List.length_take, List.length_drop, List.length_map, List.length_range]
    unfold BN_num_bytes at hr
    omega
  rw [hk]
  unfold BN_num_bytes at hr
  have hp : 256 ≤ 256 ^ (digest.length - (BN_bn2bin r).length) := by
    calc 256 = 256 ^ 1 := by norm_num
      _ ≤ 256 ^ (digest.length - (BN_bn2bin r).length) :=
        Nat.pow_le_pow_right (by norm_num) (by omega)
  nlinarith [hp, hpos]

/-- C20: `_DSAMakeSignature` does not left-pad r and s. With the digest length 32 of
`DS256` and the signature pair (1, 2) it stores the byte 1 at offset 0 and the byte 2 at
offset 32 of a fresh block of 64 bytes, the other bytes being whatever the block held
(zero bytes, or the byte 170, in the two samples), where the padded form has 31 zero
bytes before each of them. `_DSAVerifySignature` reads the first half back as 256 ^ 31
and reports the signature as not valid, although it accepts the padded form. -/
theorem C20_dsa_signature_not_padded :
    (_DSAMakeSignature sampleSSL algDS256 sampleAuthenticator none).1 = BID_S_OK ∧
      (_DSAMakeSignature sampleSSL algDS256 sampleAuthenticator none).2.Signature
        = [1] ++ List.replicate 31 0 ++ ([2] ++ List.replicate 31 0) ∧
      paddedSignature 32 1 2 = List.replicate 31 0 ++ [1] ++ (List.replicate 31 0 ++ [2]) ∧
      BN_bin2bn ((_DSAMakeSignature sampleSSL algDS256 sampleAuthenticator
        none).2.Signature.take 32) = 256 ^ 31 ∧
      _DSAVerifySignature sampleSSL algDS256
          (_DSAMakeSignature sampleSSL algDS256 sampleAuthenticator none).2 none
        = (BID_S_OK, 0) ∧
      _DSAVerifySignature sampleSSL algDS256
          { sampleAuthenticator with Signature := paddedSignature 32 1 2 } none
        = (BID_S_OK, 1) ∧
      (_DSAMakeSignature sampleDirtySSL algDS256 sampleAuthenticator none).1 = BID_S_OK ∧
      (_DSAMakeSignature sampleDirtySSL algDS256 sampleAuthenticator none).2.Signature
        = [1] ++ List.replicate 31 170 ++ ([2] ++ List.replicate 31 170) ∧
      _DSAVerifySignature sampleDirtySSL algDS256
          (_DSAMakeSignature sampleDirtySSL algDS256 sampleAuthenticator none).2 none
        = (BID_S_OK, 0) := by
  decide

/-! ### Attribute certificates (C21) -/

/-- The loop over the attribute certificates gives the same claims as the loop over
those entries only that validate: an entry that does not validate contributes nothing. -/
theorem attrCertsLoop_filter (env : Env) (context : BIDContext) (verificationTime : Int)
    (ulReqFlags : Nat) (certVerifyKey : BIDJWK) (certHash iss : Option Json)
    (entries : List Json) (claims : Option Json) :
    attrCertsLoop env context verificationTime ulReqFlags certVerifyKey certHash iss entries
        claims
      = attrCertsLoop env context verificationTime ulReqFlags certVerifyKey certHash iss
        (entries.filter (fun entry =>
          decide ((_BIDValidateAttributeCertificate env context (some entry) verificationTime
            certVerifyKey certHash iss).err = BID_S_OK)))
        claims := by
  induction entries generalizing claims with
  | nil => rfl
  | cons entry rest ih =>
    by_cases hv : (_BIDValidateAttributeCertificate env context (some entry) verificationTime
        certVerifyKey certHash iss).err = BID_S_OK
    · rw [List.filter_cons_of_pos (by simpa using hv)]
      conv_lhs => rw [attrCertsLoop]
      conv_rhs => rw [attrCertsLoop]
      simp only [hv, ne_eq, not_true_eq_false, if_false, ih]
    · rw [List.filter_cons_of_neg (by simpa using hv)]
      conv_lhs => rw [attrCertsLoop]
      simp only [ne_eq, hv, not_false_eq_true, if_true]
      exact ih _

/-- When no entry validates, the claims are the empty object the loop started with. -/
theorem attrCertsLoop_all_invalid (env : Env) (context : BIDContext) (verificationTime : Int)
    (ulReqFlags : Nat) (certVerifyKey : BIDJWK) (certHash iss : Option Json)
    (entries : List Json) (claims : Option Json)
    (hinvalid : ∀ entry ∈ entries,
      (_BIDValidateAttributeCertificate env context (some entry) verificationTime
        certVerifyKey certHash iss).err ≠ BID_S_OK) :
    attrCertsLoop env context verificationTime ulReqFlags certVerifyKey certHash iss entries
      claims = claims := by
  rw [attrCertsLoop_filter]
  have hnil : entries.filter (fun entry =>
      decide ((_BIDValidateAttributeCertificate env context (some entry) verificationTime
        certVerifyKey certHash iss).err = BID_S_OK)) = [] := by
    rw [List.filter_eq_nil_iff]
    intro entry hmem
    simpa using hinvalid entry hmem
  rw [hnil]
  rfl

/-- C21 (amended): `_BIDValidateAttributeCertificates` returns `BID_S_OK` with no claims
when the payload has no `attr-certs` member or an empty array, and
`BID_S_INVALID_ASSERTION` when the member is not an array. For a non-empty array it hashes
the leaf certificate: when the digest or its encoding fails it returns that status, and
otherwise it returns `BID_S_OK` whatever the entries are, with the claims that the
entries which validate contribute; an entry that does not validate contributes
nothing. -/
theorem C21_attr_certs_status (env : Env) (context : BIDContext)
    (backedAssertion : BIDBackedAssertion) (verificationTime : Int) (ulReqFlags : Nat)
    (certVerifyKey : BIDJWK) :
    (json_object_get backedAssertion.Assertion.Payload "attr-certs".toList = none →
        _BIDValidateAttributeCertificates env context backedAssertion verificationTime
          ulReqFlags certVerifyKey = some (BID_S_OK, none)) ∧
      (json_object_get backedAssertion.Assertion.Payload "attr-certs".toList
          = some (Json.array []) →
        _BIDValidateAttributeCertificates env context backedAssertion verificationTime
          ulReqFlags certVerifyKey = some (BID_S_OK, none)) ∧
      (∀ value,
        json_object_get backedAssertion.Assertion.Payload "attr-certs".toList = some value →
        (∀ entries, value ≠ Json.array entries) →
        _BIDValidateAttributeCertificates env context backedAssertion verificationTime
          ulReqFlags certVerifyKey = some (BID_S_INVALID_ASSERTION, none)) ∧
      (∀ first others leafCert,
        json_object_get backedAssertion.Assertion.Payload "attr-certs".toList
          = some (Json.array (first :: others)) →
        backedAssertion.rCertificates.getLast? = some leafCert →
        ((env._BIDDigestAssertion leafCert.EncData).1 ≠ BID_S_OK →
          _BIDValidateAttributeCertificates env context backedAssertion verificationTime
            ulReqFlags certVerifyKey
            = some ((env._BIDDigestAssertion leafCert.EncData).1, none)) ∧
        ((env._BIDDigestAssertion leafCert.EncData).1 = BID_S_OK →
          (_BIDJsonBinaryValue env (env._BIDDigestAssertion leafCert.EncData).2).1
            ≠ BID_S_OK →
          _BIDValidateAttributeCertificates env context backedAssertion verificationTime
            ulReqFlags certVerifyKey
            = some ((_BIDJsonBinaryValue env
              (env._BIDDigestAssertion leafCert.EncData).2).1, none)) ∧
        ((env._BIDDigestAssertion leafCert.EncData).1 = BID_S_OK →
          (_BIDJsonBinaryValue env (env._BIDDigestAssertion leafCert.EncData).2).1
            = BID_S_OK →
          _BIDValidateAttributeCertificates env context backedAssertion verificationTime
            ulReqFlags certVerifyKey
            = some (BID_S_OK,
              attrCertsLoop env context verificationTime ulReqFlags certVerifyKey
                (_BIDJsonBinaryValue env (env._BIDDigestAssertion leafCert.EncData).2).2
                (json_object_get leafCert.Payload "iss".toList)
                ((first :: others).filter (fun entry =>
                  decide ((_BIDValidateAttributeCertificate env context (some entry)
                    verificationTime certVerifyKey
                    (_BIDJsonBinaryValue env
                      (env._BIDDigestAssertion leafCert.EncData).2).2
                    (json_object_get leafCert.Payload "iss".toList)).err = BID_S_OK)))
                (some (Json.object []))))) := by
  refine ⟨?_, ?_, ?_, ?_⟩
  · intro h
    unfold _BIDValidateAttributeCertificates
    simp only [h]
  · intro h
    unfold _BIDValidateAttributeCertificates
    simp only [h]
  · intro value h hna
    unfold _BIDValidateAttributeCertificates
    rw [h]
    cases value with
    | array entries => exact absurd rfl (hna entries)
    | _ => rfl
  · intro first others leafCert h hleaf
    refine ⟨?_, ?_, ?_⟩
    · intro hd
      unfold _BIDValidateAttributeCertificates
      simp only [h, hleaf, if_pos hd]
    · intro hd hb
      unfold _BIDValidateAttributeCertificates
      simp only [h, hleaf, hd, ne_eq, not_true_eq_false, if_false, if_pos hb]
    · intro hd hb
      unfold _BIDValidateAttributeCertificates
      simp only [h, hleaf, hd, hb, ne_eq, not_true_eq_false, if_false]
      rw [attrCertsLoop_filter]

/-- Counterexample for C21: an `attr-certs` member that is a string, not an array, makes
`_BIDValidateAttributeCertificates` return `BID_S_INVALID_ASSERTION`. -/
theorem C21_counterexample_not_an_array :
    _BIDValidateAttributeCertificates sampleAttrEnv sampleContext
        (sampleAttrBacked (Json.string "t.t.t".toList)) 1999999999000 0 none
      = some (BID_S_INVALID_ASSERTION, none) := by
  rfl

/-- Witness for C21 (amended): an array of two entries that do not validate and the
sample attribute certificate gives `BID_S_OK` and the claim `group` under `role`; an
empty array gives `BID_S_OK` and no claims. -/
theorem C21_attr_certs_status_witness :
    (∃ claims,
        _BIDValidateAttributeCertificates sampleAttrEnv sampleContext
            (sampleAttrBacked (Json.array
              [Json.string "junk".toList, Json.integer 3, Json.string "t.t.t".toList]))
            1999999999000 0 none
          = some (BID_S_OK, claims) ∧
        json_string_value (json_object_get (json_object_get claims "role".toList)
          "group".toList) = some "admin".toList) ∧
      _BIDValidateAttributeCertificates sampleAttrEnv sampleContext
          (sampleAttrBacked (Json.array [])) 1999999999000 0 none
        = some (BID_S_OK, none) :=
  ⟨⟨_,
      ((C21_attr_certs_status sampleAttrEnv sampleContext
        (sampleAttrBacked (Json.array
          [Json.string "junk".toList, Json.integer 3, Json.string "t.t.t".toList]))
        1999999999000 0 none).2.2.2 _ _ sampleCert rfl rfl).2.2 (by decide) (by decide),
      by decide⟩,
    (C21_attr_certs_status sampleAttrEnv sampleContext (sampleAttrBacked (Json.array []))
      1999999999000 0 none).2.1 rfl⟩

/-! ### Local verifier and identity (C22 to C24) -/

/-- A conditional between two outputs that each are a success or carry no identity and
the expiry time 0 is such an output. -/
theorem verifyOutput_ite (c : Prop) [Decidable c] (a b : VerifyOutput)
    (ha : a.err = BID_S_OK ∨ (a.VerifiedIdentity = none ∧ a.ExpiryTime = 0))
    (hb : b.err = BID_S_OK ∨ (b.VerifiedIdentity = none ∧ b.ExpiryTime = 0)) :
    (if c then a else b).err = BID_S_OK ∨
      ((if c then a else b).VerifiedIdentity = none ∧ (if c then a else b).ExpiryTime = 0) := by
  split_ifs <;> assumption

/-- Either `_BIDVerifyLocal` succeeds, or it leaves no identity and the expiry time 0. -/
theorem verifyLocal_ok_or_empty (env : Env) (context : BIDContext)
    (replayCache : BIDReplayCache) (szAssertion szAudience : Option CStr)
    (channelBindings : Option (List Octet)) (verificationTime : Int) (ulReqFlags : Nat) :
    (_BIDVerifyLocal env context replayCache szAssertion szAudience channelBindings
        verificationTime ulReqFlags).err = BID_S_OK ∨
      ((_BIDVerifyLocal env context replayCache szAssertion szAudience channelBindings
          verificationTime ulReqFlags).VerifiedIdentity = none ∧
        (_BIDVerifyLocal env context replayCache szAssertion szAudience channelBindings
          verificationTime ulReqFlags).ExpiryTime = 0) := by
  unfold _BIDVerifyLocal
  cases hu : _BIDUnpackBackedAssertion env szAssertion with
  | error e => exact Or.inr ⟨rfl, rfl⟩
  | ok unpacked =>
    refine verifyOutput_ite _ _ _ (Or.inr ⟨rfl, rfl⟩) ?_
    refine verifyOutput_ite _ _ _ (Or.inr ⟨rfl, rfl⟩) ?_
    refine verifyOutput_ite _ _ _ (Or.inr ⟨rfl, rfl⟩) ?_
    refine verifyOutput_ite _ _ _ (Or.inr ⟨rfl, rfl⟩) ?_
    refine verifyOutput_ite _ _ _ (Or.inr ⟨rfl, rfl⟩) ?_
    refine verifyOutput_ite _ _ _ (Or.inr ⟨rfl, rfl⟩) ?_
    refine verifyOutput_ite _ _ _ (Or.inr ⟨rfl, rfl⟩) ?_
    refine verifyOutput_ite _ _ _ (Or.inr ⟨rfl, rfl⟩) ?_
    exact Or.inl rfl

/-- C22: whenever `_BIDVerifyLocal` returns an error, the identity it leaves is
`BID_C_NO_IDENTITY` and the expiry time is 0, whatever the reauthentication verifier or
any other step had produced before. -/
theorem C22_no_partial_results (env : Env) (context : BIDContext)
    (replayCache : BIDReplayCache) (szAssertion szAudience : Option CStr)
    (channelBindings : Option (List Octet)) (verificationTime : Int) (ulReqFlags : Nat)
    (h : (_BIDVerifyLocal env context replayCache szAssertion szAudience channelBindings
      verificationTime ulReqFlags).err ≠ BID_S_OK) :
    (_BIDVerifyLocal env context replayCache szAssertion szAudience channelBindings
        verificationTime ulReqFlags).VerifiedIdentity = none ∧
      (_BIDVerifyLocal env context replayCache szAssertion szAudience channelBindings
        verificationTime ulReqFlags).ExpiryTime = 0 :=
  (verifyLocal_ok_or_empty env context replayCache szAssertion szAudience channelBindings
    verificationTime ulReqFlags).resolve_left h

/-- Witness for C22: the sample assertion verified for another audience fails with
`BID_S_BAD_AUDIENCE` and leaves no identity and the expiry time 0. -/
theorem C22_no_partial_results_witness :
    (_BIDVerifyLocal sampleEnv sampleContext none (some "c.c.c~a.a.a".toList)
        (some "https://evil.example.com".toList) none 1999999999000 0).err
        = BID_S_BAD_AUDIENCE ∧
      (_BIDVerifyLocal sampleEnv sampleContext none (some "c.c.c~a.a.a".toList)
        (some "https://evil.example.com".toList) none 1999999999000 0).VerifiedIdentity
        = none ∧
      (_BIDVerifyLocal sampleEnv sampleContext none (some "c.c.c~a.a.a".toList)
        (some "https://evil.example.com".toList) none 1999999999000 0).ExpiryTime = 0 :=
  ⟨by decide,
    C22_no_partial_results sampleEnv sampleContext none (some "c.c.c~a.a.a".toList)
      (some "https://evil.example.com".toList) none 1999999999000 0 (by decide)⟩

/-- The unpack loop depends on the environment through the parser and `BID_MAX_CERTS`
only. -/
theorem unpackLoop_congr (env env2 : Env) (hp : env2._BIDParseJWT = env._BIDParseJWT)
    (hm : env2.BID_MAX_CERTS = env.BID_MAX_CERTS) :
    ∀ (l : List CStr) (st : UnpackState), unpackLoop env2 l st = unpackLoop env l st
  | [], st => by
    rw [unpackLoop, unpackLoop]
  | [p], st => by
    rw [unpackLoop, unpackLoop, hp]
  | p :: q :: rest, st => by
    rw [unpackLoop, unpackLoop, hp, hm]
    simp only [unpackLoop_congr env env2 hp hm (q :: rest)]

/-- The unpacker depends on the environment through the parser and `BID_MAX_CERTS`
only. -/
theorem unpack_congr (env env2 : Env) (hp : env2._BIDParseJWT = env._BIDParseJWT)
    (hm : env2.BID_MAX_CERTS = env.BID_MAX_CERTS) (encodedJson : Option CStr) :
    _BIDUnpackBackedAssertion env2 encodedJson = _BIDUnpackBackedAssertion env encodedJson := by
  unfold _BIDUnpackBackedAssertion
  cases encodedJson with
  | none => rfl
  | some tmp =>
    simp only
    rw [unpackLoop_congr env env2 hp hm]

/-- With more than one certificate the local verifier stops at the count check. -/
theorem verifyLocal_too_many (env : Env) (context : BIDContext)
    (replayCache : BIDReplayCache) (szAssertion szAudience : Option CStr)
    (channelBindings : Option (List Octet)) (verificationTime : Int) (ulReqFlags : Nat)
    (unpacked : BIDBackedAssertion)
    (hunpack : _BIDUnpackBackedAssertion env szAssertion = Except.ok unpacked)
    (hmany : unpacked.cCertificates > 1)
    (haud : _BIDValidateAudience env unpacked szAudience channelBindings = BID_S_OK)
    (hexp : _BIDValidateExpiry context verificationTime unpacked.Assertion.Payload
      = BID_S_OK) :
    (_BIDVerifyLocal env context replayCache szAssertion szAudience channelBindings
      verificationTime ulReqFlags).err = BID_S_TOO_MANY_CERTS := by
  have hc : ¬ unpacked.cCertificates = 0 := by omega
  unfold _BIDVerifyLocal
  simp only [hunpack, hc, false_and, if_false, ne_eq, not_true_eq_false, haud, hexp]
  rw [if_pos hmany]

/-- C23: for an assertion that unpacks to more than one certificate and passes the
audience and expiry checks, `_BIDVerifyLocal` returns `BID_S_TOO_MANY_CERTS`, and it does
so whatever the signature verifier, the issuer trust check, the authority lookup and the
authority key lookup are. -/
theorem C23_too_many_certs (env : Env) (context : BIDContext)
    (replayCache : BIDReplayCache) (szAssertion szAudience : Option CStr)
    (channelBindings : Option (List Octet)) (verificationTime : Int) (ulReqFlags : Nat)
    (unpacked : BIDBackedAssertion)
    (hunpack : _BIDUnpackBackedAssertion env szAssertion = Except.ok unpacked)
    (hmany : unpacked.cCertificates > 1)
    (haud : _BIDValidateAudience env unpacked szAudience channelBindings = BID_S_OK)
    (hexp : _BIDValidateExpiry context verificationTime unpacked.Assertion.Payload
      = BID_S_OK) :
    (_BIDVerifyLocal env context replayCache szAssertion szAudience channelBindings
        verificationTime ulReqFlags).err = BID_S_TOO_MANY_CERTS ∧
      ∀ (verifySignature : BIDJWT → BIDJWK → BIDError)
        (issuerIsAuthoritative : CStr → CStr → BIDError)
        (acquireAuthority : CStr → BIDError × BIDAuthority)
        (getAuthorityPublicKey : BIDAuthority → BIDError × BIDJWK),
        (_BIDVerifyLocal
          { env with
            _BIDVerifySignature := verifySignature
            _BIDIssuerIsAuthoritative := issuerIsAuthoritative
            _BIDAcquireAuthority := acquireAuthority
            _BIDGetAuthorityPublicKey := getAuthorityPublicKey }
          context replayCache szAssertion szAudience channelBindings verificationTime
          ulReqFlags).err = BID_S_TOO_MANY_CERTS := by
  refine ⟨verifyLocal_too_many env context replayCache szAssertion szAudience
    channelBindings verificationTime ulReqFlags unpacked hunpack hmany haud hexp, ?_⟩
  intro verifySignature issuerIsAuthoritative acquireAuthority getAuthorityPublicKey
  refine verifyLocal_too_many _ context replayCache szAssertion szAudience
    channelBindings verificationTime ulReqFlags unpacked ?_ hmany ?_ hexp
  · refine Eq.trans (unpack_congr env _ ?_ ?_ szAssertion) hunpack <;> rfl
  · exact haud

/-- Witness for C23: the sample certificate twice before the sample assertion. -/
theorem C23_too_many_certs_witness :
    (_BIDVerifyLocal sampleEnv sampleContext none (some "c.c.c~c.c.c~a.a.a".toList)
      (some "https://rp.example.com".toList) none 1999999999000 0).err
      = BID_S_TOO_MANY_CERTS :=
  (C23_too_many_certs sampleEnv sampleContext none (some "c.c.c~c.c.c~a.a.a".toList)
    (some "https://rp.example.com".toList) none 1999999999000 0
    ⟨sampleAssertion, [sampleCert, sampleCert]⟩ rfl (by decide) (by decide) (by decide)).1

/-- A `json_object_set` that returns 0 was given a value. -/
theorem json_object_set_ok_some (o : Option Json) (key : CStr) (v : Option Json)
    (h : (json_object_set o key v).1 = 0) : v.isSome = true := by
  cases v with
  | none =>
    cases o with
    | none => simp [json_object_set] at h
    | some j => cases j <;> simp [json_object_set] at h
  | some x => rfl

/-- What `_BIDPopulateIdentity` has stored when it returns `BID_S_OK`. -/
theorem populateIdentity_ok (errUnassigned : BIDError) (backedAssertion : BIDBackedAssertion)
    (h : (_BIDPopulateIdentity errUnassigned backedAssertion).1 = BID_S_OK) :
    ∃ identity,
      (_BIDPopulateIdentity errUnassigned backedAssertion).2 = some identity ∧
      (json_object_get identity.Attributes "email".toList
          = json_object_get (json_object_get (_BIDLeafCert backedAssertion)
            "principal".toList) "email".toList ∧
        (json_object_get identity.Attributes "email".toList).isSome = true) ∧
      (json_object_get identity.Attributes "issuer".toList
          = json_object_get (_BIDLeafCert backedAssertion) "iss".toList ∧
        (json_object_get identity.Attributes "issuer".toList).isSome = true) ∧
      (json_object_get identity.Attributes "audience".toList
          = json_object_get backedAssertion.Assertion.Payload "aud".toList ∧
        (json_object_get identity.Attributes "audience".toList).isSome = true) ∧
      (json_object_get identity.Attributes "expires".toList
          = json_object_get backedAssertion.Assertion.Payload "exp".toList ∧
        (json_object_get identity.Attributes "expires".toList).isSome = true) := by
  unfold _BIDPopulateIdentity at h ⊢
  simp only at h ⊢
  split_ifs at h ⊢ with hp h1 h2 h3 h4
  have e1 := not_not.mp h1
  have e2 := not_not.mp h2
  have e3 := not_not.mp h3
  have e4 := not_not.mp h4
  have g4 := json_object_get_set_same _ _ _ e4
  have g3 := json_object_get_set_same _ _ _ e3
  have g2 := json_object_get_set_same _ _ _ e2
  have g1 := json_object_get_set_same _ _ _ e1
  have v4 := json_object_set_ok_some _ _ _ e4
  have v3 := json_object_set_ok_some _ _ _ e3
  have v2 := json_object_set_ok_some _ _ _ e2
  have v1 := json_object_set_ok_some _ _ _ e1
  refine ⟨_, rfl, ?_, ?_, ?_, ?_⟩
  · have hx : ∀ x, x = json_object_get (json_object_get (_BIDLeafCert backedAssertion)
        "principal".toList) "email".toList → x.isSome = true := fun x hx => hx ▸ v1
    refine ⟨?_, hx _ ?_⟩ <;>
    · dsimp only
      rw [json_object_get_set_other _ _ _ _ (by decide),
        json_object_get_set_other _ _ _ _ (by decide),
        json_object_get_set_other _ _ _ _ (by decide)]
      exact g1
  · have hx : ∀ x, x = json_object_get (_BIDLeafCert backedAssertion) "iss".toList →
        x.isSome = true := fun x hx => hx ▸ v3
    refine ⟨?_, hx _ ?_⟩ <;>
    · dsimp only
      rw [json_object_get_set_other _ _ _ _ (by decide)]
      exact g3
  · have hx : ∀ x, x = json_object_get backedAssertion.Assertion.Payload "aud".toList →
        x.isSome = true := fun x hx => hx ▸ v2
    refine ⟨?_, hx _ ?_⟩ <;>
    · dsimp only
      rw [json_object_get_set_other _ _ _ _ (by decide),
        json_object_get_set_other _ _ _ _ (by decide)]
      exact g2
  · have hx : ∀ x, x = json_object_get backedAssertion.Assertion.Payload "exp".toList →
        x.isSome = true := fun x hx => hx ▸ v4
    exact ⟨g4, hx _ g4⟩

/-- When the four values are there, the status of `_BIDPopulateIdentity` is the value
its local `err` holds without having been assigned. -/
theorem populateIdentity_status (errUnassigned : BIDError)
    (backedAssertion : BIDBackedAssertion) (email audience issuer expires : Json)
    (hemail : json_object_get (json_object_get (_BIDLeafCert backedAssertion)
      "principal".toList) "email".toList = some email)
    (haud : json_object_get backedAssertion.Assertion.Payload "aud".toList = some audience)
    (hiss : json_object_get (_BIDLeafCert backedAssertion) "iss".toList = some issuer)
    (hexp : json_object_get backedAssertion.Assertion.Payload "exp".toList = some expires) :
    (_BIDPopulateIdentity errUnassigned backedAssertion).1 = errUnassigned := by
  have hprincipal : (json_object_get (_BIDLeafCert backedAssertion)
      "principal".toList).isNone = false := by
    cases hp : json_object_get (_BIDLeafCert backedAssertion) "principal".toList with
    | none =>
      rw [hp] at hemail
      simp [json_object_get] at hemail
    | some p => rfl
  unfold _BIDPopulateIdentity
  simp only [hemail, haud, hiss, hexp, hprincipal, json_object_set, Option.isNone_some,
    Bool.false_eq_true, or_self, if_false, ne_eq, not_true_eq_false]

/-- C24: when `_BIDPopulateIdentity` returns `BID_S_OK` it has stored an identity whose
attributes `email`, `issuer`, `audience` and `expires` are the `email` of the leaf
certificate's `principal`, the leaf certificate's `iss`, the assertion's `aud` and the
assertion's `exp`, all four present; when the leaf certificate has no `principal` or the
principal has no `email` it fails with `BID_S_MISSING_PRINCIPAL` and stores nothing. -/
theorem C24_populate_identity (errUnassigned : BIDError)
    (backedAssertion : BIDBackedAssertion) :
    ((_BIDPopulateIdentity errUnassigned backedAssertion).1 = BID_S_OK →
      ∃ identity,
        (_BIDPopulateIdentity errUnassigned backedAssertion).2 = some identity ∧
        (json_object_get identity.Attributes "email".toList
            = json_object_get (json_object_get (_BIDLeafCert backedAssertion)
              "principal".toList) "email".toList ∧
          (json_object_get identity.Attributes "email".toList).isSome = true) ∧
        (json_object_get identity.Attributes "issuer".toList
            = json_object_get (_BIDLeafCert backedAssertion) "iss".toList ∧
          (json_object_get identity.Attributes "issuer".toList).isSome = true) ∧
        (json_object_get identity.Attributes "audience".toList
            = json_object_get backedAssertion.Assertion.Payload "aud".toList ∧
          (json_object_get identity.Attributes "audience".toList).isSome = true) ∧
        (json_object_get identity.Attributes "expires".toList
            = json_object_get backedAssertion.Assertion.Payload "exp".toList ∧
          (json_object_get identity.Attributes "expires".toList).isSome = true)) ∧
      (json_object_get (_BIDLeafCert backedAssertion) "principal".toList = none ∨
          json_object_get (json_object_get (_BIDLeafCert backedAssertion)
            "principal".toList) "email".toList = none →
        _BIDPopulateIdentity errUnassigned backedAssertion
          = (BID_S_MISSING_PRINCIPAL, none)) := by
  refine ⟨populateIdentity_ok errUnassigned backedAssertion, ?_⟩
  intro hmissing
  have hcond : (json_object_get (_BIDLeafCert backedAssertion) "principal".toList).isNone
        = true ∨
      (json_object_get (json_object_get (_BIDLeafCert backedAssertion)
        "principal".toList) "email".toList).isNone = true := by
    rcases hmissing with h | h
    · exact Or.inl (by rw [h]; rfl)
    · exact Or.inr (by rw [h]; rfl)
  unfold _BIDPopulateIdentity
  simp only
  rw [if_pos hcond]

/-- Witness for C24: the sample backed assertion gives the email alice@example.org; a
leaf certificate without `principal` gives `BID_S_MISSING_PRINCIPAL`. -/
theorem C24_populate_identity_witness :
    (_BIDPopulateIdentity BID_S_OK sampleBacked).1 = BID_S_OK ∧
      (∃ identity,
        (_BIDPopulateIdentity BID_S_OK sampleBacked).2 = some identity ∧
        json_string_value (json_object_get identity.Attributes "email".toList)
          = some "alice@example.org".toList) ∧
      _BIDPopulateIdentity BID_S_OK ⟨sampleAssertion, [sampleAssertion]⟩
        = (BID_S_MISSING_PRINCIPAL, none) :=
  ⟨by decide,
    (((C24_populate_identity BID_S_OK sampleBacked).1 (by decide)).imp
      (fun _ h => ⟨h.1, by rw [h.2.1.1]; rfl⟩)),
    (C24_populate_identity BID_S_OK ⟨sampleAssertion, [sampleAssertion]⟩).2
      (Or.inl (by rfl))⟩

/-! ### Audiences, big numbers and error strings (C25 to C28) -/

/-- Packing in a GSS context without channel bindings. -/
theorem packAudience_gss_none (env : Env) (context : BIDContext) (spn : CStr)
    (hgss : (context.ContextOptions &&& BID_CONTEXT_GSS) ≠ 0) :
    _BIDPackAudience env context (some spn) none
      = (BID_S_OK, some (env.BID_GSS_AUDIENCE_PREFIX ++ spn)) := by
  unfold _BIDPackAudience
  simp only [if_neg hgss, ne_eq, not_true_eq_false, if_false, List.length_nil,
    List.append_nil]

/-- Packing in a GSS context with channel bindings whose encoding is not empty. -/
theorem packAudience_gss_some (env : Env) (context : BIDContext) (spn : CStr)
    (bytes : List Octet) (encoded : CStr)
    (hgss : (context.ContextOptions &&& BID_CONTEXT_GSS) ≠ 0)
    (henc : env._BIDBase64UrlEncode bytes = (BID_S_OK, encoded)) (hne : encoded ≠ []) :
    _BIDPackAudience env context (some spn) (some bytes)
      = (BID_S_OK, some (env.BID_GSS_AUDIENCE_PREFIX ++ spn ++ '#' :: encoded)) := by
  have hlen : ¬ encoded.length = 0 := fun h => hne (List.length_eq_zero.mp h)
  unfold _BIDPackAudience
  simp only [if_neg hgss, henc, ne_eq, not_true_eq_false, if_false, hlen,
    not_false_eq_true, if_true, List.append_assoc, List.singleton_append]

/-- Packing in a GSS context with channel bindings whose encoding is empty. -/
theorem packAudience_gss_empty (env : Env) (context : BIDContext) (spn : CStr)
    (bytes : List Octet)
    (hgss : (context.ContextOptions &&& BID_CONTEXT_GSS) ≠ 0)
    (henc : env._BIDBase64UrlEncode bytes = (BID_S_OK, [])) :
    _BIDPackAudience env context (some spn) (some bytes)
      = (BID_S_OK, some (env.BID_GSS_AUDIENCE_PREFIX ++ spn)) := by
  unfold _BIDPackAudience
  simp only [if_neg hgss, henc, ne_eq, not_true_eq_false, if_false, List.length_nil,
    List.append_nil]

/-- Packing in a plain context without channel bindings. -/
theorem packAudience_plain (env : Env) (context : BIDContext) (spn : CStr)
    (hplain : (context.ContextOptions &&& BID_CONTEXT_GSS) = 0) :
    _BIDPackAudience env context (some spn) none = (BID_S_OK, some spn) := by
  unfold _BIDPackAudience
  simp only [if_pos hplain, Option.isSome_none, Bool.false_eq_true, if_false,
    _BIDDuplicateString, ne_eq, not_true_eq_false]

/-- C25: in a GSS context `_BIDPackAudience` returns the prefix followed by the name,
followed by `#` and the encoded channel bindings exactly when bindings are supplied and
their encoding is not empty; in a plain context it returns the audience unchanged and
fails with `BID_S_INVALID_PARAMETER` when bindings are supplied; a null audience fails
with `BID_S_INVALID_PARAMETER` in both. -/
theorem C25_pack_audience (env : Env) (context : BIDContext) (spn : CStr)
    (channelBindings : Option (List Octet)) :
    ((context.ContextOptions &&& BID_CONTEXT_GSS) ≠ 0 →
        _BIDPackAudience env context (some spn) none
          = (BID_S_OK, some (env.BID_GSS_AUDIENCE_PREFIX ++ spn)) ∧
        (∀ bytes encoded, env._BIDBase64UrlEncode bytes = (BID_S_OK, encoded) →
          (encoded ≠ [] →
            _BIDPackAudience env context (some spn) (some bytes)
              = (BID_S_OK, some (env.BID_GSS_AUDIENCE_PREFIX ++ spn ++ '#' :: encoded))) ∧
          (encoded = [] →
            _BIDPackAudience env context (some spn) (some bytes)
              = (BID_S_OK, some (env.BID_GSS_AUDIENCE_PREFIX ++ spn))))) ∧
      ((context.ContextOptions &&& BID_CONTEXT_GSS) = 0 →
        _BIDPackAudience env context (some spn) none = (BID_S_OK, some spn) ∧
        (∀ bytes, _BIDPackAudience env context (some spn) (some bytes)
          = (BID_S_INVALID_PARAMETER, none))) ∧
      _BIDPackAudience env context none channelBindings = (BID_S_INVALID_PARAMETER, none) := by
  refine ⟨?_, ?_, rfl⟩
  · intro hgss
    refine ⟨packAudience_gss_none env context spn hgss, ?_⟩
    intro bytes encoded henc
    constructor
    · exact packAudience_gss_some env context spn bytes encoded hgss henc
    · intro he
      subst he
      exact packAudience_gss_empty env context spn bytes hgss henc
  · intro hplain
    refine ⟨packAudience_plain env context spn hplain, ?_⟩
    intro bytes
    unfold _BIDPackAudience
    simp only [if_pos hplain, Option.isSome_some, if_true]

/-- Witness for C25: the name host@rp with the bindings 1, 2 and without bindings in a GSS
context (prefix `urn:x-gss:`), and an audience in a plain context. -/
theorem C25_pack_audience_witness :
    _BIDPackAudience sampleEnv ⟨16, 300, 36000, none, none⟩ (some "host@rp".toList)
        (some [1, 2])
        = (BID_S_OK, some "urn:x-gss:host@rp#abac".toList) ∧
      _BIDPackAudience sampleEnv ⟨16, 300, 36000, none, none⟩ (some "host@rp".toList) none
        = (BID_S_OK, some "urn:x-gss:host@rp".toList) ∧
      _BIDPackAudience sampleEnv sampleContext (some "https://rp.example.com".toList) none
        = (BID_S_OK, some "https://rp.example.com".toList) :=
  ⟨((C25_pack_audience sampleEnv ⟨16, 300, 36000, none, none⟩ "host@rp".toList none).1
      (by decide)).2 [1, 2] "abac".toList (by decide) |>.1 (by decide),
    ((C25_pack_audience sampleEnv ⟨16, 300, 36000, none, none⟩ "host@rp".toList none).1
      (by decide)).1,
    ((C25_pack_audience sampleEnv sampleContext "https://rp.example.com".toList none).2.1
      (by decide)).1⟩

/-- Every character is a digit exactly when the count of digits is the length. -/
theorem countP_isdigit_eq_length (v : CStr) :
    v.countP isdigit = v.length ↔ v.all isdigit = true := by
  rw [List.countP_eq_length, List.all_eq_true]

/-- C26: `_BIDGetJsonBNValue` fails with `BID_S_NO_KEY` for a missing member and with
`BID_S_INVALID_KEY` for a member that is not a string. For a string `v`: when base64url
is requested or the key is not a legacy key, `v` is decoded and read as a big-endian
number, `BID_S_INVALID_KEY` when the decoding fails; for a legacy key read with another
encoding, `v` is parsed with `BN_dec2bn` when all its characters are digits and with
`BN_hex2bn` otherwise, `BID_S_INVALID_KEY` when the parse returns 0. -/
theorem C26_bn_value (env : Env) (ssl : OpenSSL) (jwk : BIDJWK) (key : CStr)
    (encoding : Nat) :
    (json_object_get jwk key = none →
        _BIDGetJsonBNValue env ssl jwk (some key) encoding = (BID_S_NO_KEY, none)) ∧
      (∀ j, json_object_get jwk key = some j → json_string_value (some j) = none →
        _BIDGetJsonBNValue env ssl jwk (some key) encoding = (BID_S_INVALID_KEY, none)) ∧
      (∀ v, json_string_value (json_object_get jwk key) = some v →
        (encoding = env.BID_ENCODING_BASE64_URL ∨ env._BIDIsLegacyJWK jwk = false →
          ((env._BIDBase64UrlDecode v).1 = BID_S_OK →
            _BIDGetJsonBNValue env ssl jwk (some key) encoding
              = (BID_S_OK, some (BN_bin2bn (env._BIDBase64UrlDecode v).2 : Int))) ∧
          ((env._BIDBase64UrlDecode v).1 ≠ BID_S_OK →
            _BIDGetJsonBNValue env ssl jwk (some key) encoding
              = (BID_S_INVALID_KEY, none))) ∧
        (encoding ≠ env.BID_ENCODING_BASE64_URL → env._BIDIsLegacyJWK jwk = true →
          (v.all isdigit = true →
            _BIDGetJsonBNValue env ssl jwk (some key) encoding
              = (if (ssl.BN_dec2bn v).1 ≠ 0 then BID_S_OK else BID_S_INVALID_KEY,
                (ssl.BN_dec2bn v).2)) ∧
          (v.all isdigit = false →
            _BIDGetJsonBNValue env ssl jwk (some key) encoding
              = (if (ssl.BN_hex2bn v).1 ≠ 0 then BID_S_OK else BID_S_INVALID_KEY,
                (ssl.BN_hex2bn v).2)))) := by
  refine ⟨?_, ?_, ?_⟩
  · intro hnone
    unfold _BIDGetJsonBNValue
    simp only [hnone, Option.isNone_none, if_true]
  · intro j hj hstr
    unfold _BIDGetJsonBNValue
    simp only [hj, Option.isNone_some, Bool.false_eq_true, if_false, hstr]
  · intro v hv
    have hsome : (json_object_get jwk key).isNone = false := by
      cases hg : json_object_get jwk key with
      | none =>
        rw [hg] at hv
        simp [json_string_value] at hv
      | some j => rfl
    constructor
    · intro hb64
      constructor
      · intro hdec
        unfold _BIDGetJsonBNValue
        simp only [hsome, Bool.false_eq_true, if_false, hv, if_pos hb64, hdec, if_true]
      · intro hdec
        unfold _BIDGetJsonBNValue
        simp only [hsome, Bool.false_eq_true, if_false, hv, if_pos hb64, if_neg hdec]
    · intro henc hlegacy
      have hnot : ¬ (encoding = env.BID_ENCODING_BASE64_URL ∨ env._BIDIsLegacyJWK jwk = false) := by
        rintro (h | h)
        · exact henc h
        · rw [hlegacy] at h
          exact absurd h (by decide)
      constructor
      · intro hall
        have hcount := (countP_isdigit_eq_length v).mpr hall
        unfold _BIDGetJsonBNValue
        simp only [hsome, Bool.false_eq_true, if_false, hv, if_neg hnot, hcount, if_true]
        split_ifs <;> rfl
      · intro hall
        have hcount : ¬ v.countP isdigit = v.length := by
          intro hc
          rw [(countP_isdigit_eq_length v).mp hc] at hall
          exact absurd hall (by decide)
        unfold _BIDGetJsonBNValue
        simp only [hsome, Bool.false_eq_true, if_false, hv, if_neg hnot, if_neg hcount]
        split_ifs <;> rfl

/-- Witness for C26: the legacy values `255` (decimal), `1f` (hexadecimal) and `xyz`
(no number), a key with a `version` whose value `AQI` decodes to the bytes 1, 2, and a
missing member. -/
theorem C26_bn_value_witness :
    _BIDGetJsonBNValue sampleEnv sampleSSL
        (some (Json.object [("n".toList, Json.string "255".toList)])) (some "n".toList) 0
        = (BID_S_OK, some 255) ∧
      _BIDGetJsonBNValue sampleEnv sampleSSL
        (some (Json.object [("n".toList, Json.string "1f".toList)])) (some "n".toList) 0
        = (BID_S_OK, some 31) ∧
      _BIDGetJsonBNValue sampleEnv sampleSSL
        (some (Json.object [("n".toList, Json.string "xyz".toList)])) (some "n".toList) 0
        = (BID_S_INVALID_KEY, none) ∧
      _BIDGetJsonBNValue sampleEnv sampleSSL
        (some (Json.object [("version".toList, Json.string "2012.08.15".toList),
          ("n".toList, Json.string "AQI".toList)])) (some "n".toList) 0
        = (BID_S_OK, some 258) ∧
      _BIDGetJsonBNValue sampleEnv sampleSSL
        (some (Json.object [("e".toList, Json.string "3".toList)])) (some "n".toList) 0
        = (BID_S_NO_KEY, none) :=
  ⟨((C26_bn_value sampleEnv sampleSSL
      (some (Json.object [("n".toList, Json.string "255".toList)])) "n".toList 0).2.2
      "255".toList rfl).2 (by decide) rfl |>.1 (by decide),
    ((C26_bn_value sampleEnv sampleSSL
      (some (Json.object [("n".toList, Json.string "1f".toList)])) "n".toList 0).2.2
      "1f".toList rfl).2 (by decide) rfl |>.2 (by decide),
    by decide,
    ((C26_bn_value sampleEnv sampleSSL
      (some (Json.object [("version".toList, Json.string "2012.08.15".toList),
        ("n".toList, Json.string "AQI".toList)])) "n".toList 0).2.2
      "AQI".toList rfl).1 (Or.inr rfl) |>.1 rfl,
    (C26_bn_value sampleEnv sampleSSL
      (some (Json.object [("e".toList, Json.string "3".toList)])) "n".toList 0).1 rfl⟩

set_option maxRecDepth 100000 in
/-- The descriptions of the error table are pairwise different. -/
theorem errorTable_nodup : _BIDErrorTable.Nodup := by
  decide

/-- C27: the codes of `BID_S_OK` and `BID_S_UNKNOWN_ERROR_CODE` are 0 and 44; the header
has 45 enumerators and the table 45 descriptions, pairwise different; for a code from 0
to 44 `BIDErrorToString` returns `BID_S_OK` and the description at that index, so that
each enumerator gets the description at its own position; for any other number it
returns `BID_S_UNKNOWN_ERROR_CODE` and no string. -/
theorem C27_error_strings (error : Int) :
    (errorCode BID_S_OK = 0 ∧ errorCode BID_S_UNKNOWN_ERROR_CODE = 44) ∧
      (headerEnumerators.length = 45 ∧ _BIDErrorTable.length = 45 ∧ headerEnumerators.Nodup ∧
        _BIDErrorTable.Nodup) ∧
      (0 ≤ error ∧ error ≤ 44 →
        ∃ description,
          BIDErrorToString error = (BID_S_OK, some description) ∧
            _BIDErrorTable[error.toNat]? = some description) ∧
      (error < 0 ∨ 44 < error → BIDErrorToString error = (BID_S_UNKNOWN_ERROR_CODE, none)) ∧
      (∀ e ∈ headerEnumerators,
        BIDErrorToString (errorCode e)
          = (BID_S_OK, _BIDErrorTable[headerEnumerators.indexOf e]?)) ∧
      (BIDErrorToString (errorCode BID_S_BAD_AUDIENCE) = (BID_S_OK, some "Bad audience".toList) ∧
        BIDErrorToString (errorCode BID_S_INVALID_JSON_WEB_TOKEN)
          = (BID_S_OK, some "Invalid JSON web token".toList) ∧
        BIDErrorToString (errorCode BID_S_OK) = (BID_S_OK, some "Success".toList) ∧
        BIDErrorToString (errorCode BID_S_UNKNOWN_ERROR_CODE)
          = (BID_S_OK, some "Unknown error code".toList)) := by
  have h0 : errorCode BID_S_OK = 0 := by decide
  have h44 : errorCode BID_S_UNKNOWN_ERROR_CODE = 44 := by decide
  refine ⟨⟨h0, h44⟩, ⟨by decide, by decide, by decide, errorTable_nodup⟩, ?_, ?_, ?_,
    by decide⟩
  · intro hrange
    have hlt : error.toNat < _BIDErrorTable.length := by
      have hlen : _BIDErrorTable.length = 45 := by decide
      omega
    refine ⟨_BIDErrorTable[error.toNat], ?_, List.getElem?_eq_getElem hlt⟩
    unfold BIDErrorToString
    rw [h0, h44, if_neg (by omega), List.getElem?_eq_getElem hlt]
  · intro hout
    unfold BIDErrorToString
    rw [h0, h44, if_pos (by omega)]
  · intro e he
    have hidx : headerEnumerators.indexOf e < 45 := by
      have := List.indexOf_lt_length.mpr he
      have hlen : headerEnumerators.length = 45 := by decide
      omega
    unfold BIDErrorToString
    rw [h0, h44]
    unfold errorCode
    rw [if_neg (by omega)]
    simp

/-- Witness for C27: the codes 13, 45 and -1. -/
theorem C27_error_strings_witness :
    BIDErrorToString 13 = (BID_S_OK, some "Too many certs".toList) ∧
      BIDErrorToString 45 = (BID_S_UNKNOWN_ERROR_CODE, none) ∧
      BIDErrorToString (-1) = (BID_S_UNKNOWN_ERROR_CODE, none) :=
  ⟨by decide, (C27_error_strings 45).2.2.2.1 (Or.inr (by decide)),
    (C27_error_strings (-1)).2.2.2.1 (Or.inl (by decide))⟩

/-- A string without the character has no last occurrence of it. -/
theorem strrchr_none_of_not_mem (s : CStr) (c : Char) (h : c ∉ s) : strrchr s c = none := by
  induction s with
  | nil => rfl
  | cons x xs ih =>
    have hx : ¬ x = c := fun e => h (by rw [e]; exact List.mem_cons_self _ _)
    have hxs : c ∉ xs := fun hm => h (List.mem_cons_of_mem _ hm)
    simp only [strrchr, ih hxs, if_neg hx]

/-- The last occurrence of a character that does not occur after it. -/
theorem strrchr_append (a b : CStr) (c : Char) (h : c ∉ b) :
    strrchr (a ++ c :: b) c = some (c :: b) := by
  induction a with
  | nil => simp only [List.nil_append, strrchr, strrchr_none_of_not_mem b c h, if_true]
  | cons x xs ih =>
    rw [List.cons_append, strrchr, ih]

/-- Unpacking, in a GSS context, the prefix followed by a non-empty name without `#`. -/
theorem unpackAudience_gss_plain (env : Env) (context : BIDContext) (spn : CStr)
    (hgss : (context.ContextOptions &&& BID_CONTEXT_GSS) ≠ 0)
    (hspn : spn ≠ []) (hhash : '#' ∉ spn) :
    _BIDUnpackAudience env context (some (env.BID_GSS_AUDIENCE_PREFIX ++ spn))
      = (BID_S_OK, some spn, none) := by
  have hlen : ¬ ((env.BID_GSS_AUDIENCE_PREFIX ++ spn).length ≤ env.BID_GSS_AUDIENCE_PREFIX.length ∨
      (env.BID_GSS_AUDIENCE_PREFIX ++ spn).take env.BID_GSS_AUDIENCE_PREFIX.length
        ≠ env.BID_GSS_AUDIENCE_PREFIX) := by
    have hpos : 0 < spn.length := List.length_pos.mpr hspn
    rw [List.take_left, List.length_append]
    rintro (h | h)
    · omega
    · exact h rfl
  unfold _BIDUnpackAudience
  simp only [if_neg hgss, if_neg hlen, List.drop_left,
    strrchr_none_of_not_mem spn '#' hhash]

/-- Unpacking, in a GSS context, the prefix followed by a name, `#` and a non-empty text
without `#`: the channel bindings are what the decoder makes of the text. -/
theorem unpackAudience_gss_bindings (env : Env) (context : BIDContext) (spn encoded : CStr)
    (bytes : List Octet)
    (hgss : (context.ContextOptions &&& BID_CONTEXT_GSS) ≠ 0)
    (hne : encoded ≠ []) (hhash : '#' ∉ encoded)
    (hdec : env._BIDBase64UrlDecode encoded = (BID_S_OK, bytes)) :
    _BIDUnpackAudience env context
        (some (env.BID_GSS_AUDIENCE_PREFIX ++ spn ++ '#' :: encoded))
      = (BID_S_OK, some spn, some bytes) := by
  have hlen : ¬ ((env.BID_GSS_AUDIENCE_PREFIX ++ (spn ++ '#' :: encoded)).length
        ≤ env.BID_GSS_AUDIENCE_PREFIX.length ∨
      (env.BID_GSS_AUDIENCE_PREFIX ++ (spn ++ '#' :: encoded)).take
        env.BID_GSS_AUDIENCE_PREFIX.length ≠ env.BID_GSS_AUDIENCE_PREFIX) := by
    rw [List.take_left]
    simp only [List.length_append, List.length_cons]
    rintro (h | h)
    · omega
    · exact h rfl
  have htake : (spn ++ '#' :: encoded).take
      ((spn ++ '#' :: encoded).length - ('#' :: encoded).length) = spn := by
    have : (spn ++ '#' :: encoded).length - ('#' :: encoded).length = spn.length := by
      simp only [List.length_append, List.length_cons]
      omega
    rw [this, List.take_left]
  unfold _BIDUnpackAudience
  rw [List.append_assoc]
  simp only [if_neg hgss, if_neg hlen, List.drop_left, strrchr_append spn encoded '#' hhash,
    List.drop_one, List.tail_cons, ne_eq, hne, not_false_eq_true, if_true, hdec,
    not_true_eq_false, if_false, htake]

/-- C28: in a GSS context, for a non-empty name without `#`, unpacking what
`_BIDPackAudience` packed returns the name, with no channel bindings when none were
packed and with the same bytes when bindings were packed (no bindings when the bytes are
empty), given that the encoder's text for the bytes has no `#`, decodes to the bytes and
is empty only for no bytes; in a plain context unpacking a packed audience returns the
audience and no channel bindings. -/
theorem C28_audience_round_trip (env : Env) (context : BIDContext) (spn : CStr) :
    ((context.ContextOptions &&& BID_CONTEXT_GSS) ≠ 0 → spn ≠ [] → '#' ∉ spn →
        _BIDUnpackAudience env context (_BIDPackAudience env context (some spn) none).2
          = (BID_S_OK, some spn, none) ∧
        (∀ bytes encoded, env._BIDBase64UrlEncode bytes = (BID_S_OK, encoded) →
          '#' ∉ encoded → env._BIDBase64UrlDecode encoded = (BID_S_OK, bytes) →
          (bytes ≠ [] → encoded ≠ []) →
          (_BIDPackAudience env context (some spn) (some bytes)).1 = BID_S_OK ∧
          (_BIDUnpackAudience env context
            (_BIDPackAudience env context (some spn) (some bytes)).2).1 = BID_S_OK ∧
          (_BIDUnpackAudience env context
            (_BIDPackAudience env context (some spn) (some bytes)).2).2.1 = some spn ∧
          ((_BIDUnpackAudience env context
            (_BIDPackAudience env context (some spn) (some bytes)).2).2.2).getD [] = bytes)) ∧
      ((context.ContextOptions &&& BID_CONTEXT_GSS) = 0 →
        _BIDUnpackAudience env context (_BIDPackAudience env context (some spn) none).2
          = (BID_S_OK, some spn, none)) := by
  constructor
  · intro hgss hspn hhash
    constructor
    · rw [packAudience_gss_none env context spn hgss]
      exact unpackAudience_gss_plain env context spn hgss hspn hhash
    · intro bytes encoded henc hnohash hdec hnonempty
      by_cases he : encoded = []
      · subst he
        have hb : bytes = [] := by
          by_contra hb
          exact hnonempty hb rfl
        rw [packAudience_gss_empty env context spn bytes hgss henc]
        refine ⟨rfl, ?_, ?_, ?_⟩
        all_goals
          show _ = _
          dsimp only
          rw [unpackAudience_gss_plain env context spn hgss hspn hhash]
        · exact hb.symm
      · rw [packAudience_gss_some env context spn bytes encoded hgss henc he]
        refine ⟨rfl, ?_, ?_, ?_⟩
        all_goals
          show _ = _
          dsimp only
          rw [unpackAudience_gss_bindings env context spn encoded bytes hgss he hnohash hdec]
        · rfl
  · intro hplain
    rw [packAudience_plain env context spn hplain]
    unfold _BIDUnpackAudience
    simp only [if_pos hplain, _BIDDuplicateString, ne_eq, not_true_eq_false, if_false]

/-- Witness for C28: the name host@rp without bindings and with the bindings 1, 2. -/
theorem C28_audience_round_trip_witness :
    _BIDUnpackAudience sampleEnv ⟨16, 300, 36000, none, none⟩
        (_BIDPackAudience sampleEnv ⟨16, 300, 36000, none, none⟩ (some "host@rp".toList)
          none).2
        = (BID_S_OK, some "host@rp".toList, none) ∧
      (_BIDUnpackAudience sampleEnv ⟨16, 300, 36000, none, none⟩
        (_BIDPackAudience sampleEnv ⟨16, 300, 36000, none, none⟩ (some "host@rp".toList)
          (some [1, 2])).2).2.2.getD [] = [1, 2] :=
  ⟨((C28_audience_round_trip sampleEnv ⟨16, 300, 36000, none, none⟩ "host@rp".toList).1
      (by decide) (by decide) (by decide)).1,
    (((C28_audience_round_trip sampleEnv ⟨16, 300, 36000, none, none⟩ "host@rp".toList).1
      (by decide) (by decide) (by decide)).2 [1, 2] "abac".toList (by decide) (by decide)
      (by decide) (by decide)).2.2.2⟩

/-! ### Replay check and lifetimes (C29, C30) -/

/-- C29: once the assertion is digested and encoded, `_BIDCheckReplayCache` returns
`BID_S_OK` whenever the cache lookup fails, whatever the failure, and it returns
`BID_S_REPLAYED_ASSERTION` only when the lookup succeeds with an entry whose `exp`
exceeds the verification time. -/
theorem C29_replay_check_fails_open (env : Env) (context : BIDContext) (szAssertion : CStr)
    (verificationTime : Int)
    (hdigest : (env._BIDDigestAssertion szAssertion).1 = BID_S_OK)
    (hencode : (env._BIDBase64UrlEncode (env._BIDDigestAssertion szAssertion).2).1
      = BID_S_OK) :
    ((env._BIDGetCacheObject context.ReplayCache
          (some (env._BIDBase64UrlEncode (env._BIDDigestAssertion szAssertion).2).2)).1
        ≠ BID_S_OK →
      _BIDCheckReplayCache env context szAssertion verificationTime = BID_S_OK) ∧
    (_BIDCheckReplayCache env context szAssertion verificationTime
        = BID_S_REPLAYED_ASSERTION →
      (env._BIDGetCacheObject context.ReplayCache
          (some (env._BIDBase64UrlEncode (env._BIDDigestAssertion szAssertion).2).2)).1
        = BID_S_OK ∧
      verificationTime < (_BIDGetJsonTimestampValue
        (env._BIDGetCacheObject context.ReplayCache
          (some (env._BIDBase64UrlEncode (env._BIDDigestAssertion szAssertion).2).2)).2
        "exp".toList).2) := by
  rw [checkReplay_eq env context szAssertion verificationTime hdigest hencode]
  constructor
  · intro hfail
    rw [if_neg (fun hc => hfail hc.1)]
  · intro hrep
    by_contra hn
    rw [if_neg hn] at hrep
    exact absurd hrep (by decide)

/-- Witness for C29: a context without a replay cache; the lookup fails with
`BID_S_CACHE_NOT_FOUND` and the check returns `BID_S_OK`. -/
theorem C29_replay_check_fails_open_witness :
    (sampleEnv._BIDGetCacheObject (⟨0, 300, 36000, none, some []⟩ : BIDContext).ReplayCache
        (some (sampleEnv._BIDBase64UrlEncode
          (sampleEnv._BIDDigestAssertion "c.c.c~a.a.a".toList).2).2)).1
        = BID_S_CACHE_NOT_FOUND ∧
      _BIDCheckReplayCache sampleEnv ⟨0, 300, 36000, none, some []⟩ "c.c.c~a.a.a".toList 1000
        = BID_S_OK :=
  ⟨by decide,
    (C29_replay_check_fails_open sampleEnv ⟨0, 300, 36000, none, some []⟩
      "c.c.c~a.a.a".toList 1000 (by decide) (by decide)).1 (by decide)⟩

/-- What `gssBidInquireCred` reports for a credential with an expiry time when neither
the name nor the mechanisms are asked for: with the expiry still ahead it reports the
lifetime 0 and `GSS_S_CREDENTIALS_EXPIRED`, and with the expiry behind it reports the time
since the expiry and `GSS_S_COMPLETE`. -/
theorem inquireCred_lifetime (g : GssEnv) (now : Int) (cred : gss_cred_id_struct)
    (wantUsage : Bool) (hexp : cred.expiryTime ≠ 0) :
    (now ≤ cred.expiryTime →
        (gssBidInquireCred g now cred false true wantUsage false).major
            = GSS_S_CREDENTIALS_EXPIRED ∧
          (gssBidInquireCred g now cred false true wantUsage false).lifetime = some 0) ∧
      (cred.expiryTime < now →
        (gssBidInquireCred g now cred false true wantUsage false).major = GSS_S_COMPLETE ∧
          (gssBidInquireCred g now cred false true wantUsage false).lifetime
            = some (toOMUint32 (now - cred.expiryTime))) := by
  have hname : inquireCredName g cred false = (none, none, none) := rfl
  have hmech : inquireCredMechanisms g cred false = none := rfl
  constructor
  · intro hle
    have hl : inquireCredLifetime now cred = 0 := by
      unfold inquireCredLifetime
      rw [if_neg hexp]
      simp only
      split_ifs with h
      · rfl
      · omega
    unfold gssBidInquireCred
    simp only [hname, hmech, hl, Option.map_none', if_true]
    exact ⟨rfl, rfl⟩
  · intro hlt
    have hl : inquireCredLifetime now cred = now - cred.expiryTime := by
      unfold inquireCredLifetime
      rw [if_neg hexp]
      simp only
      rw [if_neg (by omega)]
    have hne : ¬ now - cred.expiryTime = 0 := by omega
    unfold gssBidInquireCred
    simp only [hname, hmech, hl, Option.map_none', if_true, hne, if_false]
    exact ⟨rfl, rfl⟩

/-- What `gssBidContextTime` reports for a context with an expiry time. -/
theorem contextTime_lifetime (now expiryTime : Int) (hexp : expiryTime ≠ 0) :
    (expiryTime ≤ now → gssBidContextTime now expiryTime = (GSS_S_CONTEXT_EXPIRED, 0, 0)) ∧
      (now < expiryTime →
        gssBidContextTime now expiryTime
          = (GSS_S_COMPLETE, 0, toOMUint32 (expiryTime - now))) := by
  unfold gssBidContextTime
  rw [if_neg hexp]
  constructor
  · intro h
    simp only
    rw [if_pos (by omega)]
  · intro h
    simp only
    rw [if_neg (by omega)]

/-- C30: `gssBidInquireCred` computes the lifetime as `now - expiryTime`. For a
credential that expires at 2000 it reports, at time 1000, the lifetime 0 and
`GSS_S_CREDENTIALS_EXPIRED`, where `gssBidContextTime` reports 1000 and `GSS_S_COMPLETE`;
for a credential that expired at 1000 it reports, at time 2000, the lifetime 1000 and
`GSS_S_COMPLETE`, where `gssBidContextTime` reports `GSS_S_CONTEXT_EXPIRED`. A credential
with expiry time 0 is reported as `GSS_C_INDEFINITE` and `GSS_S_COMPLETE`. -/
theorem C30_inquire_cred_lifetime_reversed :
    (gssBidInquireCred sampleGssEnv 1000 ⟨0, none, none, 2000⟩ false true false false).major
        = GSS_S_CREDENTIALS_EXPIRED ∧
      (gssBidInquireCred sampleGssEnv 1000 ⟨0, none, none, 2000⟩ false true false
        false).lifetime = some 0 ∧
      gssBidContextTime 1000 2000 = (GSS_S_COMPLETE, 0, 1000) ∧
      (gssBidInquireCred sampleGssEnv 2000 ⟨0, none, none, 1000⟩ false true false false).major
        = GSS_S_COMPLETE ∧
      (gssBidInquireCred sampleGssEnv 2000 ⟨0, none, none, 1000⟩ false true false
        false).lifetime = some 1000 ∧
      gssBidContextTime 2000 1000 = (GSS_S_CONTEXT_EXPIRED, 0, 0) ∧
      (gssBidInquireCred sampleGssEnv 1000 ⟨0, none, none, 0⟩ false true false false).major
        = GSS_S_COMPLETE ∧
      (gssBidInquireCred sampleGssEnv 1000 ⟨0, none, none, 0⟩ false true false
        false).lifetime = some GSS_C_INDEFINITE := by
  decide

end BrowserID
